import Mathlib

/-!
Task reconciliation in the task scheduler database (package `db`).

A shallow embedding of `task_scheduler/go/db/task.go`: the `Task` record,
`Task.Copy`, `Task.Done`, `Task.UpdateFromSwarming`, `TagsForTask`,
`TaskEncoder` and the start of `TaskDecoder.Result`; then the task store, the
retry helpers and the comment store, which are modelled from the spec because
only their tests are among the sources; then theorems about all of them.

Conventions of the embedding.

* A Go `[]string` is an `Option (List String)`: `none` is the nil slice and
  `some []` the empty non-nil slice, which `reflect.DeepEqual` tells apart.
* A Go `map[string]string` is an `AList`, an association list whose keys are
  pairwise distinct.  The order of its entries stands for the order in which
  `range` happens to visit the map.
* A `time.Time` is an instant together with the identity of its location;
  `==` and `reflect.DeepEqual` compare both, `Before` compares instants.
* `UpdateFromSwarming` mutates its receiver and returns `(bool, error)`; here
  it returns the receiver's final value together with both results.
-/

namespace Db

/-! ## Constants -/

def SWARMING_STATE_BOT_DIED : String := "BOT_DIED"
def SWARMING_STATE_CANCELED : String := "CANCELED"
def SWARMING_STATE_COMPLETED : String := "COMPLETED"
def SWARMING_STATE_EXPIRED : String := "EXPIRED"
def SWARMING_STATE_PENDING : String := "PENDING"
def SWARMING_STATE_RUNNING : String := "RUNNING"
def SWARMING_STATE_TIMED_OUT : String := "TIMED_OUT"

def SWARMING_TAG_ALLOW_MILO : String := "allow_milo"
def SWARMING_TAG_ID : String := "sk_id"
def SWARMING_TAG_NAME : String := "sk_name"
def SWARMING_TAG_PARENT_TASK_ID : String := "sk_parent_task_id"
def SWARMING_TAG_PRIORITY : String := "sk_priority"
def SWARMING_TAG_REPO : String := "sk_repo"
def SWARMING_TAG_RETRY_OF : String := "sk_retry_of"
def SWARMING_TAG_REVISION : String := "sk_revision"

/-- The Go type `TaskStatus` is a string type. -/
abbrev TaskStatus := String

def TASK_STATUS_PENDING : TaskStatus := ""
def TASK_STATUS_RUNNING : TaskStatus := "RUNNING"
def TASK_STATUS_SUCCESS : TaskStatus := "SUCCESS"
def TASK_STATUS_FAILURE : TaskStatus := "FAILURE"
def TASK_STATUS_MISHAP : TaskStatus := "MISHAP"

/-! ## Data model -/

/-- A `time.Time` value: the instant in nanoseconds counted from the zero
time, and the identity of the location it carries (`0` for UTC). -/
structure Time where
  nanos : Int
  loc : Nat
deriving DecidableEq

/-- The method `Time.Before`: a comparison of instants. -/
def Time.Before (t u : Time) : Bool := decide (t.nanos < u.nanos)

/-- A Go `[]string`; `none` is the nil slice. -/
abbrev StringSlice := Option (List String)

/-- A Go `map[string]string`. -/
abbrev StringMap := AList (fun _ : String => String)

/-- The built-in `make([]string, n)`. -/
def makeStrings (n : Nat) : List String := List.replicate n ""

/-- The built-in `copy(dst, src)`: overwrites the first
`min (len dst) (len src)` elements of `dst`. -/
def copyStrings (dst src : List String) : List String :=
  src.take dst.length ++ dst.drop src.length

/-- The built-in `append(s, v)` for one value. -/
def appendString (s : StringSlice) (v : String) : StringSlice :=
  some (s.getD [] ++ [v])

/-- The order `<` of Go strings on their characters: lexicographic, a proper
prefix first.  Go compares bytes; on UTF-8 that is the order of code points. -/
def charsLess : List Char → List Char → Bool
  | _, [] => false
  | [], _ :: _ => true
  | a :: as, b :: bs => a.toNat < b.toNat || (a.toNat = b.toNat && charsLess as bs)

/-- The order `<` of Go strings. -/
def stringLess (a b : String) : Bool := charsLess a.data b.data

/-- The library call `sort.Strings`: the slice in ascending order. -/
def sortStrings (s : StringSlice) : StringSlice :=
  s.map (List.insertionSort (fun a b => stringLess b a = false))

/-- The struct `Task`. -/
structure Task where
  Commits : StringSlice := none
  Created : Time := ⟨0, 0⟩
  DbModified : Time := ⟨0, 0⟩
  Finished : Time := ⟨0, 0⟩
  Id : String := ""
  IsolatedOutput : String := ""
  Name : String := ""
  ParentTaskIds : StringSlice := none
  Repo : String := ""
  RetryOf : String := ""
  Revision : String := ""
  Started : Time := ⟨0, 0⟩
  Status : TaskStatus := TASK_STATUS_PENDING
  SwarmingTaskId : String := ""
deriving DecidableEq

/-- The struct `SwarmingRpcsFilesRef`, of which only `Isolated` is read. -/
structure SwarmingRpcsFilesRef where
  Isolated : String := ""
deriving DecidableEq

/-- The fields of `SwarmingRpcsTaskResult` that the package reads.
`OutputsRef` is a pointer, `none` when nil. -/
structure SwarmingRpcsTaskResult where
  AbandonedTs : String := ""
  CompletedTs : String := ""
  CreatedTs : String := ""
  Failure : Bool := false
  OutputsRef : Option SwarmingRpcsFilesRef := none
  StartedTs : String := ""
  State : String := ""
  Tags : List String := []
  TaskId : String := ""
deriving DecidableEq

/-- The helpers of packages `swarming` and `util` that `UpdateFromSwarming`
calls.  Their bodies are not among the sources, so they are parameters:
`swarming.TagValues`, `swarming.ParseTimestamp` and `util.TimeIsZero`.  The
code fixes their types: `TagValues` yields a map from string to string. -/
structure Helpers where
  TagValues : SwarmingRpcsTaskResult → Except String StringMap
  ParseTimestamp : String → Except String Time
  TimeIsZero : Time → Bool

/-- The places where `UpdateFromSwarming` builds an error. -/
inductive UpdateError where
  | missingTaskResult
  | tagValues (cause : String)
  | fieldMismatch (fieldName : String)
  | creationTimeChanged
  | creationTimeUnparseable
  | swarmingTaskIdMismatch
  | unknownState
  | timeUnparseable (name : String)
deriving DecidableEq

/-- What a call of `UpdateFromSwarming` does: it returns, leaving the
receiver as `task`, or it ends the process in `glog.Fatalf`. -/
inductive Outcome where
  | returned (task : Task) (modified : Bool) (err : Option UpdateError)
  | fatal
deriving DecidableEq

/-! ## Operations -/

/-- The method `Task.Done`. -/
def Task.Done (t : Task) : Bool :=
  t.Status ≠ TASK_STATUS_PENDING && t.Status ≠ TASK_STATUS_RUNNING

/-- The method `Task.Success`. -/
def Task.Success (t : Task) : Bool :=
  t.Status = TASK_STATUS_SUCCESS

/-- The slice copy made twice in `Task.Copy`. -/
def copySlice (s : StringSlice) : StringSlice :=
  match s with
  | none => none
  | some xs => some (copyStrings (makeStrings xs.length) xs)

/-- The method `Task.Copy`. -/
def Task.Copy (t : Task) : Task :=
  let commits := copySlice t.Commits
  let parentTaskIds := copySlice t.ParentTaskIds
  { Commits := commits
    Created := t.Created
    DbModified := t.DbModified
    Finished := t.Finished
    Id := t.Id
    IsolatedOutput := t.IsolatedOutput
    Name := t.Name
    ParentTaskIds := parentTaskIds
    Repo := t.Repo
    RetryOf := t.RetryOf
    Revision := t.Revision
    Started := t.Started
    Status := t.Status
    SwarmingTaskId := t.SwarmingTaskId }

/-- The closure `checkOrSetFromTag`; it returns the new value of `*field`. -/
def checkOrSetFromTag (tags : StringMap) (tagName : String) (field : String)
    (fieldName : String) : Except UpdateError String :=
  match tags.lookup tagName with
  | some tagValue =>
    if field = "" then .ok tagValue
    else if field ≠ tagValue then .error (.fieldMismatch fieldName)
    else .ok field
  | none => .ok field

/-- The loop that gathers the values under `SWARMING_TAG_PARENT_TASK_ID`. -/
def collectParentTaskIds (tags : StringMap) : StringSlice :=
  tags.entries.foldl
    (fun parentTaskIds kv =>
      if kv.1 = SWARMING_TAG_PARENT_TASK_ID then appendString parentTaskIds kv.2
      else parentTaskIds)
    none

/-- The check of `CreatedTs`; it returns the new value of `copy.Created`. -/
def checkOrSetCreated (h : Helpers) (created : Time) (createdTs : String) :
    Except UpdateError Time :=
  match h.ParseTimestamp createdTs with
  | .ok sCreated =>
    if h.TimeIsZero created then .ok sCreated
    else if created ≠ sCreated then .error .creationTimeChanged
    else .ok created
  | .error _ => .error .creationTimeUnparseable

/-- The check of `TaskId`; it returns the new value of `copy.SwarmingTaskId`. -/
def checkOrSetSwarmingTaskId (swarmingTaskId taskId : String) :
    Except UpdateError String :=
  if swarmingTaskId = "" then .ok taskId
  else if swarmingTaskId ≠ taskId then .error .swarmingTaskIdMismatch
  else .ok swarmingTaskId

/-- The `switch s.State`; it returns the new value of `copy.Status`. -/
def statusFromState (s : SwarmingRpcsTaskResult) : Except UpdateError TaskStatus :=
  if s.State = SWARMING_STATE_BOT_DIED ∨ s.State = SWARMING_STATE_CANCELED ∨
      s.State = SWARMING_STATE_EXPIRED ∨ s.State = SWARMING_STATE_TIMED_OUT then
    .ok TASK_STATUS_MISHAP
  else if s.State = SWARMING_STATE_PENDING then .ok TASK_STATUS_PENDING
  else if s.State = SWARMING_STATE_RUNNING then .ok TASK_STATUS_RUNNING
  else if s.State = SWARMING_STATE_COMPLETED then
    if s.Failure then .ok TASK_STATUS_FAILURE else .ok TASK_STATUS_SUCCESS
  else .error .unknownState

/-- The read of `s.OutputsRef`. -/
def isolatedOutputOf (s : SwarmingRpcsTaskResult) : String :=
  match s.OutputsRef with
  | none => ""
  | some ref => ref.Isolated

/-- The closure `maybeUpdateTime`; it returns the new value of `*field`. -/
def maybeUpdateTime (h : Helpers) (newTimeStr : String) (field : Time)
    (name : String) : Except UpdateError Time :=
  if newTimeStr = "" then .ok field
  else
    match h.ParseTimestamp newTimeStr with
    | .error _ => .error (.timeUnparseable name)
    | .ok newTime => .ok newTime

/-- The five calls of `checkOrSetFromTag` on the identity fields kept in
tags. -/
def setIdentityFromTags (tags : StringMap) (copy : Task) : Except UpdateError Task := do
  let id ← checkOrSetFromTag tags SWARMING_TAG_ID copy.Id "Id"
  let name ← checkOrSetFromTag tags SWARMING_TAG_NAME copy.Name "Name"
  let repo ← checkOrSetFromTag tags SWARMING_TAG_REPO copy.Repo "Repo"
  let retryOf ← checkOrSetFromTag tags SWARMING_TAG_RETRY_OF copy.RetryOf "RetryOf"
  let revision ← checkOrSetFromTag tags SWARMING_TAG_REVISION copy.Revision "Revision"
  pure { copy with Id := id, Name := name, Repo := repo, RetryOf := retryOf,
                   Revision := revision }

/-- The block that sets `ParentTaskIds`. -/
def setParentTaskIds (tags : StringMap) (copy : Task) : Task :=
  let parentTaskIds := sortStrings (collectParentTaskIds tags)
  { copy with ParentTaskIds := parentTaskIds }

/-- The blocks on `CreatedTs` and on the Swarming `TaskId`. -/
def setCreatedAndSwarmingTaskId (h : Helpers) (copy : Task) (s : SwarmingRpcsTaskResult) :
    Except UpdateError Task := do
  let created ← checkOrSetCreated h copy.Created s.CreatedTs
  let swarmingTaskId ← checkOrSetSwarmingTaskId copy.SwarmingTaskId s.TaskId
  pure { copy with Created := created, SwarmingTaskId := swarmingTaskId }

/-- The blocks on the status and on the isolated output. -/
def setStatusAndOutput (copy : Task) (s : SwarmingRpcsTaskResult) :
    Except UpdateError Task := do
  let status ← statusFromState s
  pure { copy with Status := status, IsolatedOutput := isolatedOutputOf s }

/-- The three calls of `maybeUpdateTime`. -/
def setTimestamps (h : Helpers) (copy : Task) (s : SwarmingRpcsTaskResult) :
    Except UpdateError Task := do
  let started ← maybeUpdateTime h s.StartedTs copy.Started "StartedTs"
  let finished ← maybeUpdateTime h s.CompletedTs copy.Finished "CompletedTs"
  let finished ←
    if s.CompletedTs = "" ∧ copy.Status = TASK_STATUS_MISHAP then
      maybeUpdateTime h s.AbandonedTs finished "AbandonedTs"
    else pure finished
  pure { copy with Started := started, Finished := finished }

/-- The last write: a task that is done and has no start time started when
it finished. -/
def backfillStarted (h : Helpers) (copy : Task) : Task :=
  if copy.Done ∧ h.TimeIsZero copy.Started then { copy with Started := copy.Finished }
  else copy

/-- The body of `UpdateFromSwarming` between taking the copy and comparing it
with the original: every write goes to `copy`, every failure returns. -/
def mergeFromSwarming (h : Helpers) (tags : StringMap) (copy : Task)
    (s : SwarmingRpcsTaskResult) : Except UpdateError Task := do
  let copy ← setIdentityFromTags tags copy
  let copy := setParentTaskIds tags copy
  let copy ← setCreatedAndSwarmingTaskId h copy s
  let copy ← setStatusAndOutput copy s
  let copy ← setTimestamps h copy s
  pure (backfillStarted h copy)

/-- The method `Task.UpdateFromSwarming`; `s` is `none` for a nil report. -/
def UpdateFromSwarming (h : Helpers) (orig : Task) (s : Option SwarmingRpcsTaskResult) :
    Outcome :=
  match s with
  | none => .returned orig false (some .missingTaskResult)
  | some s =>
    match h.TagValues s with
    | .error err => .returned orig false (some (.tagValues err))
    | .ok tags =>
      let copy := orig.Copy
      if orig ≠ copy then .fatal
      else
        match mergeFromSwarming h tags copy s with
        | .error err => .returned orig false (some err)
        | .ok copy =>
          if orig ≠ copy then .returned copy true none
          else .returned orig false none

/-- The function `TagsForTask`.  `sprintfF` stands for `fmt.Sprintf("%f", _)`
on the floating-point type `Float64`; `dimensions` is a map, so its keys are
pairwise distinct. -/
def TagsForTask {Float64 : Type} (sprintfF : Float64 → String) (name id : String)
    (priority : Float64) (repo retryOf revision : String) (dimensions : StringMap)
    (parentTaskIds : List String) : List String :=
  let tags : StringMap :=
    (((((((∅ : StringMap).insert SWARMING_TAG_ALLOW_MILO "1").insert
      SWARMING_TAG_NAME name).insert
      SWARMING_TAG_ID id).insert
      SWARMING_TAG_PRIORITY (sprintfF priority)).insert
      SWARMING_TAG_REPO repo).insert
      SWARMING_TAG_RETRY_OF retryOf).insert
      SWARMING_TAG_REVISION revision
  let tags := dimensions.entries.foldl
    (fun tags kv =>
      let key := "sk_dim_" ++ kv.1
      if (tags.lookup key).isNone then tags.insert key kv.2 else tags)
    tags
  let tagsList := tags.entries.map (fun kv => kv.1 ++ ":" ++ kv.2)
  tagsList ++ parentTaskIds.map (fun id => SWARMING_TAG_PARENT_TASK_ID ++ ":" ++ id)

/-! ## Concrete helpers, used to evaluate the code on examples -/

/-- Splits a tag `key:value` at its first colon. -/
def splitTag (tag : String) : Option (String × String) :=
  match tag.data.span (fun c => c ≠ ':') with
  | (k, _ :: v) => some (String.mk k, String.mk v)
  | (_, []) => none

/-- Modelled from the spec: `swarming.TagValues` is not among the sources.  The
spec says the report exposes "a tag map", and `TagsForTask` writes each tag as
`key:value`; so every tag is split at its first colon and stored under its
key, a tag without a colon is an error. -/
def tagValuesOfTags (s : SwarmingRpcsTaskResult) : Except String StringMap :=
  s.Tags.foldl
    (fun acc tag =>
      match acc, splitTag tag with
      | .ok m, some (k, v) => .ok (m.insert k v)
      | .ok _, none => .error tag
      | .error e, _ => .error e)
    (.ok ∅)

/-- A timestamp parser given by a finite table: the listed strings parse to
the listed times and every other string is rejected. -/
def parseTable (table : List (String × Time)) (ts : String) : Except String Time :=
  match table.lookup ts with
  | some t => .ok t
  | none => .error ts

/-- Seconds from the zero time (January 1, year 1) to the Unix epoch. -/
def unixToInternal : Int := 62135596800

/-- The UTC time `sec` seconds after the Unix epoch. -/
def unixTime (sec : Int) : Time := ⟨(unixToInternal + sec) * 1000000000, 0⟩

/-- A time is zero when it is the zero value or the Unix epoch. -/
def timeIsZero (t : Time) : Bool :=
  t.nanos = 0 || t.nanos = unixToInternal * 1000000000

/-- The helpers used in the examples: tags split at the first colon and the
timestamps of one day in 2016, second by second for three seconds. -/
def exampleHelpers : Helpers where
  TagValues := tagValuesOfTags
  ParseTimestamp := parseTable
    [("2016-01-01T00:00:01", unixTime 1451606401),
     ("2016-01-01T00:00:02", unixTime 1451606402),
     ("2016-01-01T00:00:03", unixTime 1451606403)]
  TimeIsZero := timeIsZero

/-! ## The merge in closed form, and example inputs -/

/-- The task that `mergeFromSwarming` builds once every check has passed. -/
def mergedTask (h : Helpers) (tags : StringMap) (c : Task) (s : SwarmingRpcsTaskResult)
    (id name repo retryOf revision : String) (created : Time) (swarmingTaskId : String)
    (status : TaskStatus) (started finished : Time) : Task :=
  { Commits := c.Commits
    Created := created
    DbModified := c.DbModified
    Finished := finished
    Id := id
    IsolatedOutput := isolatedOutputOf s
    Name := name
    ParentTaskIds := sortStrings (collectParentTaskIds tags)
    Repo := repo
    RetryOf := retryOf
    Revision := revision
    Started :=
      if (status ≠ TASK_STATUS_PENDING ∧ status ≠ TASK_STATUS_RUNNING) ∧
          h.TimeIsZero started = true then finished else started
    Status := status
    SwarmingTaskId := swarmingTaskId }

/-- The three timestamp steps, from the value of `Finished` before the call
to its value after. -/
def finishedStep (h : Helpers) (s : SwarmingRpcsTaskResult) (status : TaskStatus)
    (finished : Time) : Except UpdateError Time :=
  maybeUpdateTime h s.CompletedTs finished "CompletedTs" >>= fun fin1 =>
    if s.CompletedTs = "" ∧ status = TASK_STATUS_MISHAP then
      maybeUpdateTime h s.AbandonedTs fin1 "AbandonedTs"
    else pure fin1

/-- A report of a completed task that started at second 1 and ended at
second 2, tagged with an id and a name. -/
def completedReport : SwarmingRpcsTaskResult :=
  { CreatedTs := "2016-01-01T00:00:01"
    StartedTs := "2016-01-01T00:00:01"
    CompletedTs := "2016-01-01T00:00:02"
    State := "COMPLETED"
    Tags := ["sk_id:task1", "sk_name:Build"]
    TaskId := "swarm1" }

/-- The zero-value task after `completedReport` has been merged into it. -/
def completedTask : Task :=
  { Created := unixTime 1451606401
    Started := unixTime 1451606401
    Finished := unixTime 1451606402
    Id := "task1"
    Name := "Build"
    Status := TASK_STATUS_SUCCESS
    SwarmingTaskId := "swarm1" }

/-- A report like `completedReport` that names another task id. -/
def otherIdReport : SwarmingRpcsTaskResult :=
  { completedReport with Tags := ["sk_id:task2", "sk_name:Build"] }

/-- A report like `completedReport` in a state that is not a Swarming state. -/
def unknownStateReport : SwarmingRpcsTaskResult :=
  { completedReport with State := "KILLED" }

/-- A report of a pending task whose tags are those `TagsForTask` writes for
the two parent tasks `a` and `b`; the priority 0.5 is printed as `0.500000`. -/
def twoParentsReport : SwarmingRpcsTaskResult :=
  { CreatedTs := "2016-01-01T00:00:01"
    State := "PENDING"
    Tags := TagsForTask (fun _ : Unit => "0.500000") "Build" "task1" () "repo" "" "rev" ∅
      ["a", "b"]
    TaskId := "swarm1" }

/-- A report of the same Swarming task as `completedReport`, still running. -/
def runningReport : SwarmingRpcsTaskResult :=
  { CreatedTs := "2016-01-01T00:00:01"
    StartedTs := "2016-01-01T00:00:01"
    State := "RUNNING"
    Tags := ["sk_id:task1", "sk_name:Build"]
    TaskId := "swarm1" }

/-- A report that carries no timestamp but `CreatedTs`, for the Swarming task
of `completedReport`, in state `RUNNING`. -/
def bareReport : SwarmingRpcsTaskResult :=
  { CreatedTs := "2016-01-01T00:00:01"
    State := "RUNNING"
    Tags := ["sk_id:task1", "sk_name:Build"]
    TaskId := "swarm1" }

/-- A report of a task that expired in the queue at second 2 and never
started. -/
def expiredReport : SwarmingRpcsTaskResult :=
  { CreatedTs := "2016-01-01T00:00:01"
    AbandonedTs := "2016-01-01T00:00:02"
    State := "EXPIRED"
    Tags := ["sk_id:task1", "sk_name:Build"]
    TaskId := "swarm1" }

/-- The zero-value task after `expiredReport` has been merged into it. -/
def expiredTask : Task :=
  { Created := unixTime 1451606401
    Started := unixTime 1451606402
    Finished := unixTime 1451606402
    Id := "task1"
    Name := "Build"
    Status := TASK_STATUS_MISHAP
    SwarmingTaskId := "swarm1" }

/-- A report of a completed task whose `CompletedTs`, second 1, lies before
its `StartedTs`, second 2. -/
def backwardsReport : SwarmingRpcsTaskResult :=
  { CreatedTs := "2016-01-01T00:00:01"
    StartedTs := "2016-01-01T00:00:02"
    CompletedTs := "2016-01-01T00:00:01"
    State := "COMPLETED"
    Tags := ["sk_id:task1", "sk_name:Build"]
    TaskId := "swarm1" }

/-- The zero-value task after `backwardsReport` has been merged into it. -/
def backwardsTask : Task :=
  { Created := unixTime 1451606401
    Started := unixTime 1451606402
    Finished := unixTime 1451606401
    Id := "task1"
    Name := "Build"
    Status := TASK_STATUS_SUCCESS
    SwarmingTaskId := "swarm1" }

/-! ## The task encoder and decoder -/

/-- A serialized task: the bytes written by `gob`. -/
abbrev Bytes := List Nat

/-- The struct `TaskEncoder`.  Its two slices are lists: the encoder reads
their length and their elements only, so nil and empty are one value. -/
structure TaskEncoder where
  err : Option String := none
  tasks : List Task := []
  result : List Bytes := []
deriving DecidableEq

/-- The method `TaskEncoder.Process`; `gobEncode` stands for
`gob.NewEncoder(&buf).Encode(t)` followed by `buf.Bytes()`.  It returns the
encoder after the call and the boolean. -/
def TaskEncoder.Process (gobEncode : Task → Except String Bytes) (e : TaskEncoder)
    (t : Task) : TaskEncoder × Bool :=
  if e.err ≠ none then (e, false)
  else
    match gobEncode t with
    | .error err => ({ err := some err, tasks := [], result := [] }, false)
    | .ok buf => ({ e with tasks := e.tasks ++ [t], result := e.result ++ [buf] }, true)

/-- The three values returned by `TaskEncoder.Next`. -/
structure NextReturn where
  task : Option Task
  serialized : Option Bytes
  err : Option String
deriving DecidableEq

/-- The method `TaskEncoder.Next`.  It returns the encoder after the call and
the three results, or `none` when `e.result[0]` is out of range and the call
panics. -/
def TaskEncoder.Next (e : TaskEncoder) : Option (TaskEncoder × NextReturn) :=
  match e.err with
  | some err => some (e, ⟨none, none, some err⟩)
  | none =>
    match e.tasks with
    | [] => some (e, ⟨none, none, none⟩)
    | t :: tasks =>
      match e.result with
      | [] => none
      | serialized :: result =>
        some ({ e with tasks := tasks, result := result }, ⟨some t, some serialized, none⟩)

/-- A call of one of the two methods of a `TaskEncoder`. -/
inductive EncoderCall where
  | process (t : Task)
  | next
deriving DecidableEq

/-- What a call of a method of a `TaskEncoder` returns. -/
inductive EncoderReturn where
  | processed (ok : Bool)
  | next (r : NextReturn)
deriving DecidableEq

/-- One call on an encoder: the encoder after it and what it returned, or
`none` when the call panics. -/
def TaskEncoder.call (gobEncode : Task → Except String Bytes) (e : TaskEncoder) :
    EncoderCall → Option (TaskEncoder × EncoderReturn)
  | .process t => some ((e.Process gobEncode t).1, .processed (e.Process gobEncode t).2)
  | .next => e.Next.map fun r => (r.1, .next r.2)

/-- A sequence of calls on an encoder, one after the other: the encoder at
the end and what each call returned. -/
def TaskEncoder.calls (gobEncode : Task → Except String Bytes) :
    TaskEncoder → List EncoderCall → Option (TaskEncoder × List EncoderReturn)
  | e, [] => some (e, [])
  | e, c :: cs =>
    match e.call gobEncode c with
    | none => none
    | some (e1, r) =>
      match TaskEncoder.calls gobEncode e1 cs with
      | none => none
      | some (e2, rs) => some (e2, r :: rs)

/-- The struct `TaskDecoder`: four channels, each `none` while it is nil and
otherwise named by a number. -/
structure TaskDecoder where
  input : Option Nat := none
  output : Option Nat := none
  result : Option Nat := none
  errors : Option Nat := none
deriving DecidableEq

/-- How a call of `TaskDecoder.Result` begins: it returns at once, or it goes
on to close `d.input` and to wait in the `select`. -/
inductive ResultStart where
  | returned (tasks : Option (List Task)) (err : Option String)
  | closeInputAndSelect
deriving DecidableEq

/-- The method `TaskDecoder.Result` up to its first channel operation. -/
def TaskDecoder.Result (d : TaskDecoder) : ResultStart :=
  if d.result = none then .returned (some []) none
  else .closeInputAndSelect

/-- An encoder for the examples: a task is written as the characters of its
`Id`, and a task without `Id` cannot be written. -/
def exampleEncode (t : Task) : Except String Bytes :=
  if t.Id = "" then .error "no id" else .ok (t.Id.data.map Char.toNat)

/-! ## The task store and the retry helpers, modelled from the spec

Only the tests and the callers of the store are among the sources
(`testutil.go`, `UpdateDBFromSwarmingTask`); the store itself and the two
retry helpers are not. -/

/-- The errors that the spec names for the store, `other` for an error of a
callback, and the two errors that the callback of `UpdateDBFromSwarmingTask`
returns: `errNotModified` and an error of `UpdateFromSwarming`. -/
inductive DbError where
  | concurrentUpdate
  | notFound
  | alreadyExists
  | validation (msg : String)
  | other (msg : String)
  | notModified
  | update (err : UpdateError)
deriving DecidableEq

/-- Modelled from the spec: the `DbModified` values of the store.  The spec has
the store set "a new `DbModified` value (e.g., current wall-clock)" on every
write; here the `n`-th value issued lies `n` nanoseconds after the Unix
epoch, so each value is new and none is zero. -/
def storeTime (n : Nat) : Time := ⟨unixToInternal * 1000000000 + n, 0⟩

/-- Modelled from the spec: the `n`-th `Id` that the store generates, "opaque"
and "URL-safe". -/
def newId (n : Nat) : String := "task-" ++ toString n

/-- Modelled from the spec: the state of a store, which is not among the
sources.  It holds "the current Task" of every `Id`, the number of `DbModified`
values issued and the number of `Id`s generated. -/
structure TaskDb where
  tasks : AList (fun _ : String => Task) := ∅
  modified : Nat := 0
  ids : Nat := 0
deriving DecidableEq

/-- Modelled from the spec: `GetTaskById`, which is not among the sources:
"returns the current Task or nil if not found; never errors". -/
def TaskDb.GetTaskById (db : TaskDb) (id : String) : Option Task :=
  db.tasks.lookup id

/-- Modelled from the spec: "Tasks are automatically assigned Ids if absent".
The tasks of a batch that have no `Id` get the next ones, counted from `n`. -/
def assignIds : Nat → List Task → Nat × List Task
  | n, [] => (n, [])
  | n, t :: ts =>
    if t.Id = "" then ((assignIds (n + 1) ts).1, { t with Id := newId n } :: (assignIds (n + 1) ts).2)
    else ((assignIds n ts).1, t :: (assignIds n ts).2)

/-- Modelled from the spec: the version check of one task.  The store
"compares the task's in-memory `DbModified` against the store's currently
persisted value for that Id (absent ⇒ insert path)", and the first insertion
"requires `DbModified` to be zero/absent". -/
def TaskDb.conflicts (db : TaskDb) (t : Task) : Bool :=
  match db.tasks.lookup t.Id with
  | some old => old.DbModified ≠ t.DbModified
  | none => !timeIsZero t.DbModified

/-- Modelled from the spec: `PutTasks`, which is not among the sources.  It
"validates `Created` is set (fails otherwise with a validation error)"; a
conflict on any one task "fails the whole batch atomically — no partial
writes"; otherwise every task is written and carries the new `DbModified`.
It returns the store after the call and, on success, the tasks as the caller
holds them afterwards. -/
def TaskDb.PutTasks (db : TaskDb) (tasks : List Task) :
    TaskDb × Except DbError (List Task) :=
  if tasks.any (fun t => timeIsZero t.Created) then
    (db, .error (.validation "Created not set."))
  else if (assignIds db.ids tasks).2.any db.conflicts then
    (db, .error .concurrentUpdate)
  else
    let written := (assignIds db.ids tasks).2.map
      (fun t => { t with DbModified := storeTime (db.modified + 1) })
    ({ tasks := written.foldl (fun m t => m.insert t.Id t) db.tasks
       modified := db.modified + 1
       ids := (assignIds db.ids tasks).1 },
     .ok written)

/-- Modelled from the spec: `PutTask`, the batch of one task. -/
def TaskDb.PutTask (db : TaskDb) (t : Task) : TaskDb × Except DbError Task :=
  ((db.PutTasks [t]).1, (db.PutTasks [t]).2.map fun ts => ts.headD t)

/-- What happened in one round of a retry helper. -/
inductive Attempt where
  | callbackError (e : DbError)
  | putError (e : DbError)
  | putOk
deriving DecidableEq

/-- A run of a retry helper: the state of the callback and the store at the
end, the number of calls of the callback, the rounds one by one, and what
the helper returns. -/
structure RetryRun (σ : Type) where
  state : σ
  db : TaskDb
  calls : Nat
  attempts : List Attempt
  result : Except DbError (List Task)

/-- Modelled from the spec: `UpdateWithRetries`, which is not among the
sources: it "runs `fn()` ... then calls `PutTasks`.  If `PutTasks` fails with
`ConcurrentUpdate`, the whole `fn→PutTasks` cycle is retried up to a fixed
bound (`NUM_RETRIES`); any other error from `fn` or `PutTasks` aborts
immediately and is returned to the caller", and "on exhausting retries,
returns the last `ConcurrentUpdate` error".  The callback has a state of its
own and may read and write the store; the bound is the first argument. -/
def UpdateWithRetries {σ : Type}
    (fn : σ → TaskDb → (σ × TaskDb) × Except DbError (List Task)) :
    Nat → σ → TaskDb → RetryRun σ
  | 0, st, db => ⟨st, db, 0, [], .error .concurrentUpdate⟩
  | n + 1, st, db =>
    match (fn st db).2 with
    | .error e => ⟨(fn st db).1.1, (fn st db).1.2, 1, [.callbackError e], .error e⟩
    | .ok tasks =>
      match ((fn st db).1.2.PutTasks tasks).2 with
      | .ok stored =>
        ⟨(fn st db).1.1, ((fn st db).1.2.PutTasks tasks).1, 1, [.putOk], .ok stored⟩
      | .error e =>
        if e = .concurrentUpdate then
          { UpdateWithRetries fn n (fn st db).1.1 ((fn st db).1.2.PutTasks tasks).1 with
            calls := (UpdateWithRetries fn n (fn st db).1.1
              ((fn st db).1.2.PutTasks tasks).1).calls + 1
            attempts := .putError e :: (UpdateWithRetries fn n (fn st db).1.1
              ((fn st db).1.2.PutTasks tasks).1).attempts }
        else
          ⟨(fn st db).1.1, ((fn st db).1.2.PutTasks tasks).1, 1, [.putError e], .error e⟩

/-- Modelled from the spec: the callback that `UpdateTaskWithRetries` hands to
`UpdateWithRetries`.  It reads the task by `Id`, "fails with `NotFound` if
absent, without ever invoking `fn`", and calls `f` on the task otherwise. -/
def updateTaskCallback {σ : Type} (id : String)
    (f : σ → TaskDb → Task → (σ × TaskDb) × Except DbError Task) :
    σ → TaskDb → (σ × TaskDb) × Except DbError (List Task) :=
  fun st db =>
    match db.GetTaskById id with
    | none => ((st, db), .error .notFound)
    | some t => ((f st db t).1, (f st db t).2.map fun t' => [t'])

/-- Modelled from the spec: `UpdateTaskWithRetries`, which is not among the
sources: it "reads it by Id (fails with `NotFound` if absent, without ever
invoking `fn`), applies `fn(task)` (mutates in place), and Puts it, retrying
on conflict exactly as above". -/
def UpdateTaskWithRetries {σ : Type} (numRetries : Nat) (id : String)
    (f : σ → TaskDb → Task → (σ × TaskDb) × Except DbError Task) (st : σ) (db : TaskDb) :
    RetryRun σ :=
  UpdateWithRetries (updateTaskCallback id f) numRetries st db

/-- The store after `n` rounds in which only the callback wrote to it. -/
def callbackOnly {σ : Type}
    (fn : σ → TaskDb → (σ × TaskDb) × Except DbError (List Task)) :
    Nat → σ → TaskDb → σ × TaskDb
  | 0, st, db => (st, db)
  | n + 1, st, db => callbackOnly fn n (fn st db).1.1 (fn st db).1.2

/-- The task `t1` of `TestConcurrentUpdate` before it is stored. -/
def storeTask : Task :=
  { Created := unixTime 1451606401
    Repo := "go-on-now.git"
    Commits := some ["a", "b", "c", "d"]
    Name := "Test-Task" }

/-- The task `storeTask` as the empty store returns it from `PutTask`. -/
def storeTask1 : Task :=
  { storeTask with Id := "task-0", DbModified := storeTime 1 }

/-- The empty store after `storeTask` has been put. -/
def storeDb1 : TaskDb :=
  { tasks := (∅ : AList fun _ : String => Task).insert "task-0" storeTask1
    modified := 1
    ids := 1 }

/-- The task `storeTask1` with other commits, as `storeDb1` returns it from
`PutTask`. -/
def storeTask2 : Task :=
  { storeTask1 with Commits := some ["a", "b"], DbModified := storeTime 2 }

/-- The store `storeDb1` after `storeTask1` has been put with other commits. -/
def storeDb2 : TaskDb :=
  { tasks := (∅ : AList fun _ : String => Task).insert "task-0" storeTask2
    modified := 2
    ids := 1 }

/-- The copy of `storeTask1` that was read before the second write, set to
running. -/
def staleTask : Task :=
  { storeTask1 with Status := TASK_STATUS_RUNNING }

/-- The task `t2` of `TestConcurrentUpdate`, not stored yet. -/
def otherTask : Task :=
  { Created := unixTime 1451606402
    Repo := "go-on-now.git"
    Commits := some ["e", "f"]
    Name := "Test-Task"
    Status := TASK_STATUS_MISHAP }

/-- A callback for the examples of the retry helpers: it counts its calls and
returns a stale task and a new one, as in `testUpdateWithRetriesExhausted`. -/
def staleCallback : Nat → TaskDb → (Nat × TaskDb) × Except DbError (List Task) :=
  fun callCount db => ((callCount + 1, db), .ok [staleTask, otherTask])

/-- A callback for the examples of the retry helpers: it counts its calls and
fails, as in `testUpdateWithRetriesErrorInFunc`. -/
def failingCallback : Nat → TaskDb → (Nat × TaskDb) × Except DbError (List Task) :=
  fun callCount db => ((callCount + 1, db), .error (.other "NO! Bad dog!"))

/-- The task `t2` of `TestConcurrentUpdate` as `storeDb2` returns it from
`PutTask`, before its status is changed. -/
def otherTaskStored : Task :=
  { otherTask with
    Status := TASK_STATUS_PENDING, Id := "task-1", DbModified := storeTime 3 }

/-- The store `storeDb2` after the task `t2` has been put. -/
def storeDb3 : TaskDb :=
  { tasks := ((∅ : AList fun _ : String => Task).insert "task-0" storeTask2).insert
      "task-1" otherTaskStored
    modified := 3
    ids := 2 }

/-- The task of `testUpdateWithRetriesErrorInPutTasks`, with the zero
`Created`. -/
def noCreatedTask : Task :=
  { storeTask with Created := ⟨0, 0⟩ }

/-- A callback for the examples of the retry helpers: it counts its calls,
returns a stale task and a new one in its first call, and fails in every
later call. -/
def staleThenFailingCallback :
    Nat → TaskDb → (Nat × TaskDb) × Except DbError (List Task) :=
  fun callCount db =>
    if callCount = 0 then ((callCount + 1, db), .ok [staleTask, otherTask])
    else ((callCount + 1, db), .error (.other "NO! Bad dog!"))

/-! ## The comment store, modelled from the spec

Only the tests of the comment store are among the sources (`TestCommentDB`,
`comments_test.go`); the comment types are read off `makeTaskComment`,
`makeTaskSpecComment` and `makeCommitComment`. -/

/-- The struct `TaskComment`, with the fields that `makeTaskComment` sets. -/
structure TaskComment where
  Repo : String
  Name : String
  Commit : String
  Timestamp : Time
  TaskId : String
  User : String
  Message : String
deriving DecidableEq

/-- The struct `TaskSpecComment`, with the fields that `makeTaskSpecComment`
sets. -/
structure TaskSpecComment where
  Repo : String
  Name : String
  Timestamp : Time
  User : String
  Flaky : Bool
  IgnoreFailure : Bool
  Message : String
deriving DecidableEq

/-- The struct `CommitComment`, with the fields that `makeCommitComment`
sets. -/
structure CommitComment where
  Repo : String
  Commit : String
  Timestamp : Time
  User : String
  Message : String
deriving DecidableEq

/-- Modelled from the spec: the identity of a task comment, "(Repo, Name,
Commit, Timestamp)". -/
def TaskComment.key (c : TaskComment) : String × String × String × Time :=
  (c.Repo, c.Name, c.Commit, c.Timestamp)

/-- Modelled from the spec: the identity of a task spec comment, "(Repo, Name,
Timestamp)". -/
def TaskSpecComment.key (c : TaskSpecComment) : String × String × Time :=
  (c.Repo, c.Name, c.Timestamp)

/-- Modelled from the spec: the identity of a commit comment, "(Repo, Commit,
Timestamp)". -/
def CommitComment.key (c : CommitComment) : String × String × Time :=
  (c.Repo, c.Commit, c.Timestamp)

/-- Modelled from the spec: Put on the stored comments of one kind, which is
not among the sources.  "Two comments with identical identity fields and
identical content are the same comment (idempotent Put); two comments with
identical identity but different content is a conflict (`AlreadyExists` error,
write rejected)"; a new comment goes to its place by `Timestamp`, since
comments are "retained sorted by Timestamp ascending". -/
def putComment {α κ : Type} [DecidableEq α] [DecidableEq κ] (key : α → κ)
    (timestamp : α → Time) (c : α) (stored : List α) : List α × Option DbError :=
  match stored.find? (fun x => key x = key c) with
  | some old => if old = c then (stored, none) else (stored, some .alreadyExists)
  | none =>
    (stored.orderedInsert (fun a b => (timestamp b).Before (timestamp a) = false) c, none)

/-- Modelled from the spec: Delete on the stored comments of one kind, which
is not among the sources: "delete-of-nonexistent is a no-op success; delete
matches on identity fields only, ignoring other fields". -/
def deleteComment {α κ : Type} [DecidableEq κ] (key : α → κ) (c : α) (stored : List α) :
    List α :=
  stored.filter (fun x => key x ≠ key c)

/-- Modelled from the spec: the state of a comment store, which is not among
the sources: the stored comments of the three kinds. -/
structure CommentBox where
  TaskComments : List TaskComment := []
  TaskSpecComments : List TaskSpecComment := []
  CommitComments : List CommitComment := []
deriving DecidableEq

/-- Modelled from the spec: `PutTaskComment`. -/
def CommentBox.PutTaskComment (b : CommentBox) (c : TaskComment) :
    CommentBox × Option DbError :=
  ({ b with TaskComments :=
      (putComment TaskComment.key TaskComment.Timestamp c b.TaskComments).1 },
    (putComment TaskComment.key TaskComment.Timestamp c b.TaskComments).2)

/-- Modelled from the spec: `PutTaskSpecComment`. -/
def CommentBox.PutTaskSpecComment (b : CommentBox) (c : TaskSpecComment) :
    CommentBox × Option DbError :=
  ({ b with TaskSpecComments :=
      (putComment TaskSpecComment.key TaskSpecComment.Timestamp c b.TaskSpecComments).1 },
    (putComment TaskSpecComment.key TaskSpecComment.Timestamp c b.TaskSpecComments).2)

/-- Modelled from the spec: `PutCommitComment`. -/
def CommentBox.PutCommitComment (b : CommentBox) (c : CommitComment) :
    CommentBox × Option DbError :=
  ({ b with CommitComments :=
      (putComment CommitComment.key CommitComment.Timestamp c b.CommitComments).1 },
    (putComment CommitComment.key CommitComment.Timestamp c b.CommitComments).2)

/-- Modelled from the spec: `DeleteTaskComment`. -/
def CommentBox.DeleteTaskComment (b : CommentBox) (c : TaskComment) :
    CommentBox × Option DbError :=
  ({ b with TaskComments := deleteComment TaskComment.key c b.TaskComments }, none)

/-- Modelled from the spec: `DeleteTaskSpecComment`. -/
def CommentBox.DeleteTaskSpecComment (b : CommentBox) (c : TaskSpecComment) :
    CommentBox × Option DbError :=
  ({ b with TaskSpecComments := deleteComment TaskSpecComment.key c b.TaskSpecComments },
    none)

/-- Modelled from the spec: `DeleteCommitComment`. -/
def CommentBox.DeleteCommitComment (b : CommentBox) (c : CommitComment) :
    CommentBox × Option DbError :=
  ({ b with CommitComments := deleteComment CommitComment.key c b.CommitComments }, none)

/-- A call of a Put or a Delete of a comment store. -/
inductive CommentCall where
  | putTaskComment (c : TaskComment)
  | putTaskSpecComment (c : TaskSpecComment)
  | putCommitComment (c : CommitComment)
  | deleteTaskComment (c : TaskComment)
  | deleteTaskSpecComment (c : TaskSpecComment)
  | deleteCommitComment (c : CommitComment)
deriving DecidableEq

/-- One call on a comment store: the store after it and the error. -/
def CommentBox.call (b : CommentBox) : CommentCall → CommentBox × Option DbError
  | .putTaskComment c => b.PutTaskComment c
  | .putTaskSpecComment c => b.PutTaskSpecComment c
  | .putCommitComment c => b.PutCommitComment c
  | .deleteTaskComment c => b.DeleteTaskComment c
  | .deleteTaskSpecComment c => b.DeleteTaskSpecComment c
  | .deleteCommitComment c => b.DeleteCommitComment c

/-- The comment store after a sequence of calls on the empty store. -/
def CommentBox.after (cs : List CommentCall) : CommentBox :=
  cs.foldl (fun b c => (b.call c).1) {}

/-- The comment `tc1` of `TestCommentDB`, the time `now` being second 1. -/
def taskComment1 : TaskComment :=
  { Repo := "r1", Name := "n1", Commit := "c1", Timestamp := unixTime 1451606401
    TaskId := "id1", User := "u1", Message := "m1" }

/-- The comment `sc1` of `TestCommentDB`. -/
def taskSpecComment1 : TaskSpecComment :=
  { Repo := "r1", Name := "n1", Timestamp := unixTime 1451606401
    User := "u1", Flaky := false, IgnoreFailure := true, Message := "m1" }

/-- The comment `cc1` of `TestCommentDB`. -/
def commitComment1 : CommitComment :=
  { Repo := "r1", Commit := "c1", Timestamp := unixTime 1451606401
    User := "u1", Message := "m1" }

/-! ## Ordering of tasks, the Skia version, and the paths of digests -/

/-- The method `TaskSlice.Less` on the slice `s`; `none` when an index is out
of range and the call panics. -/
def TaskSlice.Less (s : List Task) (i j : Nat) : Option Bool :=
  match s.get? i, s.get? j with
  | some a, some b => some (a.Created.Before b.Created)
  | _, _ => none

/-- The library call `strings.TrimLeft`: the string without its leading
characters that occur in `cutset`. -/
def stringsTrimLeft (s cutset : String) : String :=
  String.mk (s.data.dropWhile fun c => cutset.data.contains c)

/-- An object of a bucket listing, of which only `Name` is read. -/
structure StorageObject where
  Name : String
deriving DecidableEq

/-- The storage service as `getSkiaVersionFromGCS` uses it:
`Objects.List(bucket).Prefix(prefix).Do()` gives the items or an error. -/
structure StorageService where
  list : String → String → Except String (List StorageObject)

/-- The function `getSkiaVersionFromGCS`; `storageService` is `none` for a nil
pointer and `bucket` stands for `config.GS.Bucket`. -/
def getSkiaVersionFromGCS (bucket : String) (storageService : Option StorageService) :
    Except String String :=
  match storageService with
  | none => .error "Storage service cannot be nil!"
  | some service =>
    match service.list bucket "skia_version" with
    | .error err => .error err
    | .ok items =>
      if items.length < 2 then .error "version file not found"
      else
        match items.get? 1 with
        | none => .error "index out of range"
        | some item => .ok (stringsTrimLeft item.Name "skia_version/")

/-- A storage service whose bucket lists the given names. -/
def listingOf (names : List String) : StorageService :=
  { list := fun _ _ => .ok (names.map StorageObject.mk) }

/-- The struct `WorkerResp` as `AbsPath` reads it: `id` is the digest of the
request, `val` the path, or `none` when `absPathOne` returned nil. -/
structure WorkerResp where
  id : String
  val : Option String
deriving DecidableEq

/-- The loop of `AbsPath` that sends the requests: the digests put on
`fs.absPathCh`, in order, `uniques` holding the digests seen so far. -/
def absPathRequests (digests : List String) : List String :=
  (digests.foldl
    (fun (st : List String × List String) digest =>
      if st.1.contains digest then st else (digest :: st.1, st.2 ++ [digest]))
    ([], [])).2

/-- The loop of `AbsPath` that receives from `respCh`, on the responses that
arrive, in order.  It returns the map when the count reaches `n`, the number
of digests given to `AbsPath`; `none` when the responses are used up and the
loop is still waiting. -/
def absPathReceive (n : Nat) :
    StringMap → Nat → List WorkerResp → Option StringMap
  | _, _, [] => none
  | digestsToPaths, digestErrors, resp :: resps =>
    match resp.val with
    | some val =>
      if (digestsToPaths.insert resp.id val).entries.length + digestErrors = n then
        some (digestsToPaths.insert resp.id val)
      else absPathReceive n (digestsToPaths.insert resp.id val) digestErrors resps
    | none =>
      if digestsToPaths.entries.length + (digestErrors + 1) = n then some digestsToPaths
      else absPathReceive n digestsToPaths (digestErrors + 1) resps

/-- The method `FileDiffStore.AbsPath`, given the responses that the workers
send to `respCh` in the order of their arrival: the requests it sends, and the
map it returns, `none` when it waits for a response that does not come. -/
def AbsPath (digests : List String) (responses : List WorkerResp) :
    List String × Option StringMap :=
  if digests.length = 0 then ([], some ∅)
  else (absPathRequests digests, absPathReceive digests.length ∅ 0 responses)

/-! ## The update of the store from a report -/

/-- The closure that `UpdateDBFromSwarmingTask` hands to
`UpdateTaskWithRetries`.  It has no state and does not write to the store.
`glog.Fatalf` ends the process; it is an error here. -/
def updateFromSwarmingCallback (h : Helpers) (s : Option SwarmingRpcsTaskResult) :
    Unit → TaskDb → Task → (Unit × TaskDb) × Except DbError Task :=
  fun st db task =>
    match UpdateFromSwarming h task s with
    | .fatal => ((st, db), .error (.other "Task.Copy is broken"))
    | .returned _ _ (some err) => ((st, db), .error (.update err))
    | .returned task' modified none =>
      if !modified then ((st, db), .error .notModified) else ((st, db), .ok task')

/-- The call of `UpdateTaskWithRetries` in `UpdateDBFromSwarmingTask`, for the
task `id`; `numRetries` stands for `NUM_RETRIES`. -/
def updateDBRun (h : Helpers) (numRetries : Nat) (db : TaskDb)
    (s : Option SwarmingRpcsTaskResult) (id : String) : RetryRun Unit :=
  UpdateTaskWithRetries numRetries id (updateFromSwarmingCallback h s) () db

/-- The function `UpdateDBFromSwarmingTask`: the store after the call and the
error.  `getTagValue` stands for `swarming.GetTagValue`, which is not among
the sources. -/
def UpdateDBFromSwarmingTask (h : Helpers)
    (getTagValue : Option SwarmingRpcsTaskResult → String → Except String String)
    (numRetries : Nat) (db : TaskDb) (s : Option SwarmingRpcsTaskResult) :
    TaskDb × Option DbError :=
  match getTagValue s SWARMING_TAG_ID with
  | .error err => (db, some (.other err))
  | .ok id =>
    match (updateDBRun h numRetries db s id).result with
    | .ok _ => ((updateDBRun h numRetries db s id).db, none)
    | .error err =>
      if err = .notModified then ((updateDBRun h numRetries db s id).db, none)
      else ((updateDBRun h numRetries db s id).db, some err)

/-- A `swarming.GetTagValue` for the examples: the value that
`tagValuesOfTags` holds for the tag. -/
def exampleGetTagValue (s : Option SwarmingRpcsTaskResult) (tag : String) :
    Except String String :=
  match s with
  | none => .error "nil"
  | some r =>
    match tagValuesOfTags r with
    | .error err => .error err
    | .ok tags =>
      match tags.lookup tag with
      | none => .error "no such tag"
      | some v => .ok v

/-- A store that holds `completedTask`, written once. -/
def completedDb : TaskDb :=
  { tasks := (∅ : AList fun _ : String => Task).insert "task1"
      { completedTask with DbModified := storeTime 1 }
    modified := 1
    ids := 0 }

/-! ## Reading the comments of repositories -/

/-- Modelled from the spec: a Go map from a field of the comments to
"[ordered comments]": one entry for each value of the field among the stored
comments, holding the stored comments of that value in their stored order.
A Go map has no order; the order of the entries here means nothing. -/
def groupComments {α : Type} (field : α → String) (stored : List α) :
    List (String × List α) :=
  ((stored.map field).dedup).map fun k => (k, stored.filter fun x => field x = k)

/-- Modelled from the spec: the struct `RepoComments`, "a read-only aggregate
view": `TaskComments` by `Name` and then `Commit`, `TaskSpecComments` by
`Name`, `CommitComments` by `Commit`, as in `TestCommentDB`. -/
structure RepoComments where
  Repo : String
  TaskComments : List (String × List (String × List TaskComment))
  TaskSpecComments : List (String × List TaskSpecComment)
  CommitComments : List (String × List CommitComment)
deriving DecidableEq

/-- Modelled from the spec: the view of one repository. -/
def CommentBox.commentsForRepo (b : CommentBox) (repo : String) : RepoComments :=
  { Repo := repo
    TaskComments :=
      (groupComments TaskComment.Name (b.TaskComments.filter fun c => c.Repo = repo)).map
        fun g => (g.1, groupComments TaskComment.Commit g.2)
    TaskSpecComments :=
      groupComments TaskSpecComment.Name (b.TaskSpecComments.filter fun c => c.Repo = repo)
    CommitComments :=
      groupComments CommitComment.Commit (b.CommitComments.filter fun c => c.Repo = repo) }

/-- Modelled from the spec: `GetCommentsForRepos`, which is not among the
sources: one view for each repository asked for, in the order asked.  The
spec says nothing of the cutoff time `cutoff`, and `TestCommentDB` lets it
drop nothing; no comment is dropped here. -/
def CommentBox.GetCommentsForRepos (b : CommentBox) (repos : List String) (_cutoff : Time) :
    List RepoComments :=
  repos.map b.commentsForRepo

/-- The comment `tc2` of `TestCommentDB`, two seconds after `tc1`. -/
def taskComment2 : TaskComment :=
  { Repo := "r1", Name := "n1", Commit := "c1", Timestamp := unixTime 1451606403
    TaskId := "id2", User := "u2", Message := "m2" }

/-- The comment `tc3` of `TestCommentDB`, one second after `tc1`. -/
def taskComment3 : TaskComment :=
  { Repo := "r1", Name := "n1", Commit := "c1", Timestamp := unixTime 1451606402
    TaskId := "id3", User := "u3", Message := "m3" }

/-- The comment `tc4` of `TestCommentDB`, of another commit. -/
def taskComment4 : TaskComment :=
  { Repo := "r1", Name := "n1", Commit := "c2", Timestamp := unixTime 1451606401
    TaskId := "id4", User := "u4", Message := "m4" }

/-- The calls of `TestCommentDB` that put `tc1`, `tc2`, `tc3` and `tc4`. -/
def commentCalls : List CommentCall :=
  [.putTaskComment taskComment1, .putTaskComment taskComment2,
    .putTaskComment taskComment3, .putTaskComment taskComment4]

/-- The view of the repository `r1` after `commentCalls`. -/
def commentView : RepoComments :=
  { Repo := "r1"
    TaskComments :=
      [("n1", [("c2", [taskComment4]), ("c1", [taskComment1, taskComment3, taskComment2])])]
    TaskSpecComments := []
    CommitComments := [] }

/-! ## The traces of a digest -/

/-- The struct `Point` of `search.go`. -/
structure Point where
  X : Int
  Y : Int
  S : Int
deriving DecidableEq

/-- The struct `Trace` of `search.go`. -/
structure Trace where
  Data : List Point
  ID : String
  Params : StringMap
deriving DecidableEq

/-- The struct `DigestStatus` of `search.go`. -/
structure DigestStatus where
  Digest : String
  Status : String
deriving DecidableEq

/-- The struct `Traces` of `search.go`. -/
structure Traces where
  TileSize : Int
  Traces : List Trace
  Digests : List DigestStatus
deriving DecidableEq

/-- The parts of `types.GoldenTrace` that `buildTraces` reads: the field
`Values` and the result of `Params()`.  The type is not among the sources. -/
structure GoldenTrace where
  Values : List String
  Params : StringMap
deriving DecidableEq

/-- The parts of `tiling.Tile` that `buildTraces` reads: `len(tile.Commits)`
and `tile.LastCommitIndex()`.  The type is not among the sources. -/
structure Tile where
  numCommits : Nat
  LastCommitIndex : Int

/-- The loop of `digestIndex`, at the index `i` of the slice. -/
def digestIndexFrom (d : String) : Nat → List DigestStatus → Int
  | _, [] => -1
  | i, di :: rest => if di.Digest = d then i else digestIndexFrom d (i + 1) rest

/-- The function `digestIndex`: the index of the digest `d` in `digestInfo`,
or -1. -/
def digestIndex (d : String) (digestInfo : List DigestStatus) : Int :=
  digestIndexFrom d 0 digestInfo

/-- The status `s` of the value `v` in the inner loop of `buildTraces`, and
`ret.Digests` after it.  `classification test d` stands for
`e.Classification(test, d).String()`. -/
def pointStatus (classification : String → String → String) (test digest v : String)
    (digests : List DigestStatus) : List DigestStatus × Int :=
  if v ≠ digest then
    if digestIndex v digests ≠ -1 then (digests, digestIndex v digests)
    else if digests.length < 9 then
      (digests ++ [DigestStatus.mk v (classification test v)],
        ((digests ++ [DigestStatus.mk v (classification test v)]).length : Int) - 1)
    else (digests, 8)
  else (digests, 0)

/-- The inner loop of `buildTraces` over the commit indices `is`, from
`ret.Digests` and `p.Data`; `none` when `trace.Values[i]` is out of range and
the code panics.  `isMissing` stands for `trace.IsMissing`. -/
def tracePoints (isMissing : GoldenTrace → Nat → Bool)
    (classification : String → String → String) (test digest : String)
    (trace : GoldenTrace) (y : Int) :
    List Nat → List DigestStatus → List Point → Option (List DigestStatus × List Point)
  | [], digests, data => some (digests, data)
  | i :: is, digests, data =>
    if isMissing trace i then
      tracePoints isMissing classification test digest trace y is digests data
    else
      match trace.Values.get? i with
      | none => none
      | some v =>
        tracePoints isMissing classification test digest trace y is
          (pointStatus classification test digest v digests).1
          (data ++ [Point.mk i y (pointStatus classification test digest v digests).2])

/-- The commit indices of `for i := last; i >= 0; i--`. -/
def commitIndices (last : Int) : List Nat :=
  (List.range (last + 1).toNat).reverse

/-- The call `sort.Sort(PointSlice(p.Data))`: the points by ascending `X`. -/
def sortPoints (data : List Point) : List Point :=
  data.insertionSort (fun a b => a.X ≤ b.X)

/-- The body of the outer loop of `buildTraces` for a trace that is drawn:
`ret.Digests` after it and the `Trace` that is appended. -/
def traceFor (isMissing : GoldenTrace → Nat → Bool)
    (classification : String → String → String) (test digest : String) (last : Int)
    (id : String) (trace : GoldenTrace) (digests : List DigestStatus) (y : Int) :
    Option (List DigestStatus × Trace) :=
  (tracePoints isMissing classification test digest trace y (commitIndices last)
      digests []).map
    fun r => (r.1, ⟨sortPoints r.2, id, trace.Params⟩)

/-- The two tests of the outer loop of `buildTraces` that skip a trace: no
tally for the trace, or no count or the count zero for the digest. -/
def tallyHasDigest (traceTally : AList (fun _ : String => AList (fun _ : String => Int)))
    (digest id : String) : Bool :=
  match traceTally.lookup id with
  | none => false
  | some t =>
    match t.lookup digest with
    | none => false
    | some count => count ≠ 0

/-- The outer loop of `buildTraces` over the trace ids, from `ret.Digests`,
`ret.Traces` and `y`.  A `traces[id]` that is not a `GoldenTrace` makes the
type assertion panic. -/
def buildTracesLoop (isMissing : GoldenTrace → Nat → Bool)
    (classification : String → String → String) (test digest : String) (last : Int)
    (traces : AList (fun _ : String => GoldenTrace))
    (traceTally : AList (fun _ : String => AList (fun _ : String => Int))) :
    List String → List DigestStatus → List Trace → Int →
      Option (List DigestStatus × List Trace)
  | [], digests, out, _ => some (digests, out)
  | id :: ids, digests, out, y =>
    if tallyHasDigest traceTally digest id then
      match traces.lookup id with
      | none => none
      | some trace =>
        match traceFor isMissing classification test digest last id trace digests y with
        | none => none
        | some r =>
          buildTracesLoop isMissing classification test digest last traces traceTally ids
            r.1 (out ++ [r.2]) (y + 1)
    else
      buildTracesLoop isMissing classification test digest last traces traceTally ids
        digests out y

/-- The sorted `traceNames` of `buildTraces`. -/
def traceNames (traces : AList (fun _ : String => GoldenTrace)) : List String :=
  traces.keys.insertionSort (fun a b => stringLess b a = false)

/-- The first value of `ret.Digests` in `buildTraces`: the searched digest
when there is a trace. -/
def firstDigests (classification : String → String → String) (test digest : String)
    (names : List String) : List DigestStatus :=
  if names.length > 0 then [⟨digest, classification test digest⟩] else []

/-- The function `buildTraces`; `none` when the code panics. -/
def buildTraces (isMissing : GoldenTrace → Nat → Bool)
    (classification : String → String → String) (test digest : String)
    (traces : AList (fun _ : String => GoldenTrace)) (tile : Tile)
    (traceTally : AList (fun _ : String => AList (fun _ : String => Int))) :
    Option Traces :=
  (buildTracesLoop isMissing classification test digest tile.LastCommitIndex traces
      traceTally (traceNames traces)
      (firstDigests classification test digest (traceNames traces)) [] 0).map
    fun r => ⟨tile.numCommits, r.2, r.1⟩

/-- The method `GoldenTrace.IsMissing` for the examples: the value is the
empty digest. -/
def exampleIsMissing (trace : GoldenTrace) (i : Nat) : Bool :=
  trace.Values.get? i = some ""

/-- A classification for the examples. -/
def exampleClassification (_test _digest : String) : String := "untriaged"

/-- Two traces of three commits for the examples. -/
def exampleTraces : AList (fun _ : String => GoldenTrace) :=
  ((∅ : AList fun _ : String => GoldenTrace).insert "t2" ⟨["d1", "d0", "d2"], ∅⟩).insert
    "t1" ⟨["d1", "", "d0"], ∅⟩

/-- The tallies of `exampleTraces`. -/
def exampleTally : AList (fun _ : String => AList (fun _ : String => Int)) :=
  ((∅ : AList fun _ : String => AList (fun _ : String => Int)).insert "t2"
    ((((∅ : AList fun _ : String => Int).insert "d0" 1).insert "d1" 1).insert "d2" 1)).insert
    "t1" (((∅ : AList fun _ : String => Int).insert "d0" 1).insert "d1" 1)

/-- The result of `buildTraces` for the digest `d0` on `exampleTraces`. -/
def exampleResult : Traces :=
  { TileSize := 3
    Traces := [⟨[⟨0, 0, 1⟩, ⟨2, 0, 0⟩], "t1", ∅⟩, ⟨[⟨0, 1, 1⟩, ⟨1, 1, 0⟩, ⟨2, 1, 2⟩], "t2", ∅⟩]
    Digests := [⟨"d0", "untriaged"⟩, ⟨"d1", "untriaged"⟩, ⟨"d2", "untriaged"⟩] }

/-! ## Basic facts -/

theorem copyStrings_makeStrings (xs : List String) :
    copyStrings (makeStrings xs.length) xs = xs := by
  simp [copyStrings, makeStrings]

theorem copySlice_eq (s : StringSlice) : copySlice s = s := by
  cases s <;> simp [copySlice, copyStrings_makeStrings]

theorem Task.Copy_eq (t : Task) : t.Copy = t := by
  cases t
  simp [Task.Copy, copySlice_eq]

theorem bind_ok_inv {ε α β : Type} {x : Except ε α} {f : α → Except ε β} {b : β}
    (h : x >>= f = .ok b) : ∃ a, x = .ok a ∧ f a = .ok b := by
  cases x with
  | error e => simp [bind, Except.bind] at h
  | ok a => exact ⟨a, rfl, h⟩

theorem setIdentityFromTags_ok_iff (tags : StringMap) (c c' : Task) :
    setIdentityFromTags tags c = .ok c' ↔
      ∃ id name repo retryOf revision,
        checkOrSetFromTag tags SWARMING_TAG_ID c.Id "Id" = .ok id ∧
        checkOrSetFromTag tags SWARMING_TAG_NAME c.Name "Name" = .ok name ∧
        checkOrSetFromTag tags SWARMING_TAG_REPO c.Repo "Repo" = .ok repo ∧
        checkOrSetFromTag tags SWARMING_TAG_RETRY_OF c.RetryOf "RetryOf" = .ok retryOf ∧
        checkOrSetFromTag tags SWARMING_TAG_REVISION c.Revision "Revision" = .ok revision ∧
        c' = { c with Id := id, Name := name, Repo := repo, RetryOf := retryOf,
                      Revision := revision } := by
  unfold setIdentityFromTags
  constructor
  · intro hm
    obtain ⟨id, h1, hm⟩ := bind_ok_inv hm
    obtain ⟨name, h2, hm⟩ := bind_ok_inv hm
    obtain ⟨repo, h3, hm⟩ := bind_ok_inv hm
    obtain ⟨retryOf, h4, hm⟩ := bind_ok_inv hm
    obtain ⟨revision, h5, hm⟩ := bind_ok_inv hm
    exact ⟨id, name, repo, retryOf, revision, h1, h2, h3, h4, h5, (Except.ok.inj hm).symm⟩
  · rintro ⟨id, name, repo, retryOf, revision, h1, h2, h3, h4, h5, rfl⟩
    simp only [h1, h2, h3, h4, h5, bind, Except.bind, pure, Except.pure]

theorem setCreatedAndSwarmingTaskId_ok_iff (h : Helpers) (c c' : Task)
    (s : SwarmingRpcsTaskResult) :
    setCreatedAndSwarmingTaskId h c s = .ok c' ↔
      ∃ created swarmingTaskId,
        checkOrSetCreated h c.Created s.CreatedTs = .ok created ∧
        checkOrSetSwarmingTaskId c.SwarmingTaskId s.TaskId = .ok swarmingTaskId ∧
        c' = { c with Created := created, SwarmingTaskId := swarmingTaskId } := by
  unfold setCreatedAndSwarmingTaskId
  constructor
  · intro hm
    obtain ⟨created, h1, hm⟩ := bind_ok_inv hm
    obtain ⟨swarmingTaskId, h2, hm⟩ := bind_ok_inv hm
    exact ⟨created, swarmingTaskId, h1, h2, (Except.ok.inj hm).symm⟩
  · rintro ⟨created, swarmingTaskId, h1, h2, rfl⟩
    simp only [h1, h2, bind, Except.bind, pure, Except.pure]

theorem setStatusAndOutput_ok_iff (c c' : Task) (s : SwarmingRpcsTaskResult) :
    setStatusAndOutput c s = .ok c' ↔
      ∃ status, statusFromState s = .ok status ∧
        c' = { c with Status := status, IsolatedOutput := isolatedOutputOf s } := by
  unfold setStatusAndOutput
  constructor
  · intro hm
    obtain ⟨status, h1, hm⟩ := bind_ok_inv hm
    exact ⟨status, h1, (Except.ok.inj hm).symm⟩
  · rintro ⟨status, h1, rfl⟩
    simp only [h1, bind, Except.bind, pure, Except.pure]

theorem setTimestamps_ok_iff (h : Helpers) (c c' : Task) (s : SwarmingRpcsTaskResult) :
    setTimestamps h c s = .ok c' ↔
      ∃ started finished,
        maybeUpdateTime h s.StartedTs c.Started "StartedTs" = .ok started ∧
        finishedStep h s c.Status c.Finished = .ok finished ∧
        c' = { c with Started := started, Finished := finished } := by
  unfold setTimestamps finishedStep
  constructor
  · intro hm
    obtain ⟨started, h1, hm⟩ := bind_ok_inv hm
    obtain ⟨fin1, h2, hm⟩ := bind_ok_inv hm
    by_cases hc : s.CompletedTs = "" ∧ c.Status = TASK_STATUS_MISHAP
    · rw [if_pos hc] at hm
      obtain ⟨finished, h3, hm⟩ := bind_ok_inv hm
      refine ⟨started, finished, h1, ?_, (Except.ok.inj hm).symm⟩
      simp only [h2, bind, Except.bind, if_pos hc, h3]
    · rw [if_neg hc] at hm
      refine ⟨started, fin1, h1, ?_, (Except.ok.inj hm).symm⟩
      simp only [h2, bind, Except.bind, if_neg hc, pure, Except.pure]
  · rintro ⟨started, finished, h1, h2, rfl⟩
    obtain ⟨fin1, h2a, h2b⟩ := bind_ok_inv h2
    simp only [h1, h2a, bind, Except.bind]
    by_cases hc : s.CompletedTs = "" ∧ c.Status = TASK_STATUS_MISHAP
    · rw [if_pos hc] at h2b
      simp only [if_pos hc, h2b, pure, Except.pure]
    · rw [if_neg hc] at h2b
      cases h2b
      simp only [if_neg hc, pure, Except.pure]

theorem mergeFromSwarming_ok_iff (h : Helpers) (tags : StringMap) (c c' : Task)
    (s : SwarmingRpcsTaskResult) :
    mergeFromSwarming h tags c s = .ok c' ↔
      ∃ id name repo retryOf revision created swarmingTaskId status started finished,
        checkOrSetFromTag tags SWARMING_TAG_ID c.Id "Id" = .ok id ∧
        checkOrSetFromTag tags SWARMING_TAG_NAME c.Name "Name" = .ok name ∧
        checkOrSetFromTag tags SWARMING_TAG_REPO c.Repo "Repo" = .ok repo ∧
        checkOrSetFromTag tags SWARMING_TAG_RETRY_OF c.RetryOf "RetryOf" = .ok retryOf ∧
        checkOrSetFromTag tags SWARMING_TAG_REVISION c.Revision "Revision" = .ok revision ∧
        checkOrSetCreated h c.Created s.CreatedTs = .ok created ∧
        checkOrSetSwarmingTaskId c.SwarmingTaskId s.TaskId = .ok swarmingTaskId ∧
        statusFromState s = .ok status ∧
        maybeUpdateTime h s.StartedTs c.Started "StartedTs" = .ok started ∧
        finishedStep h s status c.Finished = .ok finished ∧
        c' = mergedTask h tags c s id name repo retryOf revision created swarmingTaskId
          status started finished := by
  have key : ∀ id name repo retryOf revision created swarmingTaskId status started finished,
      backfillStarted h
        { Commits := c.Commits, Created := created, DbModified := c.DbModified,
          Finished := finished, Id := id, IsolatedOutput := isolatedOutputOf s, Name := name,
          ParentTaskIds := sortStrings (collectParentTaskIds tags), Repo := repo,
          RetryOf := retryOf, Revision := revision, Started := started,
          Status := status, SwarmingTaskId := swarmingTaskId } =
        mergedTask h tags c s id name repo retryOf revision created swarmingTaskId status
          started finished := by
    intro id name repo retryOf revision created swarmingTaskId status started finished
    simp only [backfillStarted, mergedTask, Task.Done, Bool.and_eq_true, decide_eq_true_eq,
      ne_eq]
    split <;> rfl
  unfold mergeFromSwarming
  constructor
  · intro hm
    obtain ⟨c1, k1, hm⟩ := bind_ok_inv hm
    obtain ⟨c3, k3, hm⟩ := bind_ok_inv hm
    obtain ⟨c4, k4, hm⟩ := bind_ok_inv hm
    obtain ⟨c5, k5, hm⟩ := bind_ok_inv hm
    obtain ⟨id, name, repo, retryOf, revision, h1, h2, h3, h4, h5, rfl⟩ :=
      (setIdentityFromTags_ok_iff tags c c1).1 k1
    obtain ⟨created, swarmingTaskId, h6, h7, rfl⟩ :=
      (setCreatedAndSwarmingTaskId_ok_iff h _ c3 s).1 k3
    obtain ⟨status, h8, rfl⟩ := (setStatusAndOutput_ok_iff _ c4 s).1 k4
    obtain ⟨started, finished, h9, h10, rfl⟩ := (setTimestamps_ok_iff h _ c5 s).1 k5
    refine ⟨id, name, repo, retryOf, revision, created, swarmingTaskId, status, started,
      finished, h1, h2, h3, h4, h5, h6, h7, h8, h9, h10, ?_⟩
    rw [← Except.ok.inj hm]
    exact key id name repo retryOf revision created swarmingTaskId status started finished
  · rintro ⟨id, name, repo, retryOf, revision, created, swarmingTaskId, status, started,
      finished, h1, h2, h3, h4, h5, h6, h7, h8, h9, h10, rfl⟩
    obtain ⟨fin1, h10a, h10b⟩ := bind_ok_inv h10
    simp only [setIdentityFromTags, setParentTaskIds, setCreatedAndSwarmingTaskId,
      setStatusAndOutput, setTimestamps, bind, Except.bind, pure, Except.pure,
      h1, h2, h3, h4, h5, h6, h7, h8, h9, h10a]
    by_cases hc : s.CompletedTs = "" ∧ status = TASK_STATUS_MISHAP
    · rw [if_pos hc] at h10b
      simp only [if_pos hc, h10b, Except.ok.injEq]
      exact key id name repo retryOf revision created swarmingTaskId status started finished
    · rw [if_neg hc] at h10b
      cases h10b
      simp only [if_neg hc, Except.ok.injEq]
      exact key _ _ _ _ _ _ _ _ _ _

theorem UpdateFromSwarming_ok_iff (h : Helpers) (t t' : Task) (s : SwarmingRpcsTaskResult)
    (m : Bool) :
    UpdateFromSwarming h t (some s) = .returned t' m none ↔
      ∃ tags, h.TagValues s = .ok tags ∧ mergeFromSwarming h tags t s = .ok t' ∧
        m = decide (t ≠ t') := by
  cases hT : h.TagValues s with
  | error e => simp [UpdateFromSwarming, hT]
  | ok tags =>
    cases hM : mergeFromSwarming h tags t s with
    | error e => simp [UpdateFromSwarming, hT, Task.Copy_eq, hM]
    | ok c =>
      by_cases hc : t = c
      · subst hc
        simp only [UpdateFromSwarming, hT, Task.Copy_eq, hM, ne_eq, not_true_eq_false,
          if_false, Outcome.returned.injEq, and_true, Except.ok.injEq, exists_eq_left']
        constructor
        · rintro ⟨rfl, rfl⟩
          simp
        · rintro ⟨rfl, hm⟩
          simp [hm]
      · simp only [UpdateFromSwarming, hT, Task.Copy_eq, hM, ne_eq, not_true_eq_false,
          if_false, hc, not_false_eq_true, if_true, Outcome.returned.injEq, and_true,
          Except.ok.injEq, exists_eq_left']
        constructor
        · rintro ⟨rfl, rfl⟩
          simp [hc]
        · rintro ⟨rfl, hm⟩
          simp [hm, hc]

theorem UpdateFromSwarming_of_merge_error (h : Helpers) (t : Task)
    (s : SwarmingRpcsTaskResult) (tags : StringMap) (e : UpdateError)
    (hT : h.TagValues s = .ok tags) (hM : mergeFromSwarming h tags t s = .error e) :
    UpdateFromSwarming h t (some s) = .returned t false (some e) := by
  simp [UpdateFromSwarming, hT, Task.Copy_eq, hM]

theorem UpdateFromSwarming_of_tagValues_error (h : Helpers) (t : Task)
    (s : SwarmingRpcsTaskResult) (e : String) (hT : h.TagValues s = .error e) :
    UpdateFromSwarming h t (some s) = .returned t false (some (.tagValues e)) := by
  simp [UpdateFromSwarming, hT]

/-- Every call returns: it either succeeds or reports an error and leaves the
task as it was. -/
theorem UpdateFromSwarming_cases (h : Helpers) (t : Task) (s : SwarmingRpcsTaskResult) :
    (∃ t' m, UpdateFromSwarming h t (some s) = .returned t' m none) ∨
      ∃ e, UpdateFromSwarming h t (some s) = .returned t false (some e) := by
  cases hT : h.TagValues s with
  | error e => exact Or.inr ⟨_, UpdateFromSwarming_of_tagValues_error h t s e hT⟩
  | ok tags =>
    cases hM : mergeFromSwarming h tags t s with
    | error e => exact Or.inr ⟨_, UpdateFromSwarming_of_merge_error h t s tags e hT hM⟩
    | ok c =>
      exact Or.inl ⟨c, decide (t ≠ c),
        (UpdateFromSwarming_ok_iff h t c s _).2 ⟨tags, hT, hM, rfl⟩⟩

/-! ### The steps of the merge, one by one -/

theorem checkOrSetFromTag_ok {tags : StringMap} {tagName field fieldName f' : String}
    (hk : checkOrSetFromTag tags tagName field fieldName = .ok f') :
    (field ≠ "" → f' = field) ∧
      (field = "" → ∀ v, tags.lookup tagName = some v → f' = v) ∧
      (tags.lookup tagName = none → f' = field) ∧
      checkOrSetFromTag tags tagName f' fieldName = .ok f' := by
  unfold checkOrSetFromTag at hk ⊢
  cases hl : tags.lookup tagName with
  | none =>
    simp only [hl, Except.ok.injEq] at hk
    subst hk
    simp
  | some v =>
    simp only [hl] at hk
    by_cases h0 : field = ""
    · simp only [h0, if_true, Except.ok.injEq] at hk
      subst hk
      simp [h0]
    · simp only [h0, if_false] at hk
      by_cases h1 : field = v
      · simp only [h1, ne_eq, not_true_eq_false, if_false, Except.ok.injEq] at hk
        subst hk
        subst h1
        simp
      · simp [h1] at hk

theorem checkOrSetFromTag_mismatch {tags : StringMap} {tagName field fieldName v : String}
    (h0 : field ≠ "") (hl : tags.lookup tagName = some v) (hne : field ≠ v) :
    checkOrSetFromTag tags tagName field fieldName = .error (.fieldMismatch fieldName) := by
  simp [checkOrSetFromTag, hl, h0, hne]

theorem checkOrSetCreated_ok {h : Helpers} {created c' : Time} {createdTs : String}
    (hk : checkOrSetCreated h created createdTs = .ok c') :
    (h.TimeIsZero created = false → c' = created) ∧
      (h.TimeIsZero created = true → h.ParseTimestamp createdTs = .ok c') ∧
      checkOrSetCreated h c' createdTs = .ok c' := by
  unfold checkOrSetCreated at hk ⊢
  cases hp : h.ParseTimestamp createdTs with
  | error e => simp [hp] at hk
  | ok sCreated =>
    simp only [hp] at hk
    cases hz : h.TimeIsZero created with
    | true =>
      simp only [hz, if_true, Except.ok.injEq] at hk
      subst hk
      simp
    | false =>
      simp only [hz, Bool.false_eq_true, if_false] at hk
      by_cases h1 : created = sCreated
      · subst h1
        simp only [ne_eq, not_true_eq_false, if_false, Except.ok.injEq] at hk
        subst hk
        simp [hz]
      · simp [h1] at hk

theorem checkOrSetSwarmingTaskId_ok {swarmingTaskId taskId i' : String}
    (hk : checkOrSetSwarmingTaskId swarmingTaskId taskId = .ok i') :
    (swarmingTaskId ≠ "" → i' = swarmingTaskId) ∧
      (swarmingTaskId = "" → i' = taskId) ∧
      checkOrSetSwarmingTaskId i' taskId = .ok i' := by
  unfold checkOrSetSwarmingTaskId at hk ⊢
  by_cases h0 : swarmingTaskId = ""
  · simp only [h0, if_true, Except.ok.injEq] at hk
    subst hk
    simp [h0]
  · simp only [h0, if_false] at hk
    by_cases h1 : swarmingTaskId = taskId
    · simp only [h1, ne_eq, not_true_eq_false, if_false, Except.ok.injEq] at hk
      subst hk
      subst h1
      simp
    · simp [h1] at hk

theorem maybeUpdateTime_ok {h : Helpers} {newTimeStr name : String} {field f' : Time}
    (hk : maybeUpdateTime h newTimeStr field name = .ok f') :
    (newTimeStr = "" → f' = field) ∧
      (newTimeStr ≠ "" → h.ParseTimestamp newTimeStr = .ok f') ∧
      maybeUpdateTime h newTimeStr f' name = .ok f' := by
  unfold maybeUpdateTime at hk ⊢
  by_cases h0 : newTimeStr = ""
  · simp only [h0, if_true, Except.ok.injEq] at hk
    subst hk
    simp [h0]
  · simp only [h0, if_false] at hk
    cases hp : h.ParseTimestamp newTimeStr with
    | error e => simp [hp] at hk
    | ok v =>
      simp only [hp, Except.ok.injEq] at hk
      subst hk
      simp [h0]

theorem finishedStep_ok {h : Helpers} {s : SwarmingRpcsTaskResult} {status : TaskStatus}
    {finished f' : Time} (hk : finishedStep h s status finished = .ok f') :
    (s.CompletedTs ≠ "" → h.ParseTimestamp s.CompletedTs = .ok f') ∧
      (s.CompletedTs = "" → status = TASK_STATUS_MISHAP → s.AbandonedTs ≠ "" →
        h.ParseTimestamp s.AbandonedTs = .ok f') ∧
      (s.CompletedTs = "" → ¬ (status = TASK_STATUS_MISHAP ∧ s.AbandonedTs ≠ "") →
        f' = finished) ∧
      finishedStep h s status f' = .ok f' := by
  unfold finishedStep at hk ⊢
  obtain ⟨fin1, h1, h2⟩ := bind_ok_inv hk
  obtain ⟨a1, a2, a3⟩ := maybeUpdateTime_ok h1
  by_cases hc : s.CompletedTs = ""
  · have e1 : fin1 = finished := a1 hc
    subst e1
    by_cases hm : status = TASK_STATUS_MISHAP
    · simp only [hc, hm, and_self, if_true] at h2
      obtain ⟨b1, b2, b3⟩ := maybeUpdateTime_ok h2
      refine ⟨fun hx => absurd hc hx, fun _ _ hx => b2 hx, ?_, ?_⟩
      · intro _ hx
        simp only [hm, true_and, not_not] at hx
        exact b1 hx
      · simp only [maybeUpdateTime, hc, if_true, bind, Except.bind, hm, and_self]
        exact b3
    · simp only [hm, and_false, if_false, pure, Except.pure, Except.ok.injEq] at h2
      subst h2
      refine ⟨fun hx => absurd hc hx, fun _ hx => absurd hx hm, fun _ _ => rfl, ?_⟩
      simp [maybeUpdateTime, hc, bind, Except.bind, hm, pure, Except.pure]
  · simp only [hc, false_and, if_false, pure, Except.pure, Except.ok.injEq] at h2
    subst h2
    refine ⟨fun _ => a2 hc, fun hx => absurd hx hc, fun hx => absurd hx hc, ?_⟩
    simp only [a3, bind, Except.bind, hc, false_and, if_false, pure, Except.pure]

/-! ## The claims -/

/-- C1: `UpdateFromSwarming` is idempotent.  When a call with report `s`
succeeds and leaves the task as `t1`, a second call with the same `s` returns
`(false, nil)` and leaves `t1` as it is. -/
theorem UpdateFromSwarming_idempotent (h : Helpers) (t t1 : Task)
    (s : SwarmingRpcsTaskResult) (m : Bool)
    (hok : UpdateFromSwarming h t (some s) = .returned t1 m none) :
    UpdateFromSwarming h t1 (some s) = .returned t1 false none := by
  obtain ⟨tags, hT, hM, -⟩ := (UpdateFromSwarming_ok_iff h t t1 s m).1 hok
  refine (UpdateFromSwarming_ok_iff h t1 t1 s false).2 ⟨tags, hT, ?_, by simp⟩
  obtain ⟨id, name, repo, retryOf, revision, created, swarmingTaskId, status, started,
    finished, h1, h2, h3, h4, h5, h6, h7, h8, h9, h10, rfl⟩ :=
    (mergeFromSwarming_ok_iff h tags t t1 s).1 hM
  refine (mergeFromSwarming_ok_iff h tags _ _ s).2
    ⟨id, name, repo, retryOf, revision, created, swarmingTaskId, status,
      if s.StartedTs = "" then
        (if (status ≠ TASK_STATUS_PENDING ∧ status ≠ TASK_STATUS_RUNNING) ∧
          h.TimeIsZero started = true then finished else started)
      else started,
      finished,
      (checkOrSetFromTag_ok h1).2.2.2, (checkOrSetFromTag_ok h2).2.2.2,
      (checkOrSetFromTag_ok h3).2.2.2, (checkOrSetFromTag_ok h4).2.2.2,
      (checkOrSetFromTag_ok h5).2.2.2, (checkOrSetCreated_ok h6).2.2,
      (checkOrSetSwarmingTaskId_ok h7).2.2, h8, ?_, (finishedStep_ok h10).2.2.2, ?_⟩
  · by_cases hs : s.StartedTs = ""
    · simp [mergedTask, maybeUpdateTime, hs]
    · simp only [mergedTask, hs, if_false]
      have := (maybeUpdateTime_ok h9).2.1 hs
      simp [maybeUpdateTime, hs, this]
  · by_cases hs : s.StartedTs = ""
    · simp only [mergedTask, hs, if_true]
      by_cases hd : (status ≠ TASK_STATUS_PENDING ∧ status ≠ TASK_STATUS_RUNNING) ∧
          h.TimeIsZero started = true
      · simp only [if_pos hd, ite_self]
      · simp only [if_neg hd]
    · simp only [mergedTask, hs, if_false]

/-- The witness of C1: the zero-value task and a report of a completed task. -/
theorem UpdateFromSwarming_idempotent_witness :
    UpdateFromSwarming exampleHelpers {} (some completedReport)
        = .returned completedTask true none ∧
      UpdateFromSwarming exampleHelpers completedTask (some completedReport)
        = .returned completedTask false none :=
  ⟨by decide, UpdateFromSwarming_idempotent exampleHelpers {} completedTask completedReport
    true (by decide)⟩

/-- Two tasks are equal exactly when they agree on each of the fourteen
fields. -/
theorem Task.eq_iff_fields (a b : Task) :
    a = b ↔
      a.Commits = b.Commits ∧ a.Created = b.Created ∧ a.DbModified = b.DbModified ∧
      a.Finished = b.Finished ∧ a.Id = b.Id ∧ a.IsolatedOutput = b.IsolatedOutput ∧
      a.Name = b.Name ∧ a.ParentTaskIds = b.ParentTaskIds ∧ a.Repo = b.Repo ∧
      a.RetryOf = b.RetryOf ∧ a.Revision = b.Revision ∧ a.Started = b.Started ∧
      a.Status = b.Status ∧ a.SwarmingTaskId = b.SwarmingTaskId := by
  cases a
  cases b
  simp

/-- C2: on a successful call the returned boolean is true exactly when the
task after the call differs from the task before it in at least one field,
and when `(false, nil)` is returned the task is unchanged. -/
theorem UpdateFromSwarming_modified_iff (h : Helpers) (t t' : Task)
    (s : SwarmingRpcsTaskResult) (m : Bool)
    (hok : UpdateFromSwarming h t (some s) = .returned t' m none) :
    (m = true ↔
      (t'.Commits ≠ t.Commits ∨ t'.Created ≠ t.Created ∨ t'.DbModified ≠ t.DbModified ∨
        t'.Finished ≠ t.Finished ∨ t'.Id ≠ t.Id ∨ t'.IsolatedOutput ≠ t.IsolatedOutput ∨
        t'.Name ≠ t.Name ∨ t'.ParentTaskIds ≠ t.ParentTaskIds ∨ t'.Repo ≠ t.Repo ∨
        t'.RetryOf ≠ t.RetryOf ∨ t'.Revision ≠ t.Revision ∨ t'.Started ≠ t.Started ∨
        t'.Status ≠ t.Status ∨ t'.SwarmingTaskId ≠ t.SwarmingTaskId)) ∧
      (m = false → t' = t) := by
  obtain ⟨tags, -, -, hm⟩ := (UpdateFromSwarming_ok_iff h t t' s m).1 hok
  subst hm
  have hne : t ≠ t' ↔ ¬ t' = t := ⟨fun hx hy => hx hy.symm, fun hx hy => hx hy.symm⟩
  constructor
  · rw [decide_eq_true_iff, hne, Task.eq_iff_fields]
    simp only [not_and_or, ne_eq]
  · intro hf
    by_contra hx
    have : decide (t ≠ t') = true := decide_eq_true (hne.2 hx)
    rw [this] at hf
    exact Bool.noConfusion hf

/-- The witness of C2: the zero-value task and a report of a completed task. -/
theorem UpdateFromSwarming_modified_iff_witness :
    UpdateFromSwarming exampleHelpers {} (some completedReport)
        = .returned completedTask true none ∧
      (true = true ↔
        (completedTask.Commits ≠ ({} : Task).Commits ∨
          completedTask.Created ≠ ({} : Task).Created ∨
          completedTask.DbModified ≠ ({} : Task).DbModified ∨
          completedTask.Finished ≠ ({} : Task).Finished ∨
          completedTask.Id ≠ ({} : Task).Id ∨
          completedTask.IsolatedOutput ≠ ({} : Task).IsolatedOutput ∨
          completedTask.Name ≠ ({} : Task).Name ∨
          completedTask.ParentTaskIds ≠ ({} : Task).ParentTaskIds ∨
          completedTask.Repo ≠ ({} : Task).Repo ∨
          completedTask.RetryOf ≠ ({} : Task).RetryOf ∨
          completedTask.Revision ≠ ({} : Task).Revision ∨
          completedTask.Started ≠ ({} : Task).Started ∨
          completedTask.Status ≠ ({} : Task).Status ∨
          completedTask.SwarmingTaskId ≠ ({} : Task).SwarmingTaskId)) ∧
      (true = false → completedTask = {}) :=
  ⟨by decide, UpdateFromSwarming_modified_iff exampleHelpers {} completedTask
    completedReport true (by decide)⟩

/-- C3: the call returns an error, and leaves the task alone, whenever an
identity field that is already set disagrees with the report: one of `Id`,
`Name`, `Repo`, `RetryOf`, `Revision` is non-empty and the report carries its
tag with another value, or `SwarmingTaskId` is non-empty and differs from the
report's `TaskId`, or `Created` is non-zero and differs from the parsed
`CreatedTs`. -/
theorem UpdateFromSwarming_identity_mismatch (h : Helpers) (t : Task)
    (s : SwarmingRpcsTaskResult)
    (hmis :
      (∃ tags v, h.TagValues s = .ok tags ∧
        ((t.Id ≠ "" ∧ tags.lookup SWARMING_TAG_ID = some v ∧ t.Id ≠ v) ∨
         (t.Name ≠ "" ∧ tags.lookup SWARMING_TAG_NAME = some v ∧ t.Name ≠ v) ∨
         (t.Repo ≠ "" ∧ tags.lookup SWARMING_TAG_REPO = some v ∧ t.Repo ≠ v) ∨
         (t.RetryOf ≠ "" ∧ tags.lookup SWARMING_TAG_RETRY_OF = some v ∧ t.RetryOf ≠ v) ∨
         (t.Revision ≠ "" ∧ tags.lookup SWARMING_TAG_REVISION = some v ∧
           t.Revision ≠ v))) ∨
      (t.SwarmingTaskId ≠ "" ∧ t.SwarmingTaskId ≠ s.TaskId) ∨
      (h.TimeIsZero t.Created = false ∧
        ∃ c, h.ParseTimestamp s.CreatedTs = .ok c ∧ t.Created ≠ c)) :
    ∃ e, UpdateFromSwarming h t (some s) = .returned t false (some e) := by
  rcases UpdateFromSwarming_cases h t s with ⟨t', m, hok⟩ | herr
  · exfalso
    obtain ⟨tags, hT, hM, -⟩ := (UpdateFromSwarming_ok_iff h t t' s m).1 hok
    obtain ⟨id, name, repo, retryOf, revision, created, swarmingTaskId, status, started,
      finished, h1, h2, h3, h4, h5, h6, h7, h8, h9, h10, -⟩ :=
      (mergeFromSwarming_ok_iff h tags t t' s).1 hM
    rcases hmis with ⟨tags', v, hT', hx⟩ | ⟨h0, hne⟩ | ⟨hz, c, hp, hne⟩
    · rw [hT] at hT'
      cases hT'
      rcases hx with ⟨h0, hl, hne⟩ | ⟨h0, hl, hne⟩ | ⟨h0, hl, hne⟩ | ⟨h0, hl, hne⟩ |
        ⟨h0, hl, hne⟩
      · rw [checkOrSetFromTag_mismatch h0 hl hne] at h1
        cases h1
      · rw [checkOrSetFromTag_mismatch h0 hl hne] at h2
        cases h2
      · rw [checkOrSetFromTag_mismatch h0 hl hne] at h3
        cases h3
      · rw [checkOrSetFromTag_mismatch h0 hl hne] at h4
        cases h4
      · rw [checkOrSetFromTag_mismatch h0 hl hne] at h5
        cases h5
    · simp [checkOrSetSwarmingTaskId, h0, hne] at h7
    · simp [checkOrSetCreated, hp, hz, hne] at h6
  · exact herr

/-- The witness of C3: the task is `task1`, the report is tagged `task2`. -/
theorem UpdateFromSwarming_identity_mismatch_witness :
    ((∃ tags v, exampleHelpers.TagValues otherIdReport = .ok tags ∧
        ((completedTask.Id ≠ "" ∧ tags.lookup SWARMING_TAG_ID = some v ∧
            completedTask.Id ≠ v) ∨
         (completedTask.Name ≠ "" ∧ tags.lookup SWARMING_TAG_NAME = some v ∧
            completedTask.Name ≠ v) ∨
         (completedTask.Repo ≠ "" ∧ tags.lookup SWARMING_TAG_REPO = some v ∧
            completedTask.Repo ≠ v) ∨
         (completedTask.RetryOf ≠ "" ∧ tags.lookup SWARMING_TAG_RETRY_OF = some v ∧
            completedTask.RetryOf ≠ v) ∨
         (completedTask.Revision ≠ "" ∧ tags.lookup SWARMING_TAG_REVISION = some v ∧
           completedTask.Revision ≠ v))) ∨
      (completedTask.SwarmingTaskId ≠ "" ∧
        completedTask.SwarmingTaskId ≠ otherIdReport.TaskId) ∨
      (exampleHelpers.TimeIsZero completedTask.Created = false ∧
        ∃ c, exampleHelpers.ParseTimestamp otherIdReport.CreatedTs = .ok c ∧
          completedTask.Created ≠ c)) ∧
    ∃ e, UpdateFromSwarming exampleHelpers completedTask (some otherIdReport)
      = .returned completedTask false (some e) :=
  have hyp : (∃ tags v, exampleHelpers.TagValues otherIdReport = .ok tags ∧
        ((completedTask.Id ≠ "" ∧ tags.lookup SWARMING_TAG_ID = some v ∧
            completedTask.Id ≠ v) ∨
         (completedTask.Name ≠ "" ∧ tags.lookup SWARMING_TAG_NAME = some v ∧
            completedTask.Name ≠ v) ∨
         (completedTask.Repo ≠ "" ∧ tags.lookup SWARMING_TAG_REPO = some v ∧
            completedTask.Repo ≠ v) ∨
         (completedTask.RetryOf ≠ "" ∧ tags.lookup SWARMING_TAG_RETRY_OF = some v ∧
            completedTask.RetryOf ≠ v) ∨
         (completedTask.Revision ≠ "" ∧ tags.lookup SWARMING_TAG_REVISION = some v ∧
           completedTask.Revision ≠ v))) ∨
      (completedTask.SwarmingTaskId ≠ "" ∧
        completedTask.SwarmingTaskId ≠ otherIdReport.TaskId) ∨
      (exampleHelpers.TimeIsZero completedTask.Created = false ∧
        ∃ c, exampleHelpers.ParseTimestamp otherIdReport.CreatedTs = .ok c ∧
          completedTask.Created ≠ c) :=
    Or.inl ⟨((∅ : StringMap).insert "sk_id" "task2").insert "sk_name" "Build", "task2",
      by rfl, Or.inl (by decide)⟩
  ⟨hyp, UpdateFromSwarming_identity_mismatch exampleHelpers completedTask otherIdReport hyp⟩

/-- C4: after a successful call each of `Id`, `Name`, `Repo`, `RetryOf`,
`Revision`, `SwarmingTaskId` and `Created` that was set before the call has
kept its value, and each that was unset holds the report's value: the value
of its tag when the tag is present, the report's `TaskId`, the parsed
`CreatedTs`. -/
theorem UpdateFromSwarming_identity_fields (h : Helpers) (t t' : Task)
    (s : SwarmingRpcsTaskResult) (m : Bool) (tags : StringMap)
    (hT : h.TagValues s = .ok tags)
    (hok : UpdateFromSwarming h t (some s) = .returned t' m none) :
    (t.Id ≠ "" → t'.Id = t.Id) ∧
    (t.Id = "" → ∀ v, tags.lookup SWARMING_TAG_ID = some v → t'.Id = v) ∧
    (t.Name ≠ "" → t'.Name = t.Name) ∧
    (t.Name = "" → ∀ v, tags.lookup SWARMING_TAG_NAME = some v → t'.Name = v) ∧
    (t.Repo ≠ "" → t'.Repo = t.Repo) ∧
    (t.Repo = "" → ∀ v, tags.lookup SWARMING_TAG_REPO = some v → t'.Repo = v) ∧
    (t.RetryOf ≠ "" → t'.RetryOf = t.RetryOf) ∧
    (t.RetryOf = "" → ∀ v, tags.lookup SWARMING_TAG_RETRY_OF = some v → t'.RetryOf = v) ∧
    (t.Revision ≠ "" → t'.Revision = t.Revision) ∧
    (t.Revision = "" → ∀ v, tags.lookup SWARMING_TAG_REVISION = some v → t'.Revision = v) ∧
    (t.SwarmingTaskId ≠ "" → t'.SwarmingTaskId = t.SwarmingTaskId) ∧
    (t.SwarmingTaskId = "" → t'.SwarmingTaskId = s.TaskId) ∧
    (h.TimeIsZero t.Created = false → t'.Created = t.Created) ∧
    (h.TimeIsZero t.Created = true → h.ParseTimestamp s.CreatedTs = .ok t'.Created) := by
  obtain ⟨tags', hT', hM, -⟩ := (UpdateFromSwarming_ok_iff h t t' s m).1 hok
  rw [hT] at hT'
  cases hT'
  obtain ⟨id, name, repo, retryOf, revision, created, swarmingTaskId, status, started,
    finished, h1, h2, h3, h4, h5, h6, h7, h8, h9, h10, rfl⟩ :=
    (mergeFromSwarming_ok_iff h tags t t' s).1 hM
  have k1 := checkOrSetFromTag_ok h1
  have k2 := checkOrSetFromTag_ok h2
  have k3 := checkOrSetFromTag_ok h3
  have k4 := checkOrSetFromTag_ok h4
  have k5 := checkOrSetFromTag_ok h5
  have k6 := checkOrSetCreated_ok h6
  have k7 := checkOrSetSwarmingTaskId_ok h7
  exact ⟨k1.1, k1.2.1, k2.1, k2.2.1, k3.1, k3.2.1, k4.1, k4.2.1, k5.1, k5.2.1,
    k7.1, k7.2.1, k6.1, k6.2.1⟩

/-- The witness of C4: the zero-value task takes every identity field from
the report. -/
theorem UpdateFromSwarming_identity_fields_witness :
    exampleHelpers.TagValues completedReport
        = .ok (((∅ : StringMap).insert "sk_id" "task1").insert "sk_name" "Build") ∧
    UpdateFromSwarming exampleHelpers {} (some completedReport)
        = .returned completedTask true none ∧
    ((({} : Task).Id ≠ "" → completedTask.Id = ({} : Task).Id) ∧
    (({} : Task).Id = "" → ∀ v, (((∅ : StringMap).insert "sk_id" "task1").insert "sk_name" "Build").lookup SWARMING_TAG_ID = some v → completedTask.Id = v) ∧
    (({} : Task).Name ≠ "" → completedTask.Name = ({} : Task).Name) ∧
    (({} : Task).Name = "" → ∀ v, (((∅ : StringMap).insert "sk_id" "task1").insert "sk_name" "Build").lookup SWARMING_TAG_NAME = some v → completedTask.Name = v) ∧
    (({} : Task).Repo ≠ "" → completedTask.Repo = ({} : Task).Repo) ∧
    (({} : Task).Repo = "" → ∀ v, (((∅ : StringMap).insert "sk_id" "task1").insert "sk_name" "Build").lookup SWARMING_TAG_REPO = some v → completedTask.Repo = v) ∧
    (({} : Task).RetryOf ≠ "" → completedTask.RetryOf = ({} : Task).RetryOf) ∧
    (({} : Task).RetryOf = "" → ∀ v, (((∅ : StringMap).insert "sk_id" "task1").insert "sk_name" "Build").lookup SWARMING_TAG_RETRY_OF = some v → completedTask.RetryOf = v) ∧
    (({} : Task).Revision ≠ "" → completedTask.Revision = ({} : Task).Revision) ∧
    (({} : Task).Revision = "" → ∀ v, (((∅ : StringMap).insert "sk_id" "task1").insert "sk_name" "Build").lookup SWARMING_TAG_REVISION = some v → completedTask.Revision = v) ∧
    (({} : Task).SwarmingTaskId ≠ "" → completedTask.SwarmingTaskId = ({} : Task).SwarmingTaskId) ∧
    (({} : Task).SwarmingTaskId = "" → completedTask.SwarmingTaskId = completedReport.TaskId) ∧
    (exampleHelpers.TimeIsZero ({} : Task).Created = false → completedTask.Created = ({} : Task).Created) ∧
    (exampleHelpers.TimeIsZero ({} : Task).Created = true → exampleHelpers.ParseTimestamp completedReport.CreatedTs = .ok completedTask.Created)) :=
  ⟨by rfl, by decide,
    UpdateFromSwarming_identity_fields exampleHelpers {} completedTask completedReport true
      _ (by rfl) (by decide)⟩

theorem statusFromState_ok {s : SwarmingRpcsTaskResult} {status : TaskStatus}
    (hk : statusFromState s = .ok status) :
    ((s.State = SWARMING_STATE_BOT_DIED ∨ s.State = SWARMING_STATE_CANCELED ∨
        s.State = SWARMING_STATE_EXPIRED ∨ s.State = SWARMING_STATE_TIMED_OUT) →
      status = TASK_STATUS_MISHAP) ∧
    (s.State = SWARMING_STATE_PENDING → status = TASK_STATUS_PENDING) ∧
    (s.State = SWARMING_STATE_RUNNING → status = TASK_STATUS_RUNNING) ∧
    (s.State = SWARMING_STATE_COMPLETED → s.Failure = true →
      status = TASK_STATUS_FAILURE) ∧
    (s.State = SWARMING_STATE_COMPLETED → s.Failure = false →
      status = TASK_STATUS_SUCCESS) ∧
    (s.State = SWARMING_STATE_BOT_DIED ∨ s.State = SWARMING_STATE_CANCELED ∨
      s.State = SWARMING_STATE_EXPIRED ∨ s.State = SWARMING_STATE_TIMED_OUT ∨
      s.State = SWARMING_STATE_PENDING ∨ s.State = SWARMING_STATE_RUNNING ∨
      s.State = SWARMING_STATE_COMPLETED) := by
  unfold statusFromState at hk
  split at hk
  · rename_i hc
    cases hk
    refine ⟨fun _ => rfl, ?_, ?_, ?_, ?_, ?_⟩
    · intro hx
      rw [hx] at hc
      exact absurd hc (by decide)
    · intro hx
      rw [hx] at hc
      exact absurd hc (by decide)
    · intro hx
      rw [hx] at hc
      exact absurd hc (by decide)
    · intro hx
      rw [hx] at hc
      exact absurd hc (by decide)
    · tauto
  · rename_i hc
    split at hk
    · rename_i hp
      cases hk
      refine ⟨fun hx => absurd hx hc, fun _ => rfl, ?_, ?_, ?_, by tauto⟩
      · intro hx
        rw [hx] at hp
        exact absurd hp (by decide)
      · intro hx
        rw [hx] at hp
        exact absurd hp (by decide)
      · intro hx
        rw [hx] at hp
        exact absurd hp (by decide)
    · rename_i hp
      split at hk
      · rename_i hr
        cases hk
        refine ⟨fun hx => absurd hx hc, fun hx => absurd hx hp, fun _ => rfl, ?_, ?_,
          by tauto⟩
        · intro hx
          rw [hx] at hr
          exact absurd hr (by decide)
        · intro hx
          rw [hx] at hr
          exact absurd hr (by decide)
      · rename_i hr
        split at hk
        · rename_i hd
          refine ⟨fun hx => absurd hx hc, fun hx => absurd hx hp, fun hx => absurd hx hr,
            ?_, ?_, by tauto⟩
          · intro _ hf
            simp only [hf, if_true, Except.ok.injEq] at hk
            exact hk.symm
          · intro _ hf
            simp only [hf, Bool.false_eq_true, if_false, Except.ok.injEq] at hk
            exact hk.symm
        · cases hk

/-- C5: after a successful call `Status` is given by the report alone:
`BOT_DIED`, `CANCELED`, `EXPIRED` and `TIMED_OUT` give `MISHAP`, `PENDING`
gives `PENDING`, `RUNNING` gives `RUNNING`, `COMPLETED` gives `FAILURE` when
the report's `Failure` flag is set and `SUCCESS` otherwise; and for every
other `State` the call returns an error. -/
theorem UpdateFromSwarming_status (h : Helpers) (t : Task) (s : SwarmingRpcsTaskResult) :
    (∀ t' m, UpdateFromSwarming h t (some s) = .returned t' m none →
      ((s.State = SWARMING_STATE_BOT_DIED ∨ s.State = SWARMING_STATE_CANCELED ∨
          s.State = SWARMING_STATE_EXPIRED ∨ s.State = SWARMING_STATE_TIMED_OUT) →
        t'.Status = TASK_STATUS_MISHAP) ∧
      (s.State = SWARMING_STATE_PENDING → t'.Status = TASK_STATUS_PENDING) ∧
      (s.State = SWARMING_STATE_RUNNING → t'.Status = TASK_STATUS_RUNNING) ∧
      (s.State = SWARMING_STATE_COMPLETED → s.Failure = true →
        t'.Status = TASK_STATUS_FAILURE) ∧
      (s.State = SWARMING_STATE_COMPLETED → s.Failure = false →
        t'.Status = TASK_STATUS_SUCCESS)) ∧
    (¬ (s.State = SWARMING_STATE_BOT_DIED ∨ s.State = SWARMING_STATE_CANCELED ∨
        s.State = SWARMING_STATE_EXPIRED ∨ s.State = SWARMING_STATE_TIMED_OUT ∨
        s.State = SWARMING_STATE_PENDING ∨ s.State = SWARMING_STATE_RUNNING ∨
        s.State = SWARMING_STATE_COMPLETED) →
      ∃ e, UpdateFromSwarming h t (some s) = .returned t false (some e)) := by
  constructor
  · intro t' m hok
    obtain ⟨tags, hT, hM, -⟩ := (UpdateFromSwarming_ok_iff h t t' s m).1 hok
    obtain ⟨id, name, repo, retryOf, revision, created, swarmingTaskId, status, started,
      finished, h1, h2, h3, h4, h5, h6, h7, h8, h9, h10, rfl⟩ :=
      (mergeFromSwarming_ok_iff h tags t t' s).1 hM
    have k := statusFromState_ok h8
    exact ⟨k.1, k.2.1, k.2.2.1, k.2.2.2.1, k.2.2.2.2.1⟩
  · intro hno
    rcases UpdateFromSwarming_cases h t s with ⟨t', m, hok⟩ | herr
    · exfalso
      obtain ⟨tags, hT, hM, -⟩ := (UpdateFromSwarming_ok_iff h t t' s m).1 hok
      obtain ⟨id, name, repo, retryOf, revision, created, swarmingTaskId, status, started,
        finished, h1, h2, h3, h4, h5, h6, h7, h8, h9, h10, -⟩ :=
        (mergeFromSwarming_ok_iff h tags t t' s).1 hM
      exact hno (statusFromState_ok h8).2.2.2.2.2
    · exact herr

/-- The witness of C5: a task that failed receives a report of success and
ends as `SUCCESS`; a report in state `KILLED` is an error. -/
theorem UpdateFromSwarming_status_witness :
    (UpdateFromSwarming exampleHelpers { completedTask with Status := TASK_STATUS_FAILURE }
        (some completedReport) = .returned completedTask true none ∧
      completedTask.Status = TASK_STATUS_SUCCESS) ∧
    (¬ (unknownStateReport.State = SWARMING_STATE_BOT_DIED ∨
        unknownStateReport.State = SWARMING_STATE_CANCELED ∨
        unknownStateReport.State = SWARMING_STATE_EXPIRED ∨
        unknownStateReport.State = SWARMING_STATE_TIMED_OUT ∨
        unknownStateReport.State = SWARMING_STATE_PENDING ∨
        unknownStateReport.State = SWARMING_STATE_RUNNING ∨
        unknownStateReport.State = SWARMING_STATE_COMPLETED) ∧
      ∃ e, UpdateFromSwarming exampleHelpers completedTask (some unknownStateReport)
        = .returned completedTask false (some e)) :=
  ⟨⟨by decide,
      ((UpdateFromSwarming_status exampleHelpers
        { completedTask with Status := TASK_STATUS_FAILURE } completedReport).1
          completedTask true (by decide)).2.2.2.2 (by decide) (by decide)⟩,
    by decide,
    (UpdateFromSwarming_status exampleHelpers completedTask unknownStateReport).2
      (by decide)⟩

/-! ### Parent task ids -/

/-- The step of the loop in `collectParentTaskIds`. -/
theorem collect_foldl_of_not_mem (l : List (Sigma fun _ : String => String))
    (acc : StringSlice) (hl : SWARMING_TAG_PARENT_TASK_ID ∉ l.keys) :
    l.foldl
      (fun parentTaskIds kv =>
        if kv.1 = SWARMING_TAG_PARENT_TASK_ID then appendString parentTaskIds kv.2
        else parentTaskIds) acc = acc := by
  induction l generalizing acc with
  | nil => rfl
  | cons e l ih =>
    simp only [List.keys_cons, List.mem_cons, not_or] at hl
    have he : ¬ e.1 = SWARMING_TAG_PARENT_TASK_ID := fun hx => hl.1 hx.symm
    simp only [List.foldl_cons, he, if_false]
    exact ih acc hl.2

theorem collect_foldl_length (l : List (Sigma fun _ : String => String))
    (acc : StringSlice) (hl : l.NodupKeys) :
    ((l.foldl
      (fun parentTaskIds kv =>
        if kv.1 = SWARMING_TAG_PARENT_TASK_ID then appendString parentTaskIds kv.2
        else parentTaskIds) acc).getD []).length ≤ (acc.getD []).length + 1 := by
  induction l generalizing acc with
  | nil => simp
  | cons e l ih =>
    rw [List.nodupKeys_cons] at hl
    by_cases he : e.1 = SWARMING_TAG_PARENT_TASK_ID
    · simp only [List.foldl_cons, he, if_true]
      rw [collect_foldl_of_not_mem l _ (he ▸ hl.1)]
      simp [appendString]
    · simp only [List.foldl_cons, he, if_false]
      exact ih acc hl.2

/-- A map holds one value for a key, so the loop over the tag map finds at
most one parent task id. -/
theorem collectParentTaskIds_length (tags : StringMap) :
    ((collectParentTaskIds tags).getD []).length ≤ 1 := by
  have := collect_foldl_length tags.entries none tags.nodupKeys
  simpa [collectParentTaskIds] using this

theorem sortStrings_length (x : StringSlice) :
    ((sortStrings x).getD []).length = (x.getD []).length := by
  cases x <;> simp [sortStrings, List.length_insertionSort]

/-- Whatever `swarming.TagValues` computes, a task that was updated with
success has at most one parent task id. -/
theorem UpdateFromSwarming_parentTaskIds_length (h : Helpers) (t t' : Task)
    (s : SwarmingRpcsTaskResult) (m : Bool)
    (hok : UpdateFromSwarming h t (some s) = .returned t' m none) :
    (t'.ParentTaskIds.getD []).length ≤ 1 := by
  obtain ⟨tags, hT, hM, -⟩ := (UpdateFromSwarming_ok_iff h t t' s m).1 hok
  obtain ⟨id, name, repo, retryOf, revision, created, swarmingTaskId, status, started,
    finished, h1, h2, h3, h4, h5, h6, h7, h8, h9, h10, rfl⟩ :=
    (mergeFromSwarming_ok_iff h tags t t' s).1 hM
  simp only [mergedTask]
  rw [sortStrings_length]
  exact collectParentTaskIds_length tags

/-- C6: the code at the failing input.  The zero-value task is updated with
success from a report tagged by `TagsForTask` for the parents `a` and `b`, and
ends with the single parent id `b`, not with `a`, `b`. -/
theorem UpdateFromSwarming_loses_parent_ids :
    UpdateFromSwarming exampleHelpers {} (some twoParentsReport)
        = .returned
          { Created := unixTime 1451606401
            Id := "task1"
            Name := "Build"
            ParentTaskIds := some ["b"]
            Repo := "repo"
            Revision := "rev"
            SwarmingTaskId := "swarm1" } true none ∧
      sortStrings (some ["a", "b"]) = some ["a", "b"] ∧
      (some ["b"] : StringSlice) ≠ sortStrings (some ["a", "b"]) := by
  decide

/-! ### Status and timestamps -/

/-- C7, counterexample: a task that is done receives a report in state
`RUNNING`; the call succeeds and the task is no longer done. -/
theorem UpdateFromSwarming_done_lost :
    completedTask.Done = true ∧
      UpdateFromSwarming exampleHelpers completedTask (some runningReport)
        = .returned { completedTask with Status := TASK_STATUS_RUNNING } true none ∧
      ({ completedTask with Status := TASK_STATUS_RUNNING } : Task).Done = false := by
  decide

/-- C7, amended: for every task, done or not, and every report on which the
call succeeds, the task is done after the call exactly when the report's
`State` is neither `PENDING` nor `RUNNING`. -/
theorem UpdateFromSwarming_done_iff (h : Helpers) (t t' : Task)
    (s : SwarmingRpcsTaskResult) (m : Bool)
    (hok : UpdateFromSwarming h t (some s) = .returned t' m none) :
    t'.Done = true ↔
      (s.State ≠ SWARMING_STATE_PENDING ∧ s.State ≠ SWARMING_STATE_RUNNING) := by
  obtain ⟨tags, hT, hM, -⟩ := (UpdateFromSwarming_ok_iff h t t' s m).1 hok
  obtain ⟨id, name, repo, retryOf, revision, created, swarmingTaskId, status, started,
    finished, h1, h2, h3, h4, h5, h6, h7, h8, h9, h10, rfl⟩ :=
    (mergeFromSwarming_ok_iff h tags t t' s).1 hM
  obtain ⟨k1, k2, k3, k4, k5, k6⟩ := statusFromState_ok h8
  simp only [Task.Done, mergedTask, Bool.and_eq_true, decide_eq_true_eq, ne_eq]
  constructor
  · rintro ⟨hp, hr⟩
    exact ⟨fun hx => hp (k2 hx), fun hx => hr (k3 hx)⟩
  · rintro ⟨hp, hr⟩
    rcases k6 with hx | hx | hx | hx | hx | hx | hx
    · rw [k1 (Or.inl hx)]
      decide
    · rw [k1 (Or.inr (Or.inl hx))]
      decide
    · rw [k1 (Or.inr (Or.inr (Or.inl hx)))]
      decide
    · rw [k1 (Or.inr (Or.inr (Or.inr hx)))]
      decide
    · exact absurd hx hp
    · exact absurd hx hr
    · cases hf : s.Failure with
      | true =>
        rw [k4 hx hf]
        decide
      | false =>
        rw [k5 hx hf]
        decide

/-- The witness of C7 as amended: a task that is done receives a report in
state `COMPLETED` and stays done. -/
theorem UpdateFromSwarming_done_iff_witness :
    completedTask.Done = true ∧
      UpdateFromSwarming exampleHelpers completedTask (some completedReport)
        = .returned completedTask false none ∧
      (completedTask.Done = true ↔
        (completedReport.State ≠ SWARMING_STATE_PENDING ∧
          completedReport.State ≠ SWARMING_STATE_RUNNING)) :=
  ⟨by decide, by decide,
    UpdateFromSwarming_done_iff exampleHelpers completedTask completedTask completedReport
      false (by decide)⟩

/-- C8: a successful call never replaces a timestamp by a blank one.  When the
report's `StartedTs` is empty a non-zero `Started` is left as it was, and when
the report's `CompletedTs` is empty, unless the status is `MISHAP` and
`AbandonedTs` is non-empty, `Finished` is left as it was. -/
theorem UpdateFromSwarming_keeps_timestamps (h : Helpers) (t t' : Task)
    (s : SwarmingRpcsTaskResult) (m : Bool)
    (hok : UpdateFromSwarming h t (some s) = .returned t' m none) :
    (s.StartedTs = "" → h.TimeIsZero t.Started = false → t'.Started = t.Started) ∧
      (s.CompletedTs = "" → ¬ (t'.Status = TASK_STATUS_MISHAP ∧ s.AbandonedTs ≠ "") →
        t'.Finished = t.Finished) := by
  obtain ⟨tags, hT, hM, -⟩ := (UpdateFromSwarming_ok_iff h t t' s m).1 hok
  obtain ⟨id, name, repo, retryOf, revision, created, swarmingTaskId, status, started,
    finished, h1, h2, h3, h4, h5, h6, h7, h8, h9, h10, rfl⟩ :=
    (mergeFromSwarming_ok_iff h tags t t' s).1 hM
  constructor
  · intro hs hz
    have e : started = t.Started := (maybeUpdateTime_ok h9).1 hs
    subst e
    simp [mergedTask, hz]
  · intro hc hn
    exact (finishedStep_ok h10).2.2.1 hc hn

/-- The witness of C8: a finished task receives a report without `StartedTs`
and `CompletedTs` and keeps both times. -/
theorem UpdateFromSwarming_keeps_timestamps_witness :
    UpdateFromSwarming exampleHelpers completedTask (some bareReport)
        = .returned { completedTask with Status := TASK_STATUS_RUNNING } true none ∧
      ((bareReport.StartedTs = "" → exampleHelpers.TimeIsZero completedTask.Started = false →
          ({ completedTask with Status := TASK_STATUS_RUNNING } : Task).Started
            = completedTask.Started) ∧
        (bareReport.CompletedTs = "" →
          ¬ (({ completedTask with Status := TASK_STATUS_RUNNING } : Task).Status
              = TASK_STATUS_MISHAP ∧ bareReport.AbandonedTs ≠ "") →
          ({ completedTask with Status := TASK_STATUS_RUNNING } : Task).Finished
            = completedTask.Finished)) :=
  ⟨by decide,
    UpdateFromSwarming_keeps_timestamps exampleHelpers completedTask
      { completedTask with Status := TASK_STATUS_RUNNING } bareReport true (by decide)⟩

/-- C9: after a successful call that leaves the task done, `Started` is
non-zero or equal to `Finished`; and when `Started` was zero before the call
and the report has no `StartedTs`, `Started` equals `Finished`. -/
theorem UpdateFromSwarming_started_backfilled (h : Helpers) (t t' : Task)
    (s : SwarmingRpcsTaskResult) (m : Bool)
    (hok : UpdateFromSwarming h t (some s) = .returned t' m none)
    (hd : t'.Done = true) :
    (h.TimeIsZero t'.Started = false ∨ t'.Started = t'.Finished) ∧
      (h.TimeIsZero t.Started = true → s.StartedTs = "" → t'.Started = t'.Finished) := by
  obtain ⟨tags, hT, hM, -⟩ := (UpdateFromSwarming_ok_iff h t t' s m).1 hok
  obtain ⟨id, name, repo, retryOf, revision, created, swarmingTaskId, status, started,
    finished, h1, h2, h3, h4, h5, h6, h7, h8, h9, h10, rfl⟩ :=
    (mergeFromSwarming_ok_iff h tags t t' s).1 hM
  have hd' : status ≠ TASK_STATUS_PENDING ∧ status ≠ TASK_STATUS_RUNNING := by
    simpa [Task.Done, mergedTask] using hd
  constructor
  · cases hz : h.TimeIsZero started with
    | true =>
      right
      simp [mergedTask, hd', hz]
    | false =>
      left
      simp [mergedTask, hz]
  · intro hz hs
    have e : started = t.Started := (maybeUpdateTime_ok h9).1 hs
    subst e
    simp [mergedTask, hd', hz]

/-- The witness of C9: a task that expired without starting. -/
theorem UpdateFromSwarming_started_backfilled_witness :
    UpdateFromSwarming exampleHelpers {} (some expiredReport)
        = .returned expiredTask true none ∧
      expiredTask.Done = true ∧
      ((exampleHelpers.TimeIsZero expiredTask.Started = false ∨
          expiredTask.Started = expiredTask.Finished) ∧
        (exampleHelpers.TimeIsZero ({} : Task).Started = true → expiredReport.StartedTs = "" →
          expiredTask.Started = expiredTask.Finished)) :=
  ⟨by decide, by decide,
    UpdateFromSwarming_started_backfilled exampleHelpers {} expiredTask expiredReport true
      (by decide) (by decide)⟩

/-- C10, counterexample: the zero-value task satisfies the invariant, the
call succeeds, and afterwards `Started` and `Finished` are both non-zero with
`Finished` before `Started`. -/
theorem UpdateFromSwarming_finished_before_started :
    (exampleHelpers.TimeIsZero ({} : Task).Started = false →
        exampleHelpers.TimeIsZero ({} : Task).Finished = false →
        ({} : Task).Finished.Before ({} : Task).Started = false) ∧
      UpdateFromSwarming exampleHelpers {} (some backwardsReport)
        = .returned backwardsTask true none ∧
      exampleHelpers.TimeIsZero backwardsTask.Started = false ∧
      exampleHelpers.TimeIsZero backwardsTask.Finished = false ∧
      backwardsTask.Finished.Before backwardsTask.Started = true := by
  decide

theorem Time.Before_self (x : Time) : x.Before x = false := by
  simp [Time.Before]

/-- C10, amended: `UpdateFromSwarming` stores the times of the report as they
are and compares nothing, so the invariant `Finished >= Started` is kept
exactly when the two times in force after the merge are in order.  On a
successful call let `a` be the parsed `StartedTs`, or the `Started` of the
task when `StartedTs` is empty, and `b` the parsed `CompletedTs`, or the
parsed `AbandonedTs` when the status is `MISHAP`, or else the `Finished` of
the task.  Then "if both `Started` and `Finished` are non-zero after the
call, `Finished` is not before `Started`" holds if and only if `a` is zero,
`b` is zero, or `b` is not before `a`.  For a task that satisfies the
invariant it holds in particular when the report sets neither time, when the
report sets no finish time and the task has none (a first report of a running
task), when the report sets no start time and the task has none (a done task
then takes `Started` from `Finished`), and when the report carries
`StartedTs` and `CompletedTs` in order. -/
theorem UpdateFromSwarming_finished_not_before_started (h : Helpers) (t t' : Task)
    (s : SwarmingRpcsTaskResult) (m : Bool)
    (hinv : h.TimeIsZero t.Started = false → h.TimeIsZero t.Finished = false →
      t.Finished.Before t.Started = false)
    (hok : UpdateFromSwarming h t (some s) = .returned t' m none) :
    ∃ a b, maybeUpdateTime h s.StartedTs t.Started "StartedTs" = .ok a ∧
      finishedStep h s t'.Status t.Finished = .ok b ∧
      ((h.TimeIsZero t'.Started = false → h.TimeIsZero t'.Finished = false →
          t'.Finished.Before t'.Started = false) ↔
        (h.TimeIsZero a = true ∨ h.TimeIsZero b = true ∨ b.Before a = false)) ∧
      ((s.StartedTs = "" ∧ s.CompletedTs = "" ∧
          ¬ (t'.Status = TASK_STATUS_MISHAP ∧ s.AbandonedTs ≠ "")) →
        h.TimeIsZero t'.Started = false → h.TimeIsZero t'.Finished = false →
          t'.Finished.Before t'.Started = false) ∧
      ((s.CompletedTs = "" ∧ ¬ (t'.Status = TASK_STATUS_MISHAP ∧ s.AbandonedTs ≠ "") ∧
          h.TimeIsZero t.Finished = true) →
        h.TimeIsZero t'.Started = false → h.TimeIsZero t'.Finished = false →
          t'.Finished.Before t'.Started = false) ∧
      ((s.StartedTs = "" ∧ h.TimeIsZero t.Started = true) →
        h.TimeIsZero t'.Started = false → h.TimeIsZero t'.Finished = false →
          t'.Finished.Before t'.Started = false) ∧
      (∀ x y, s.StartedTs ≠ "" → s.CompletedTs ≠ "" →
        h.ParseTimestamp s.StartedTs = .ok x → h.ParseTimestamp s.CompletedTs = .ok y →
        y.Before x = false →
        h.TimeIsZero t'.Started = false → h.TimeIsZero t'.Finished = false →
          t'.Finished.Before t'.Started = false) := by
  obtain ⟨tags, hT, hM, -⟩ := (UpdateFromSwarming_ok_iff h t t' s m).1 hok
  obtain ⟨id, name, repo, retryOf, revision, created, swarmingTaskId, status, started,
    finished, h1, h2, h3, h4, h5, h6, h7, h8, h9, h10, rfl⟩ :=
    (mergeFromSwarming_ok_iff h tags t t' s).1 hM
  have key : (h.TimeIsZero (mergedTask h tags t s id name repo retryOf revision created
        swarmingTaskId status started finished).Started = false →
      h.TimeIsZero (mergedTask h tags t s id name repo retryOf revision created
        swarmingTaskId status started finished).Finished = false →
      (mergedTask h tags t s id name repo retryOf revision created swarmingTaskId status
        started finished).Finished.Before
        (mergedTask h tags t s id name repo retryOf revision created swarmingTaskId status
          started finished).Started = false) ↔
      (h.TimeIsZero started = true ∨ h.TimeIsZero finished = true ∨
        finished.Before started = false) := by
    simp only [mergedTask]
    by_cases hb : (status ≠ TASK_STATUS_PENDING ∧ status ≠ TASK_STATUS_RUNNING) ∧
        h.TimeIsZero started = true
    · rw [if_pos hb]
      exact ⟨fun _ => Or.inl hb.2, fun _ _ _ => Time.Before_self finished⟩
    · rw [if_neg hb]
      constructor
      · intro hI
        cases hza : h.TimeIsZero started with
        | true => exact Or.inl rfl
        | false =>
          cases hzb : h.TimeIsZero finished with
          | true => exact Or.inr (Or.inl rfl)
          | false => exact Or.inr (Or.inr (hI hza hzb))
      · rintro (hz | hz | hord) hs hf
        · rw [hz] at hs; cases hs
        · rw [hz] at hf; cases hf
        · exact hord
  have hstatus : (mergedTask h tags t s id name repo retryOf revision created
      swarmingTaskId status started finished).Status = status := rfl
  refine ⟨started, finished, h9, by rw [hstatus]; exact h10, key, ?_, ?_, ?_, ?_⟩
  · rintro ⟨hs, hc, hn⟩
    rw [hstatus] at hn
    have e1 : started = t.Started := (maybeUpdateTime_ok h9).1 hs
    have e2 : finished = t.Finished := (finishedStep_ok h10).2.2.1 hc hn
    apply key.2
    cases hza : h.TimeIsZero started with
    | true => exact Or.inl rfl
    | false =>
      cases hzb : h.TimeIsZero finished with
      | true => exact Or.inr (Or.inl rfl)
      | false =>
        refine Or.inr (Or.inr ?_)
        rw [e1] at hza ⊢
        rw [e2] at hzb ⊢
        exact hinv hza hzb
  · rintro ⟨hc, hn, hz⟩
    rw [hstatus] at hn
    have e2 : finished = t.Finished := (finishedStep_ok h10).2.2.1 hc hn
    exact key.2 (Or.inr (Or.inl (by rw [e2]; exact hz)))
  · rintro ⟨hs, hz⟩
    have e1 : started = t.Started := (maybeUpdateTime_ok h9).1 hs
    exact key.2 (Or.inl (by rw [e1]; exact hz))
  · intro x y hs hc hx hy hxy
    have e1 := (maybeUpdateTime_ok h9).2.1 hs
    have e2 := (finishedStep_ok h10).1 hc
    rw [hx] at e1
    rw [hy] at e2
    cases e1
    cases e2
    exact key.2 (Or.inr (Or.inr hxy))

/-- The witness of C10 as amended: a task that expired in the queue has no
start time and takes `Started` from `Finished`, the parsed `AbandonedTs`. -/
theorem UpdateFromSwarming_finished_not_before_started_witness :
    (exampleHelpers.TimeIsZero ({} : Task).Started = false →
        exampleHelpers.TimeIsZero ({} : Task).Finished = false →
        ({} : Task).Finished.Before ({} : Task).Started = false) ∧
      UpdateFromSwarming exampleHelpers {} (some expiredReport)
        = .returned expiredTask true none ∧
      (expiredReport.StartedTs = "" ∧
        exampleHelpers.TimeIsZero ({} : Task).Started = true) ∧
      (exampleHelpers.TimeIsZero expiredTask.Started = false →
        exampleHelpers.TimeIsZero expiredTask.Finished = false →
        expiredTask.Finished.Before expiredTask.Started = false) :=
  ⟨by decide, by decide, ⟨by decide, by decide⟩,
    (UpdateFromSwarming_finished_not_before_started exampleHelpers {} expiredTask
      expiredReport true (by decide) (by decide)).elim
      fun _ hab => hab.elim fun _ hb => hb.2.2.2.2.2.1 ⟨by decide, by decide⟩⟩

/-! ### Unparseable timestamps -/

theorem checkOrSetCreated_parsed {h : Helpers} {created c' : Time} {createdTs : String}
    (hk : checkOrSetCreated h created createdTs = .ok c') :
    ∃ x, h.ParseTimestamp createdTs = .ok x := by
  unfold checkOrSetCreated at hk
  cases hp : h.ParseTimestamp createdTs with
  | error e => simp [hp] at hk
  | ok x => exact ⟨x, rfl⟩

/-- C11: the call returns an error, and leaves the task alone, whenever a
timestamp it reads cannot be parsed: `CreatedTs` does not parse, be it empty
or not, or `StartedTs` or `CompletedTs` is non-empty and does not parse. -/
theorem UpdateFromSwarming_unparseable_timestamp (h : Helpers) (t : Task)
    (s : SwarmingRpcsTaskResult)
    (hbad : (∃ e, h.ParseTimestamp s.CreatedTs = .error e) ∨
      (s.StartedTs ≠ "" ∧ ∃ e, h.ParseTimestamp s.StartedTs = .error e) ∨
      (s.CompletedTs ≠ "" ∧ ∃ e, h.ParseTimestamp s.CompletedTs = .error e)) :
    ∃ e, UpdateFromSwarming h t (some s) = .returned t false (some e) := by
  rcases UpdateFromSwarming_cases h t s with ⟨t', m, hok⟩ | herr
  · exfalso
    obtain ⟨tags, hT, hM, -⟩ := (UpdateFromSwarming_ok_iff h t t' s m).1 hok
    obtain ⟨id, name, repo, retryOf, revision, created, swarmingTaskId, status, started,
      finished, h1, h2, h3, h4, h5, h6, h7, h8, h9, h10, -⟩ :=
      (mergeFromSwarming_ok_iff h tags t t' s).1 hM
    rcases hbad with ⟨e, he⟩ | ⟨hs, e, he⟩ | ⟨hc, e, he⟩
    · obtain ⟨x, hx⟩ := checkOrSetCreated_parsed h6
      rw [he] at hx
      cases hx
    · have hx := (maybeUpdateTime_ok h9).2.1 hs
      rw [he] at hx
      cases hx
    · have hx := (finishedStep_ok h10).1 hc
      rw [he] at hx
      cases hx
  · exact herr

/-- The witness of C11: a report whose `CreatedTs` is empty. -/
theorem UpdateFromSwarming_unparseable_timestamp_witness :
    ((∃ e, exampleHelpers.ParseTimestamp
          ({ completedReport with CreatedTs := "" } : SwarmingRpcsTaskResult).CreatedTs
          = .error e) ∨
      (({ completedReport with CreatedTs := "" } : SwarmingRpcsTaskResult).StartedTs ≠ "" ∧
        ∃ e, exampleHelpers.ParseTimestamp
          ({ completedReport with CreatedTs := "" } : SwarmingRpcsTaskResult).StartedTs
          = .error e) ∨
      (({ completedReport with CreatedTs := "" } : SwarmingRpcsTaskResult).CompletedTs ≠ "" ∧
        ∃ e, exampleHelpers.ParseTimestamp
          ({ completedReport with CreatedTs := "" } : SwarmingRpcsTaskResult).CompletedTs
          = .error e)) ∧
    ∃ e, UpdateFromSwarming exampleHelpers completedTask
        (some { completedReport with CreatedTs := "" })
      = .returned completedTask false (some e) :=
  ⟨Or.inl ⟨"", by rfl⟩,
    UpdateFromSwarming_unparseable_timestamp exampleHelpers completedTask
      { completedReport with CreatedTs := "" } (Or.inl ⟨"", by rfl⟩)⟩

/-! ### The task encoder -/

theorem TaskEncoder.calls_cons (gobEncode : Task → Except String Bytes) (e : TaskEncoder)
    (c : EncoderCall) (cs : List EncoderCall) :
    TaskEncoder.calls gobEncode e (c :: cs) =
      match e.call gobEncode c with
      | none => none
      | some (e1, r) =>
        match TaskEncoder.calls gobEncode e1 cs with
        | none => none
        | some (e2, rs) => some (e2, r :: rs) := by
  rw [TaskEncoder.calls]

/-- Calls of `Process` that all return true append the tasks and their
serializations to the two queues. -/
theorem TaskEncoder.calls_process_true (gobEncode : Task → Except String Bytes)
    (ts : List Task) (tasks : List Task) (result : List Bytes) (e' : TaskEncoder)
    (hp : TaskEncoder.calls gobEncode ⟨none, tasks, result⟩ (ts.map .process)
      = some (e', ts.map fun _ => .processed true)) :
    ∃ bs, List.Forall₂ (fun t b => gobEncode t = .ok b) ts bs ∧
      e' = ⟨none, tasks ++ ts, result ++ bs⟩ := by
  induction ts generalizing tasks result with
  | nil =>
    simp only [List.map_nil, TaskEncoder.calls, Option.some.injEq, Prod.mk.injEq,
      and_true] at hp
    exact ⟨[], List.Forall₂.nil, by simp [← hp]⟩
  | cons t ts ih =>
    simp only [List.map_cons, TaskEncoder.calls_cons, TaskEncoder.call] at hp
    cases henc : gobEncode t with
    | error x =>
      simp [TaskEncoder.Process, henc] at hp
      split at hp
      · cases hp
      · simp at hp
    | ok b =>
      simp only [TaskEncoder.Process, henc, ne_eq, not_true_eq_false, if_false] at hp
      split at hp
      · cases hp
      · rename_i e2 rs hrec
        simp only [Option.some.injEq, Prod.mk.injEq, List.cons.injEq, true_and] at hp
        obtain ⟨rfl, rfl⟩ := hp
        obtain ⟨bs, hbs, rfl⟩ := ih (tasks ++ [t]) (result ++ [b]) hrec
        exact ⟨b :: bs, List.Forall₂.cons henc hbs, by simp⟩

/-- Calls of `Next` on an encoder without error whose queues have the same
length: one pair for each pending task, in order, then nothing. -/
theorem TaskEncoder.calls_next (gobEncode : Task → Except String Bytes)
    (ts : List Task) (bs : List Bytes) (hlen : ts.length = bs.length) (k : Nat) :
    TaskEncoder.calls gobEncode ⟨none, ts, bs⟩ (List.replicate (ts.length + k) .next) =
      some (⟨none, [], []⟩,
        List.zipWith (fun t b => EncoderReturn.next ⟨some t, some b, none⟩) ts bs ++
          List.replicate k (.next ⟨none, none, none⟩)) := by
  induction ts generalizing bs with
  | nil =>
    cases bs with
    | cons b bs => simp at hlen
    | nil =>
      simp only [List.length_nil, Nat.zero_add, List.zipWith_nil_left, List.nil_append]
      induction k with
      | zero => rfl
      | succ k ih =>
        rw [List.replicate_succ, TaskEncoder.calls_cons]
        simp only [TaskEncoder.call, TaskEncoder.Next, Option.map_some']
        rw [ih]
        rfl
  | cons t ts ih =>
    cases bs with
    | nil => simp at hlen
    | cons b bs =>
      have hlen' : ts.length = bs.length := by simpa using hlen
      have e1 : (t :: ts).length + k = (ts.length + k) + 1 := by
        simp only [List.length_cons]
        omega
      rw [e1, List.replicate_succ, TaskEncoder.calls_cons]
      simp only [TaskEncoder.call, TaskEncoder.Next, Option.map_some']
      rw [ih bs hlen']
      rfl

/-- C13: when `Process` returned true for each of the tasks `ts`, in this
order, on a new encoder, each task has a serialization, the next calls of
`Next` return the tasks one by one in the same order, each with its own
serialization and a nil error, and every later call returns nil, nil, nil. -/
theorem TaskEncoder_next_returns_processed (gobEncode : Task → Except String Bytes)
    (ts : List Task) (e : TaskEncoder) (k : Nat)
    (hp : TaskEncoder.calls gobEncode {} (ts.map .process)
      = some (e, ts.map fun _ => .processed true)) :
    ∃ bs, List.Forall₂ (fun t b => gobEncode t = .ok b) ts bs ∧
      TaskEncoder.calls gobEncode e (List.replicate (ts.length + k) .next) =
        some ({},
          List.zipWith (fun t b => EncoderReturn.next ⟨some t, some b, none⟩) ts bs ++
            List.replicate k (.next ⟨none, none, none⟩)) := by
  obtain ⟨bs, hbs, rfl⟩ := TaskEncoder.calls_process_true gobEncode ts [] [] e hp
  refine ⟨bs, hbs, ?_⟩
  simp only [List.nil_append]
  exact TaskEncoder.calls_next gobEncode ts bs hbs.length_eq k

/-- The witness of C13: two tasks are processed and `Next` is called three
times. -/
theorem TaskEncoder_next_returns_processed_witness :
    TaskEncoder.calls exampleEncode {} ([completedTask, expiredTask].map .process)
        = some (⟨none, [completedTask, expiredTask],
            [exampleEncode completedTask, exampleEncode expiredTask].filterMap
              Except.toOption⟩,
          [completedTask, expiredTask].map fun _ => .processed true) ∧
      ∃ bs, List.Forall₂ (fun t b => exampleEncode t = .ok b)
          [completedTask, expiredTask] bs ∧
        TaskEncoder.calls exampleEncode
            ⟨none, [completedTask, expiredTask],
              [exampleEncode completedTask, exampleEncode expiredTask].filterMap
                Except.toOption⟩
            (List.replicate ([completedTask, expiredTask].length + 1) .next) =
          some ({},
            List.zipWith (fun t b => EncoderReturn.next ⟨some t, some b, none⟩)
                [completedTask, expiredTask] bs ++
              List.replicate 1 (.next ⟨none, none, none⟩)) :=
  ⟨by decide,
    TaskEncoder_next_returns_processed exampleEncode [completedTask, expiredTask] _ 1
      (by decide)⟩

/-- C14: the encoder is fail-fast.  When the serialization of a task fails in
`Process` on an encoder without error, that call returns false and empties
both queues; from then on every call of `Process` returns false and stores
nothing, and every call of `Next` returns nil, nil and that first error, so
no task accepted before the failure is returned. -/
theorem TaskEncoder_fail_fast (gobEncode : Task → Except String Bytes) (e : TaskEncoder)
    (t : Task) (x : String) (he : e.err = none) (hx : gobEncode t = .error x) :
    e.Process gobEncode t = (⟨some x, [], []⟩, false) ∧
      ∀ cs : List EncoderCall,
        TaskEncoder.calls gobEncode ⟨some x, [], []⟩ cs =
          some (⟨some x, [], []⟩,
            cs.map fun c =>
              match c with
              | .process _ => EncoderReturn.processed false
              | .next => EncoderReturn.next ⟨none, none, some x⟩) := by
  constructor
  · simp [TaskEncoder.Process, he, hx]
  · intro cs
    induction cs with
    | nil => rfl
    | cons c cs ih =>
      rw [TaskEncoder.calls_cons]
      cases c with
      | process t2 =>
        simp only [TaskEncoder.call, TaskEncoder.Process, ne_eq, reduceCtorEq,
          not_false_eq_true, if_true]
        rw [ih]
        rfl
      | next =>
        simp only [TaskEncoder.call, TaskEncoder.Next, Option.map_some']
        rw [ih]
        rfl

/-- The witness of C14: one task is accepted, the next has no `Id` and cannot
be written. -/
theorem TaskEncoder_fail_fast_witness :
    (⟨none, [completedTask], [[116, 97, 115, 107, 49]]⟩ : TaskEncoder).err = none ∧
      exampleEncode {} = .error "no id" ∧
      ((⟨none, [completedTask], [[116, 97, 115, 107, 49]]⟩ : TaskEncoder).Process
          exampleEncode {} = (⟨some "no id", [], []⟩, false) ∧
        ∀ cs : List EncoderCall,
          TaskEncoder.calls exampleEncode ⟨some "no id", [], []⟩ cs =
            some (⟨some "no id", [], []⟩,
              cs.map fun c =>
                match c with
                | .process _ => EncoderReturn.processed false
                | .next => EncoderReturn.next ⟨none, none, some "no id"⟩)) :=
  ⟨rfl, by rfl,
    TaskEncoder_fail_fast exampleEncode ⟨none, [completedTask], [[116, 97, 115, 107, 49]]⟩
      {} "no id" rfl (by rfl)⟩

/-! ### The task decoder -/

/-- C15: `Result` on a decoder on which `Process` was never called, that is
on the zero value, returns an empty task list that is not nil and a nil
error, before any channel operation. -/
theorem TaskDecoder_result_uninitialized :
    TaskDecoder.Result {} = .returned (some []) none := by
  rfl

/-! ### The tags of a task -/

theorem dimKey_take (k : String) :
    ("sk_dim_" ++ k).data.take 4 = ['s', 'k', '_', 'd'] := by
  rw [String.data_append]
  rfl

/-- A key `sk_dim_<k>` is none of the seven fixed keys. -/
theorem dimKey_ne_fixed (k : String) :
    "sk_dim_" ++ k ≠ SWARMING_TAG_ALLOW_MILO ∧ "sk_dim_" ++ k ≠ SWARMING_TAG_NAME ∧
      "sk_dim_" ++ k ≠ SWARMING_TAG_ID ∧ "sk_dim_" ++ k ≠ SWARMING_TAG_PRIORITY ∧
      "sk_dim_" ++ k ≠ SWARMING_TAG_REPO ∧ "sk_dim_" ++ k ≠ SWARMING_TAG_RETRY_OF ∧
      "sk_dim_" ++ k ≠ SWARMING_TAG_REVISION := by
  have key : ∀ c : String, c.data.take 4 ≠ ['s', 'k', '_', 'd'] → "sk_dim_" ++ k ≠ c := by
    intro c hc heq
    apply hc
    rw [← heq]
    exact dimKey_take k
  exact ⟨key _ (by decide), key _ (by decide), key _ (by decide), key _ (by decide),
    key _ (by decide), key _ (by decide), key _ (by decide)⟩

/-- Two keys `sk_dim_<a>` and `sk_dim_<b>` are equal only when `a` is `b`. -/
theorem dimKey_injective (a b : String) (hab : "sk_dim_" ++ a = "sk_dim_" ++ b) : a = b := by
  have h1 := congrArg String.data hab
  rw [String.data_append, String.data_append] at h1
  exact String.ext (List.append_cancel_left h1)

/-- The loop over `dimensions` adds one entry for each dimension when none of
the keys `sk_dim_<k>` is in the map yet. -/
theorem dims_foldl_entries (l : List (Sigma fun _ : String => String)) (hl : l.NodupKeys)
    (m : StringMap) (hm : ∀ kv ∈ l, "sk_dim_" ++ kv.1 ∉ m) :
    (l.foldl
      (fun (tags : StringMap) kv =>
        let key := "sk_dim_" ++ kv.1
        if (tags.lookup key).isNone then tags.insert key kv.2 else tags) m).entries =
      (l.reverse.map fun kv => (⟨"sk_dim_" ++ kv.1, kv.2⟩ : Sigma fun _ : String => String))
        ++ m.entries := by
  induction l generalizing m with
  | nil => simp
  | cons e l ih =>
    rw [List.nodupKeys_cons] at hl
    have he : "sk_dim_" ++ e.1 ∉ m := hm e (List.mem_cons_self _ _)
    have hnone : m.lookup ("sk_dim_" ++ e.1) = none := AList.lookup_eq_none.2 he
    simp only [List.foldl_cons, hnone, Option.isNone_none, if_true]
    rw [ih hl.2]
    · rw [AList.insert_entries_of_neg he]
      simp
    · intro kv hkv
      rw [AList.mem_insert]
      rintro (heq | hmem)
      · have hk : e.1 = kv.1 := (dimKey_injective _ _ heq).symm
        apply hl.1
        rw [hk]
        exact List.mem_keys_of_mem hkv
      · exact hm kv (List.mem_cons_of_mem _ hkv) hmem

/-- C12: the list returned by `TagsForTask` holds, in some order, the seven
fixed tags, one tag `sk_dim_<k>:<v>` for every dimension and one tag
`sk_parent_task_id:<p>` for every parent task id, with multiplicity; its
length is 7 plus the number of dimensions plus the number of parent task
ids, so no dimension is dropped as a duplicate. -/
theorem TagsForTask_perm {Float64 : Type} (sprintfF : Float64 → String) (name id : String)
    (priority : Float64) (repo retryOf revision : String) (dimensions : StringMap)
    (parentTaskIds : List String) :
    List.Perm
        (TagsForTask sprintfF name id priority repo retryOf revision dimensions
          parentTaskIds)
        ([SWARMING_TAG_ALLOW_MILO ++ ":" ++ "1",
            SWARMING_TAG_NAME ++ ":" ++ name,
            SWARMING_TAG_ID ++ ":" ++ id,
            SWARMING_TAG_PRIORITY ++ ":" ++ sprintfF priority,
            SWARMING_TAG_REPO ++ ":" ++ repo,
            SWARMING_TAG_RETRY_OF ++ ":" ++ retryOf,
            SWARMING_TAG_REVISION ++ ":" ++ revision] ++
          dimensions.entries.map (fun kv => "sk_dim_" ++ kv.1 ++ ":" ++ kv.2) ++
          parentTaskIds.map (fun p => SWARMING_TAG_PARENT_TASK_ID ++ ":" ++ p)) ∧
      (TagsForTask sprintfF name id priority repo retryOf revision dimensions
          parentTaskIds).length =
        7 + dimensions.entries.length + parentTaskIds.length := by
  have hbase : ∀ kv ∈ dimensions.entries, "sk_dim_" ++ kv.1 ∉
      ((((((((∅ : StringMap).insert SWARMING_TAG_ALLOW_MILO "1").insert
        SWARMING_TAG_NAME name).insert
        SWARMING_TAG_ID id).insert
        SWARMING_TAG_PRIORITY (sprintfF priority)).insert
        SWARMING_TAG_REPO repo).insert
        SWARMING_TAG_RETRY_OF retryOf).insert
        SWARMING_TAG_REVISION revision) := by
    intro kv _
    obtain ⟨n1, n2, n3, n4, n5, n6, n7⟩ := dimKey_ne_fixed kv.1
    simp only [AList.mem_insert, AList.not_mem_empty, or_false, not_or]
    exact ⟨n7, n6, n5, n4, n3, n2, n1⟩
  have hent := dims_foldl_entries dimensions.entries dimensions.nodupKeys _ hbase
  have hfixed : ((((((((∅ : StringMap).insert SWARMING_TAG_ALLOW_MILO "1").insert
        SWARMING_TAG_NAME name).insert
        SWARMING_TAG_ID id).insert
        SWARMING_TAG_PRIORITY (sprintfF priority)).insert
        SWARMING_TAG_REPO repo).insert
        SWARMING_TAG_RETRY_OF retryOf).insert
        SWARMING_TAG_REVISION revision).entries =
      [⟨SWARMING_TAG_REVISION, revision⟩, ⟨SWARMING_TAG_RETRY_OF, retryOf⟩,
        ⟨SWARMING_TAG_REPO, repo⟩, ⟨SWARMING_TAG_PRIORITY, sprintfF priority⟩,
        ⟨SWARMING_TAG_ID, id⟩, ⟨SWARMING_TAG_NAME, name⟩,
        ⟨SWARMING_TAG_ALLOW_MILO, "1"⟩] := by
    rfl
  have hlist : TagsForTask sprintfF name id priority repo retryOf revision dimensions
      parentTaskIds =
      ((dimensions.entries.reverse.map fun kv =>
            (⟨"sk_dim_" ++ kv.1, kv.2⟩ : Sigma fun _ : String => String)) ++
          ([⟨SWARMING_TAG_REVISION, revision⟩, ⟨SWARMING_TAG_RETRY_OF, retryOf⟩,
            ⟨SWARMING_TAG_REPO, repo⟩, ⟨SWARMING_TAG_PRIORITY, sprintfF priority⟩,
            ⟨SWARMING_TAG_ID, id⟩, ⟨SWARMING_TAG_NAME, name⟩,
            ⟨SWARMING_TAG_ALLOW_MILO, "1"⟩] :
            List (Sigma fun _ : String => String))).map
          (fun kv => kv.1 ++ ":" ++ kv.2) ++
        parentTaskIds.map (fun p => SWARMING_TAG_PARENT_TASK_ID ++ ":" ++ p) := by
    unfold TagsForTask
    simp only []
    rw [hent, hfixed]
  rw [hlist]
  constructor
  · apply List.Perm.append_right
    simp only [List.map_append, List.map_reverse, List.map_map, List.map_cons, List.map_nil]
    refine (List.perm_append_comm).trans ?_
    apply List.Perm.append
    · have : [SWARMING_TAG_REVISION ++ ":" ++ revision, SWARMING_TAG_RETRY_OF ++ ":" ++ retryOf,
          SWARMING_TAG_REPO ++ ":" ++ repo, SWARMING_TAG_PRIORITY ++ ":" ++ sprintfF priority,
          SWARMING_TAG_ID ++ ":" ++ id, SWARMING_TAG_NAME ++ ":" ++ name,
          SWARMING_TAG_ALLOW_MILO ++ ":" ++ "1"] =
          [SWARMING_TAG_ALLOW_MILO ++ ":" ++ "1", SWARMING_TAG_NAME ++ ":" ++ name,
            SWARMING_TAG_ID ++ ":" ++ id, SWARMING_TAG_PRIORITY ++ ":" ++ sprintfF priority,
            SWARMING_TAG_REPO ++ ":" ++ repo, SWARMING_TAG_RETRY_OF ++ ":" ++ retryOf,
            SWARMING_TAG_REVISION ++ ":" ++ revision].reverse := by
        simp
      rw [this]
      exact List.reverse_perm _
    · exact List.reverse_perm _
  · simp only [List.length_append, List.length_map, List.length_reverse, List.length_cons,
      List.length_nil]
    omega

/-! ### The task store -/

theorem newId_ne_empty (n : Nat) : newId n ≠ "" := by
  intro h
  have h1 := congrArg (fun s : String => s.data.take 1) h
  simp only [newId, String.data_append] at h1
  exact absurd h1 (by simp [List.take])

theorem storeTime_injective (a b : Nat) (h : storeTime a = storeTime b) : a = b := by
  simp only [storeTime, Time.mk.injEq, and_true] at h
  omega

/-- A task that has an `Id` is left as it is when ids are assigned. -/
theorem mem_assignIds (n : Nat) (tasks : List Task) (t : Task) (ht : t ∈ tasks)
    (hid : t.Id ≠ "") : t ∈ (assignIds n tasks).2 := by
  induction tasks generalizing n with
  | nil => cases ht
  | cons u us ih =>
    rw [assignIds]
    rcases List.mem_cons.1 ht with rfl | hmem
    · simp [hid]
    · split
      · exact List.mem_cons_of_mem _ (ih (n + 1) hmem)
      · exact List.mem_cons_of_mem _ (ih n hmem)

/-- A successful `PutTask` in full: the task keeps its `Id` or gets the next
one, it carries the next `DbModified`, and the store holds it under its `Id`. -/
theorem TaskDb.PutTask_ok {db db1 : TaskDb} {t t1 : Task}
    (h : db.PutTask t = (db1, .ok t1)) :
    timeIsZero t.Created = false ∧
      t1 = { t with Id := if t.Id = "" then newId db.ids else t.Id
                    DbModified := storeTime (db.modified + 1) } ∧
      db1 = { tasks := db.tasks.insert t1.Id t1
              modified := db.modified + 1
              ids := if t.Id = "" then db.ids + 1 else db.ids } := by
  unfold TaskDb.PutTask TaskDb.PutTasks at h
  by_cases hc : timeIsZero t.Created = true
  · simp [hc, Except.map] at h
  · simp only [Bool.not_eq_true] at hc
    by_cases hid : t.Id = ""
    · simp only [List.any_cons, hc, List.any_nil, Bool.or_false, Bool.false_eq_true,
        if_false, assignIds, hid, if_true] at h
      split at h
      · simp [Except.map] at h
      · simp only [List.map_cons, List.map_nil, List.foldl_cons, List.foldl_nil, Except.map,
          List.headD_cons, Prod.mk.injEq, Except.ok.injEq] at h
        obtain ⟨h1, h2⟩ := h
        subst h2
        subst h1
        simp [hc, hid]
    · simp only [List.any_cons, hc, List.any_nil, Bool.or_false, Bool.false_eq_true,
        if_false, assignIds, hid] at h
      split at h
      · simp [Except.map] at h
      · simp only [List.map_cons, List.map_nil, List.foldl_cons, List.foldl_nil, Except.map,
          List.headD_cons, Prod.mk.injEq, Except.ok.injEq] at h
        obtain ⟨h1, h2⟩ := h
        subst h2
        subst h1
        simp [hc, hid]

/-- A task whose `DbModified` differs from the stored one is refused, and
the store is left as it was. -/
theorem TaskDb.PutTask_stale (db : TaskDb) (c old : Task) (hid : c.Id ≠ "")
    (hcreated : timeIsZero c.Created = false) (hold : db.tasks.lookup c.Id = some old)
    (hne : old.DbModified ≠ c.DbModified) :
    db.PutTask c = (db, .error .concurrentUpdate) := by
  unfold TaskDb.PutTask TaskDb.PutTasks
  simp [hcreated, assignIds, hid, TaskDb.conflicts, hold, hne, Except.map]

/-- C17: optimistic concurrency.  A task is stored, a copy `c` of it is read
with `GetTaskById`, the task is changed and stored again, and then `c`, with
or without changes of its own, is given to `PutTask`: that call fails with
`ConcurrentUpdate`, the store is as it was, and `GetTaskById` still returns
the task as it was stored last. -/
theorem TaskDb.PutTask_stale_copy (db db1 db2 : TaskDb) (t t1 t' t2 c c' : Task)
    (h1 : db.PutTask t = (db1, .ok t1))
    (hc : db1.GetTaskById t1.Id = some c)
    (ht' : t'.Id = t1.Id ∧ t'.DbModified = t1.DbModified)
    (h2 : db1.PutTask t' = (db2, .ok t2))
    (hc' : c'.Id = c.Id ∧ c'.DbModified = c.DbModified ∧ c'.Created = c.Created) :
    db2.PutTask c' = (db2, .error .concurrentUpdate) ∧
      db2.GetTaskById t1.Id = some t2 := by
  obtain ⟨k1, k2, k3⟩ := TaskDb.PutTask_ok h1
  obtain ⟨m1, m2, m3⟩ := TaskDb.PutTask_ok h2
  have hid1 : t1.Id ≠ "" := by
    rw [k2]
    by_cases hid : t.Id = ""
    · simpa [hid] using newId_ne_empty db.ids
    · simp [hid]
  have hget1 : db1.GetTaskById t1.Id = some t1 := by
    rw [k3]
    simp [TaskDb.GetTaskById]
  rw [hget1] at hc
  cases hc
  have hid2 : t2.Id = t1.Id := by
    rw [m2]
    simp [ht'.1, hid1]
  have hget2 : db2.GetTaskById t1.Id = some t2 := by
    rw [m3, hid2]
    simp [TaskDb.GetTaskById]
  refine ⟨?_, hget2⟩
  apply TaskDb.PutTask_stale db2 c' t2
  · rw [hc'.1]
    exact hid1
  · rw [hc'.2.2, k2]
    exact k1
  · rw [hc'.1]
    exact hget2
  · rw [hc'.2.1, m2, k2, k3]
    simp only []
    intro hx
    have := storeTime_injective _ _ hx
    omega

/-- The witness of C17: the steps of `TestConcurrentUpdate` on the empty
store. -/
theorem TaskDb.PutTask_stale_copy_witness :
    ({} : TaskDb).PutTask storeTask = (storeDb1, .ok storeTask1) ∧
    storeDb1.GetTaskById storeTask1.Id = some storeTask1 ∧
    (({ storeTask1 with Commits := some ["a", "b"] } : Task).Id = storeTask1.Id ∧
      ({ storeTask1 with Commits := some ["a", "b"] } : Task).DbModified
        = storeTask1.DbModified) ∧
    storeDb1.PutTask { storeTask1 with Commits := some ["a", "b"] }
      = (storeDb2, .ok storeTask2) ∧
    (staleTask.Id = storeTask1.Id ∧ staleTask.DbModified = storeTask1.DbModified ∧
      staleTask.Created = storeTask1.Created) ∧
    (storeDb2.PutTask staleTask = (storeDb2, .error .concurrentUpdate) ∧
      storeDb2.GetTaskById storeTask1.Id = some storeTask2) :=
  ⟨by rfl, by rfl, ⟨rfl, rfl⟩, by rfl, ⟨rfl, rfl, rfl⟩,
    TaskDb.PutTask_stale_copy {} storeDb1 storeDb2 storeTask storeTask1
      { storeTask1 with Commits := some ["a", "b"] } storeTask2 storeTask1 staleTask
      (by rfl) (by rfl) ⟨rfl, rfl⟩ (by rfl) ⟨rfl, rfl, rfl⟩⟩

/-- C18, counterexample: the batch holds the stale copy of a stored task and a
task with the zero `Created`; `PutTasks` fails with the validation error and
not with `ConcurrentUpdate`. -/
theorem TaskDb.PutTasks_stale_without_created :
    (∃ t ∈ [noCreatedTask, staleTask], t.Id ≠ "" ∧
      ∃ old, storeDb2.GetTaskById t.Id = some old ∧ old.DbModified ≠ t.DbModified) ∧
    storeDb2.PutTasks [noCreatedTask, staleTask]
      = (storeDb2, .error (.validation "Created not set.")) ∧
    DbError.validation "Created not set." ≠ DbError.concurrentUpdate :=
  ⟨⟨staleTask, by simp, by decide, storeTask2, by rfl, by decide⟩, by rfl, by decide⟩

/-- C18, amended: `PutTasks` is all-or-nothing.  When a batch holds a task
whose `DbModified` differs from the stored one, the call fails and the store
is as it was, so that the stored value of every task of the batch, the
non-conflicting ones included, is the one before the call.  The error is
`ConcurrentUpdate` when every task of the batch has `Created` set, and the
validation error, which is checked first, when one has not. -/
theorem TaskDb.PutTasks_all_or_nothing (db : TaskDb) (tasks : List Task)
    (hstale : ∃ t ∈ tasks, t.Id ≠ "" ∧
      ∃ old, db.GetTaskById t.Id = some old ∧ old.DbModified ≠ t.DbModified) :
    (∃ e, (db.PutTasks tasks).2 = .error e) ∧
    (db.PutTasks tasks).1 = db ∧
    (∀ t ∈ tasks, (db.PutTasks tasks).1.GetTaskById t.Id = db.GetTaskById t.Id) ∧
    ((∀ t ∈ tasks, timeIsZero t.Created = false) →
      db.PutTasks tasks = (db, .error .concurrentUpdate)) ∧
    ((∃ t ∈ tasks, timeIsZero t.Created = true) →
      db.PutTasks tasks = (db, .error (.validation "Created not set."))) := by
  obtain ⟨t, ht, hid, old, hold, hne⟩ := hstale
  have h2 : (assignIds db.ids tasks).2.any db.conflicts = true := by
    rw [List.any_eq_true]
    refine ⟨t, mem_assignIds db.ids tasks t ht hid, ?_⟩
    simp only [TaskDb.GetTaskById] at hold
    simp [TaskDb.conflicts, hold, hne]
  have hvalid : (∀ t ∈ tasks, timeIsZero t.Created = false) →
      db.PutTasks tasks = (db, .error .concurrentUpdate) := by
    intro hv
    have h1 : tasks.any (fun t => timeIsZero t.Created) = false := by
      rw [List.any_eq_false]
      intro u hu
      simp [hv u hu]
    unfold TaskDb.PutTasks
    simp [h1, h2]
  have hinvalid : (∃ t ∈ tasks, timeIsZero t.Created = true) →
      db.PutTasks tasks = (db, .error (.validation "Created not set.")) := by
    rintro ⟨u, hu, hz⟩
    have h1 : tasks.any (fun t => timeIsZero t.Created) = true := by
      rw [List.any_eq_true]
      exact ⟨u, hu, hz⟩
    unfold TaskDb.PutTasks
    simp [h1]
  have herr : ∃ e, db.PutTasks tasks = (db, .error e) := by
    by_cases hv : ∀ t ∈ tasks, timeIsZero t.Created = false
    · exact ⟨_, hvalid hv⟩
    · refine ⟨_, hinvalid ?_⟩
      simp only [not_forall, Bool.not_eq_false] at hv
      obtain ⟨u, hu, hz⟩ := hv
      exact ⟨u, hu, hz⟩
  obtain ⟨e, he⟩ := herr
  refine ⟨⟨e, by rw [he]⟩, by rw [he], ?_, hvalid, hinvalid⟩
  intro u _
  rw [he]

/-- The witness of C18 as amended: the batch of `TestConcurrentUpdate`, the
stored task `t2` with a new status and the stale copy of `t1`; the store
keeps `t2` as it was stored. -/
theorem TaskDb.PutTasks_all_or_nothing_witness :
    storeDb2.PutTask { otherTask with Status := TASK_STATUS_PENDING }
      = (storeDb3, .ok otherTaskStored) ∧
    (∃ t ∈ [{ otherTaskStored with Status := TASK_STATUS_MISHAP }, staleTask], t.Id ≠ "" ∧
      ∃ old, storeDb3.GetTaskById t.Id = some old ∧ old.DbModified ≠ t.DbModified) ∧
    (∀ t ∈ [{ otherTaskStored with Status := TASK_STATUS_MISHAP }, staleTask],
      timeIsZero t.Created = false) ∧
    storeDb3.PutTasks [{ otherTaskStored with Status := TASK_STATUS_MISHAP }, staleTask]
      = (storeDb3, .error .concurrentUpdate) ∧
    storeDb3.GetTaskById otherTaskStored.Id = some otherTaskStored :=
  have hstale : ∃ t ∈ [{ otherTaskStored with Status := TASK_STATUS_MISHAP }, staleTask],
      t.Id ≠ "" ∧
      ∃ old, storeDb3.GetTaskById t.Id = some old ∧ old.DbModified ≠ t.DbModified :=
    ⟨staleTask, by simp, by decide, storeTask2, by rfl, by decide⟩
  ⟨by rfl, hstale, by decide,
    (TaskDb.PutTasks_all_or_nothing storeDb3
      [{ otherTaskStored with Status := TASK_STATUS_MISHAP }, staleTask] hstale).2.2.2.1
      (by decide),
    by rfl⟩

/-! ### The retry helpers -/

/-- A call of `PutTasks` that fails leaves the store as it was. -/
theorem TaskDb.PutTasks_error_unchanged (db : TaskDb) (tasks : List Task) (e : DbError)
    (h : (db.PutTasks tasks).2 = .error e) : (db.PutTasks tasks).1 = db := by
  unfold TaskDb.PutTasks at h ⊢
  split
  · rfl
  · split
    · rfl
    · rename_i h1 h2
      simp [h1, h2] at h

/-- The shape of every run of `UpdateWithRetries`: the callback is called once
in each round; either all `n` rounds end in `ConcurrentUpdate`, or some
rounds do and the next one ends the run. -/
theorem UpdateWithRetries_shape {σ : Type}
    (fn : σ → TaskDb → (σ × TaskDb) × Except DbError (List Task)) (n : Nat) (st : σ)
    (db : TaskDb) :
    (UpdateWithRetries fn n st db).calls = (UpdateWithRetries fn n st db).attempts.length ∧
      (((UpdateWithRetries fn n st db).attempts
            = List.replicate n (.putError .concurrentUpdate) ∧
          (UpdateWithRetries fn n st db).result = .error .concurrentUpdate ∧
          (UpdateWithRetries fn n st db).db = (callbackOnly fn n st db).2) ∨
        ∃ k a, k < n ∧
          (UpdateWithRetries fn n st db).attempts
            = List.replicate k (.putError .concurrentUpdate) ++ [a] ∧
          a ≠ .putError .concurrentUpdate ∧
          ((∃ stored, a = .putOk ∧ (UpdateWithRetries fn n st db).result = .ok stored) ∨
            (∃ e, (a = .callbackError e ∨ a = .putError e) ∧
              (UpdateWithRetries fn n st db).result = .error e ∧
              (UpdateWithRetries fn n st db).db = (callbackOnly fn (k + 1) st db).2))) := by
  induction n generalizing st db with
  | zero =>
    refine ⟨rfl, Or.inl ⟨rfl, rfl, rfl⟩⟩
  | succ n ih =>
    cases hfn : (fn st db).2 with
    | error e =>
      have hr : UpdateWithRetries fn (n + 1) st db =
          ⟨(fn st db).1.1, (fn st db).1.2, 1, [.callbackError e], .error e⟩ := by
        rw [UpdateWithRetries]
        simp only [hfn]
      rw [hr]
      refine ⟨rfl, Or.inr ⟨0, .callbackError e, Nat.succ_pos n, rfl, by simp, Or.inr
        ⟨e, Or.inl rfl, rfl, rfl⟩⟩⟩
    | ok tasks =>
      cases hput : ((fn st db).1.2.PutTasks tasks).2 with
      | ok stored =>
        have hr : UpdateWithRetries fn (n + 1) st db =
            ⟨(fn st db).1.1, ((fn st db).1.2.PutTasks tasks).1, 1, [.putOk],
              .ok stored⟩ := by
          rw [UpdateWithRetries]
          simp only [hfn, hput]
        rw [hr]
        refine ⟨rfl, Or.inr ⟨0, .putOk, Nat.succ_pos n, rfl, by simp, Or.inl
          ⟨stored, rfl, rfl⟩⟩⟩
      | error e =>
        have hdb : ((fn st db).1.2.PutTasks tasks).1 = (fn st db).1.2 :=
          TaskDb.PutTasks_error_unchanged _ _ e hput
        by_cases he : e = .concurrentUpdate
        · subst he
          have hr : UpdateWithRetries fn (n + 1) st db =
              { UpdateWithRetries fn n (fn st db).1.1 (fn st db).1.2 with
                calls := (UpdateWithRetries fn n (fn st db).1.1 (fn st db).1.2).calls + 1
                attempts := .putError .concurrentUpdate ::
                  (UpdateWithRetries fn n (fn st db).1.1 (fn st db).1.2).attempts } := by
            rw [UpdateWithRetries]
            simp only [hfn, hput, hdb, if_true]
          rw [hr]
          obtain ⟨ih1, ih2⟩ := ih (fn st db).1.1 (fn st db).1.2
          refine ⟨by simp [ih1], ?_⟩
          rcases ih2 with ⟨a1, a2, a3⟩ | ⟨k, a, hk, a1, a2, a3⟩
          · left
            refine ⟨?_, a2, ?_⟩
            · simp only [a1, List.replicate_succ]
            · simp only [a3, callbackOnly]
          · right
            refine ⟨k + 1, a, Nat.succ_lt_succ hk, ?_, a2, ?_⟩
            · simp only [a1, List.replicate_succ, List.cons_append]
            · rcases a3 with ⟨stored, b1, b2⟩ | ⟨e, b1, b2, b3⟩
              · exact Or.inl ⟨stored, b1, b2⟩
              · refine Or.inr ⟨e, b1, b2, ?_⟩
                simp only [b3, callbackOnly]
        · have hr : UpdateWithRetries fn (n + 1) st db =
              ⟨(fn st db).1.1, (fn st db).1.2, 1, [.putError e], .error e⟩ := by
            rw [UpdateWithRetries]
            simp only [hfn, hput, he, if_false, hdb]
          rw [hr]
          refine ⟨rfl, Or.inr ⟨0, .putError e, Nat.succ_pos n, rfl, ?_, Or.inr
            ⟨e, Or.inr rfl, rfl, rfl⟩⟩⟩
          simpa using he

theorem replicate_append_singleton_inj {α : Type} (x a b : α) (k j : Nat)
    (h : List.replicate k x ++ [a] = List.replicate j x ++ [b]) : k = j ∧ a = b := by
  have hlen := congrArg List.length h
  simp only [List.length_append, List.length_replicate, List.length_singleton] at hlen
  have hk : k = j := by omega
  subst hk
  have := List.append_cancel_left h
  exact ⟨rfl, by simpa using this⟩

/-- C19, counterexample: the first round ends in a `ConcurrentUpdate` of
`PutTasks` and the callback fails in the second; the helper returns the error
of the callback, and the callback has been called twice, not once. -/
theorem UpdateWithRetries_fails_in_second_round :
    (UpdateWithRetries staleThenFailingCallback 5 0 storeDb2).attempts
      = [.putError .concurrentUpdate, .callbackError (.other "NO! Bad dog!")] ∧
    (UpdateWithRetries staleThenFailingCallback 5 0 storeDb2).result
      = .error (.other "NO! Bad dog!") ∧
    (UpdateWithRetries staleThenFailingCallback 5 0 storeDb2).calls = 2 ∧
    (UpdateWithRetries staleThenFailingCallback 5 0 storeDb2).calls ≠ 1 ∧
    (UpdateWithRetries staleThenFailingCallback 5 0 storeDb2).db = storeDb2 :=
  ⟨by decide, by rfl, by decide, by decide, by rfl⟩

/-- C19, amended: the retry bound.  `UpdateTaskWithRetries` is
`UpdateWithRetries` on the callback that reads the task and hands it on, so
what follows holds for both, for every callback and every bound `n`.  When
every round ends in a `ConcurrentUpdate` of `PutTasks`, the callback is called
exactly `n` times, the helper returns `ConcurrentUpdate` and no tasks, and the
store is as the callback left it, the helper having written nothing.  A round
in which the callback fails, or `PutTasks` fails with another error, is the
last one: the helper returns that error and has written nothing, and the
callback has been called once in that round and once in each of the `k`
rounds before it, which ended in `ConcurrentUpdate`: `k + 1` times, and
exactly once when this is the first round. -/
theorem UpdateWithRetries_bound {σ : Type}
    (fn : σ → TaskDb → (σ × TaskDb) × Except DbError (List Task)) (n : Nat) (st : σ)
    (db : TaskDb) :
    (∀ (id : String) (f : σ → TaskDb → Task → (σ × TaskDb) × Except DbError Task),
      UpdateTaskWithRetries n id f st db
        = UpdateWithRetries (updateTaskCallback id f) n st db) ∧
    ((∀ a ∈ (UpdateWithRetries fn n st db).attempts, a = .putError .concurrentUpdate) →
      (UpdateWithRetries fn n st db).calls = n ∧
      (UpdateWithRetries fn n st db).result = .error .concurrentUpdate ∧
      (UpdateWithRetries fn n st db).db = (callbackOnly fn n st db).2) ∧
    (∀ k e a, (a = .callbackError e ∨ (a = .putError e ∧ e ≠ .concurrentUpdate)) →
      (UpdateWithRetries fn n st db).attempts
        = List.replicate k (.putError .concurrentUpdate) ++ [a] →
      (UpdateWithRetries fn n st db).calls = k + 1 ∧
      (UpdateWithRetries fn n st db).result = .error e ∧
      (UpdateWithRetries fn n st db).db = (callbackOnly fn (k + 1) st db).2) ∧
    (∀ e, 0 < n → (fn st db).2 = .error e →
      (UpdateWithRetries fn n st db).calls = 1 ∧
      (UpdateWithRetries fn n st db).result = .error e ∧
      (UpdateWithRetries fn n st db).db = (fn st db).1.2) ∧
    (∀ tasks e, 0 < n → (fn st db).2 = .ok tasks →
      ((fn st db).1.2.PutTasks tasks).2 = .error e → e ≠ .concurrentUpdate →
      (UpdateWithRetries fn n st db).calls = 1 ∧
      (UpdateWithRetries fn n st db).result = .error e ∧
      (UpdateWithRetries fn n st db).db = (fn st db).1.2) := by
  obtain ⟨hcalls, hshape⟩ := UpdateWithRetries_shape fn n st db
  refine ⟨fun _ _ => rfl, ?_, ?_, ?_, ?_⟩
  · intro hall
    rcases hshape with ⟨a1, a2, a3⟩ | ⟨k, a, _, a1, a2, _⟩
    · refine ⟨?_, a2, a3⟩
      rw [hcalls, a1, List.length_replicate]
    · exfalso
      apply a2
      apply hall
      rw [a1]
      simp
  · intro k e a ha hatt
    have hne : a ≠ .putError .concurrentUpdate := by
      rcases ha with rfl | ⟨rfl, he⟩
      · simp
      · simpa using he
    rcases hshape with ⟨a1, _, _⟩ | ⟨j, b, _, a1, _, a3⟩
    · exfalso
      apply hne
      have hmem : a ∈ (UpdateWithRetries fn n st db).attempts := by
        rw [hatt]
        simp
      rw [a1] at hmem
      exact List.eq_of_mem_replicate hmem
    · rw [hatt] at a1
      obtain ⟨rfl, rfl⟩ := replicate_append_singleton_inj _ _ _ _ _ a1
      refine ⟨?_, ?_⟩
      · rw [hcalls, hatt]
        simp
      · rcases a3 with ⟨stored, b1, _⟩ | ⟨e', b1, b2, b3⟩
        · rcases ha with rfl | ⟨rfl, _⟩ <;> cases b1
        · have he : e' = e := by
            rcases ha with rfl | ⟨rfl, _⟩
            · rcases b1 with b1 | b1
              · cases b1
                rfl
              · cases b1
            · rcases b1 with b1 | b1
              · cases b1
              · cases b1
                rfl
          subst he
          exact ⟨b2, b3⟩
  · intro e hn hfn
    obtain ⟨m, rfl⟩ := Nat.exists_eq_succ_of_ne_zero (Nat.pos_iff_ne_zero.1 hn)
    have hr : UpdateWithRetries fn (m + 1) st db =
        ⟨(fn st db).1.1, (fn st db).1.2, 1, [.callbackError e], .error e⟩ := by
      rw [UpdateWithRetries]
      simp only [hfn]
    rw [hr]
    exact ⟨rfl, rfl, rfl⟩
  · intro tasks e hn hfn hput he
    obtain ⟨m, rfl⟩ := Nat.exists_eq_succ_of_ne_zero (Nat.pos_iff_ne_zero.1 hn)
    have hdb : ((fn st db).1.2.PutTasks tasks).1 = (fn st db).1.2 :=
      TaskDb.PutTasks_error_unchanged _ _ e hput
    have hr : UpdateWithRetries fn (m + 1) st db =
        ⟨(fn st db).1.1, (fn st db).1.2, 1, [.putError e], .error e⟩ := by
      rw [UpdateWithRetries]
      simp only [hfn, hput, he, if_false, hdb]
    rw [hr]
    exact ⟨rfl, rfl, rfl⟩

/-- The witness of C19 as amended: with five rounds, a callback that returns
a stale task is called five times, a callback that fails is called once, and
a callback that fails in the second round is called twice. -/
theorem UpdateWithRetries_bound_witness :
    ((∀ a ∈ (UpdateWithRetries staleCallback 5 0 storeDb2).attempts,
        a = .putError .concurrentUpdate) ∧
      (UpdateWithRetries staleCallback 5 0 storeDb2).calls = 5 ∧
      (UpdateWithRetries staleCallback 5 0 storeDb2).result = .error .concurrentUpdate ∧
      (UpdateWithRetries staleCallback 5 0 storeDb2).db
        = (callbackOnly staleCallback 5 0 storeDb2).2) ∧
    (0 < 5 ∧ (failingCallback 0 storeDb2).2 = .error (.other "NO! Bad dog!") ∧
      (UpdateWithRetries failingCallback 5 0 storeDb2).calls = 1 ∧
      (UpdateWithRetries failingCallback 5 0 storeDb2).result
        = .error (.other "NO! Bad dog!") ∧
      (UpdateWithRetries failingCallback 5 0 storeDb2).db
        = (failingCallback 0 storeDb2).1.2) ∧
    ((UpdateWithRetries staleThenFailingCallback 5 0 storeDb2).attempts
        = List.replicate 1 (.putError .concurrentUpdate)
          ++ [.callbackError (.other "NO! Bad dog!")] ∧
      (UpdateWithRetries staleThenFailingCallback 5 0 storeDb2).calls = 1 + 1 ∧
      (UpdateWithRetries staleThenFailingCallback 5 0 storeDb2).result
        = .error (.other "NO! Bad dog!") ∧
      (UpdateWithRetries staleThenFailingCallback 5 0 storeDb2).db
        = (callbackOnly staleThenFailingCallback (1 + 1) 0 storeDb2).2) :=
  ⟨⟨by decide, (UpdateWithRetries_bound staleCallback 5 0 storeDb2).2.1 (by decide)⟩,
    ⟨by decide, rfl,
      (UpdateWithRetries_bound failingCallback 5 0 storeDb2).2.2.2.1 _ (by decide) rfl⟩,
    ⟨by decide,
      (UpdateWithRetries_bound staleThenFailingCallback 5 0 storeDb2).2.2.1 1
        (.other "NO! Bad dog!") (.callbackError (.other "NO! Bad dog!")) (Or.inl rfl)
        (by decide)⟩⟩

/-! ### The comment store -/

/-- Where no two stored comments have the same identity, two stored comments
with the same identity are one comment. -/
theorem stored_unique {α κ : Type} (key : α → κ) (stored : List α)
    (hinv : stored.Pairwise (fun a b => key a ≠ key b)) (x y : α) (hx : x ∈ stored)
    (hy : y ∈ stored) (hk : key x = key y) : x = y := by
  by_contra hne
  have hsymm : Symmetric (fun a b : α => key a ≠ key b) := fun _ _ h h' => h h'.symm
  exact List.Pairwise.forall hsymm hinv hx hy hne hk

theorem filter_key_eq {α κ : Type} [DecidableEq κ] (key : α → κ) (stored : List α)
    (hinv : stored.Pairwise (fun a b => key a ≠ key b)) (c : α) (hc : c ∈ stored) :
    stored.filter (fun x => key x = key c) = [c] := by
  induction stored with
  | nil => cases hc
  | cons x xs ih =>
    rw [List.pairwise_cons] at hinv
    by_cases hxc : key x = key c
    · have hx : x = c :=
        stored_unique key (x :: xs) (List.pairwise_cons.2 hinv) x c
          (List.mem_cons_self _ _) hc hxc
      subst hx
      rw [List.filter_cons_of_pos (by simp)]
      congr 1
      rw [List.filter_eq_nil_iff]
      intro y hy
      simpa using fun h => hinv.1 y hy h.symm
    · have hmem : c ∈ xs := by
        rcases List.mem_cons.1 hc with rfl | h
        · exact absurd rfl hxc
        · exact h
      rw [List.filter_cons_of_neg (by simpa using hxc)]
      exact ih hinv.2 hmem

/-- Put of a comment that is stored: it succeeds and nothing changes. -/
theorem putComment_stored {α κ : Type} [DecidableEq α] [DecidableEq κ] (key : α → κ)
    (timestamp : α → Time) (stored : List α)
    (hinv : stored.Pairwise (fun a b => key a ≠ key b)) (c : α) (hc : c ∈ stored) :
    putComment key timestamp c stored = (stored, none) := by
  unfold putComment
  cases hf : stored.find? (fun x => key x = key c) with
  | none =>
    rw [List.find?_eq_none] at hf
    exact absurd (by simp) (hf c hc)
  | some old =>
    have hold : old ∈ stored := List.mem_of_find?_eq_some hf
    have hkey : key old = key c := by simpa using List.find?_some hf
    have : old = c := stored_unique key stored hinv old c hold hc hkey
    simp [this]

/-- Put of a comment with the identity of a stored comment and another
content: it fails with `AlreadyExists` and nothing changes. -/
theorem putComment_conflict {α κ : Type} [DecidableEq α] [DecidableEq κ] (key : α → κ)
    (timestamp : α → Time) (stored : List α)
    (hinv : stored.Pairwise (fun a b => key a ≠ key b)) (c0 : α) (hc0 : c0 ∈ stored)
    (c : α) (hk : key c = key c0) (hne : c ≠ c0) :
    putComment key timestamp c stored = (stored, some .alreadyExists) := by
  unfold putComment
  cases hf : stored.find? (fun x => key x = key c) with
  | none =>
    rw [List.find?_eq_none] at hf
    exact absurd (by simpa using hk.symm) (hf c0 hc0)
  | some old =>
    have hold : old ∈ stored := List.mem_of_find?_eq_some hf
    have hkey : key old = key c := by simpa using List.find?_some hf
    have h0 : old = c0 := stored_unique key stored hinv old c0 hold hc0 (hkey.trans hk)
    subst h0
    have : ¬ old = c := fun h => hne h.symm
    simp [this]

/-- Put keeps the stored comments free of two comments with one identity. -/
theorem putComment_inv {α κ : Type} [DecidableEq α] [DecidableEq κ] (key : α → κ)
    (timestamp : α → Time) (stored : List α)
    (hinv : stored.Pairwise (fun a b => key a ≠ key b)) (c : α) :
    (putComment key timestamp c stored).1.Pairwise (fun a b => key a ≠ key b) := by
  unfold putComment
  cases hf : stored.find? (fun x => key x = key c) with
  | some old =>
    simp only
    split <;> exact hinv
  | none =>
    rw [List.find?_eq_none] at hf
    simp only
    have hsymm : Symmetric (fun a b : α => key a ≠ key b) := fun _ _ h h' => h h'.symm
    rw [List.Perm.pairwise_iff (fun h => hsymm h) (List.perm_orderedInsert _ c stored),
      List.pairwise_cons]
    refine ⟨?_, hinv⟩
    intro x hx hcx
    exact hf x hx (by simpa using hcx.symm)

/-- Delete keeps the stored comments free of two comments with one
identity. -/
theorem deleteComment_inv {α κ : Type} [DecidableEq κ] (key : α → κ) (stored : List α)
    (hinv : stored.Pairwise (fun a b => key a ≠ key b)) (c : α) :
    (deleteComment key c stored).Pairwise (fun a b => key a ≠ key b) :=
  List.Pairwise.filter _ hinv

theorem CommentBox.foldl_inv (cs : List CommentCall) (b : CommentBox)
    (h1 : b.TaskComments.Pairwise (fun x y => x.key ≠ y.key))
    (h2 : b.TaskSpecComments.Pairwise (fun x y => x.key ≠ y.key))
    (h3 : b.CommitComments.Pairwise (fun x y => x.key ≠ y.key)) :
    (cs.foldl (fun b c => (b.call c).1) b).TaskComments.Pairwise
        (fun x y => x.key ≠ y.key) ∧
      (cs.foldl (fun b c => (b.call c).1) b).TaskSpecComments.Pairwise
        (fun x y => x.key ≠ y.key) ∧
      (cs.foldl (fun b c => (b.call c).1) b).CommitComments.Pairwise
        (fun x y => x.key ≠ y.key) := by
  induction cs generalizing b with
  | nil => exact ⟨h1, h2, h3⟩
  | cons c cs ih =>
    rw [List.foldl_cons]
    cases c with
    | putTaskComment c =>
      exact ih _ (putComment_inv _ _ _ h1 c) h2 h3
    | putTaskSpecComment c =>
      exact ih _ h1 (putComment_inv _ _ _ h2 c) h3
    | putCommitComment c =>
      exact ih _ h1 h2 (putComment_inv _ _ _ h3 c)
    | deleteTaskComment c =>
      exact ih _ (deleteComment_inv _ _ h1 c) h2 h3
    | deleteTaskSpecComment c =>
      exact ih _ h1 (deleteComment_inv _ _ h2 c) h3
    | deleteCommitComment c =>
      exact ih _ h1 h2 (deleteComment_inv _ _ h3 c)

/-- After every sequence of calls on the empty store, no two stored comments
of a kind have the same identity. -/
theorem CommentBox.after_inv (cs : List CommentCall) :
    (CommentBox.after cs).TaskComments.Pairwise (fun x y => x.key ≠ y.key) ∧
      (CommentBox.after cs).TaskSpecComments.Pairwise (fun x y => x.key ≠ y.key) ∧
      (CommentBox.after cs).CommitComments.Pairwise (fun x y => x.key ≠ y.key) :=
  CommentBox.foldl_inv cs {} List.Pairwise.nil List.Pairwise.nil List.Pairwise.nil

/-- C20: Put of a comment is idempotent and detects conflicts, for each of the
three kinds, on the store reached by any sequence of Puts and Deletes.  Put
of a comment equal to a stored one succeeds, leaves the store as it was, and
the store holds exactly one comment of that identity; Put of a comment with
the identity of a stored one and another content fails with `AlreadyExists`
and leaves the store as it was. -/
theorem CommentBox_put_idempotent (cs : List CommentCall) :
    (∀ c ∈ (CommentBox.after cs).TaskComments,
      (CommentBox.after cs).PutTaskComment c = (CommentBox.after cs, none) ∧
      (CommentBox.after cs).TaskComments.filter (fun x => x.key = c.key) = [c]) ∧
    (∀ c0 ∈ (CommentBox.after cs).TaskComments, ∀ c, c.key = c0.key → c ≠ c0 →
      (CommentBox.after cs).PutTaskComment c
        = (CommentBox.after cs, some .alreadyExists)) ∧
    (∀ c ∈ (CommentBox.after cs).TaskSpecComments,
      (CommentBox.after cs).PutTaskSpecComment c = (CommentBox.after cs, none) ∧
      (CommentBox.after cs).TaskSpecComments.filter (fun x => x.key = c.key) = [c]) ∧
    (∀ c0 ∈ (CommentBox.after cs).TaskSpecComments, ∀ c, c.key = c0.key → c ≠ c0 →
      (CommentBox.after cs).PutTaskSpecComment c
        = (CommentBox.after cs, some .alreadyExists)) ∧
    (∀ c ∈ (CommentBox.after cs).CommitComments,
      (CommentBox.after cs).PutCommitComment c = (CommentBox.after cs, none) ∧
      (CommentBox.after cs).CommitComments.filter (fun x => x.key = c.key) = [c]) ∧
    (∀ c0 ∈ (CommentBox.after cs).CommitComments, ∀ c, c.key = c0.key → c ≠ c0 →
      (CommentBox.after cs).PutCommitComment c
        = (CommentBox.after cs, some .alreadyExists)) := by
  obtain ⟨h1, h2, h3⟩ := CommentBox.after_inv cs
  refine ⟨?_, ?_, ?_, ?_, ?_, ?_⟩
  · intro c hc
    refine ⟨?_, filter_key_eq _ _ h1 c hc⟩
    simp only [CommentBox.PutTaskComment, putComment_stored _ _ _ h1 c hc]
  · intro c0 hc0 c hk hne
    simp only [CommentBox.PutTaskComment, putComment_conflict _ _ _ h1 c0 hc0 c hk hne]
  · intro c hc
    refine ⟨?_, filter_key_eq _ _ h2 c hc⟩
    simp only [CommentBox.PutTaskSpecComment, putComment_stored _ _ _ h2 c hc]
  · intro c0 hc0 c hk hne
    simp only [CommentBox.PutTaskSpecComment,
      putComment_conflict _ _ _ h2 c0 hc0 c hk hne]
  · intro c hc
    refine ⟨?_, filter_key_eq _ _ h3 c hc⟩
    simp only [CommentBox.PutCommitComment, putComment_stored _ _ _ h3 c hc]
  · intro c0 hc0 c hk hne
    simp only [CommentBox.PutCommitComment, putComment_conflict _ _ _ h3 c0 hc0 c hk hne]

/-- The witness of C20: the comment `tc1` of `TestCommentDB` is put twice, and
then once more with another message. -/
theorem CommentBox_put_idempotent_witness :
    taskComment1 ∈ (CommentBox.after [.putTaskComment taskComment1]).TaskComments ∧
    ((CommentBox.after [.putTaskComment taskComment1]).PutTaskComment taskComment1
        = (CommentBox.after [.putTaskComment taskComment1], none) ∧
      (CommentBox.after [.putTaskComment taskComment1]).TaskComments.filter
        (fun x => x.key = taskComment1.key) = [taskComment1]) ∧
    (({ taskComment1 with Message := "not the same" } : TaskComment).key
        = taskComment1.key ∧
      ({ taskComment1 with Message := "not the same" } : TaskComment) ≠ taskComment1 ∧
      (CommentBox.after [.putTaskComment taskComment1]).PutTaskComment
          { taskComment1 with Message := "not the same" }
        = (CommentBox.after [.putTaskComment taskComment1], some .alreadyExists)) :=
  ⟨by decide,
    (CommentBox_put_idempotent [.putTaskComment taskComment1]).1 taskComment1 (by decide),
    by decide, by decide,
    (CommentBox_put_idempotent [.putTaskComment taskComment1]).2.1 taskComment1 (by decide)
      { taskComment1 with Message := "not the same" } (by decide) (by decide)⟩

/-! ### Copy, order and failure of tasks -/

/-- C23: `Task.Copy` returns a task equal to the original field by field, a nil
slice staying nil and an empty one staying empty, so `UpdateFromSwarming`
never reaches `glog.Fatalf`. -/
theorem Task_Copy_deep_equal (t : Task) :
    t.Copy = t ∧
      (({ t with Commits := none, ParentTaskIds := some [] } : Task).Copy.Commits = none ∧
        ({ t with Commits := none, ParentTaskIds := some [] } : Task).Copy.ParentTaskIds
          = some []) ∧
      ∀ (h : Helpers) (s : Option SwarmingRpcsTaskResult),
        UpdateFromSwarming h t s ≠ .fatal := by
  refine ⟨Task.Copy_eq t, ⟨by rw [Task.Copy_eq], by rw [Task.Copy_eq]⟩, ?_⟩
  intro h s
  cases s with
  | none => simp [UpdateFromSwarming]
  | some s =>
    rcases UpdateFromSwarming_cases h t s with ⟨t', m, hok⟩ | ⟨e, herr⟩
    · rw [hok]
      simp
    · rw [herr]
      simp

/-- C24: `TaskSlice.Less` orders tasks by `Created` only.  `Less(i, j)` holds
exactly when `s[i].Created` is before `s[j].Created`; it is irreflexive and
transitive, and of two tasks with equal `Created` neither is less than the
other. -/
theorem TaskSlice_Less_order (s : List Task) :
    (∀ i j a b, s.get? i = some a → s.get? j = some b →
      TaskSlice.Less s i j = some (decide (a.Created.nanos < b.Created.nanos))) ∧
    (∀ i, i < s.length → TaskSlice.Less s i i = some false) ∧
    (∀ i j k, TaskSlice.Less s i j = some true → TaskSlice.Less s j k = some true →
      TaskSlice.Less s i k = some true) ∧
    (∀ i j a b, s.get? i = some a → s.get? j = some b → a.Created = b.Created →
      TaskSlice.Less s i j = some false ∧ TaskSlice.Less s j i = some false) := by
  have key : ∀ i j a b, s.get? i = some a → s.get? j = some b →
      TaskSlice.Less s i j = some (decide (a.Created.nanos < b.Created.nanos)) := by
    intro i j a b ha hb
    unfold TaskSlice.Less
    rw [ha, hb]
    rfl
  refine ⟨key, ?_, ?_, ?_⟩
  · intro i hi
    obtain ⟨a, ha⟩ : ∃ a, s.get? i = some a := ⟨s.get ⟨i, hi⟩, List.get?_eq_get hi⟩
    rw [key i i a a ha ha]
    simp
  · intro i j k hij hjk
    cases hi : s.get? i with
    | none =>
      unfold TaskSlice.Less at hij
      rw [hi] at hij
      cases hij
    | some a =>
      cases hj : s.get? j with
      | none =>
        unfold TaskSlice.Less at hij
        rw [hi, hj] at hij
        cases hij
      | some b =>
        cases hk : s.get? k with
        | none =>
          unfold TaskSlice.Less at hjk
          rw [hj, hk] at hjk
          cases hjk
        | some c =>
          rw [key i j a b hi hj] at hij
          rw [key j k b c hj hk] at hjk
          rw [key i k a c hi hk]
          simp only [Option.some.injEq, decide_eq_true_eq] at hij hjk ⊢
          omega
  · intro i j a b ha hb hab
    rw [key i j a b ha hb, key j i b a hb ha, hab]
    simp

/-- The witness of C24: two tasks created one second apart. -/
theorem TaskSlice_Less_order_witness :
    [storeTask, otherTask].get? 0 = some storeTask ∧
      [storeTask, otherTask].get? 1 = some otherTask ∧
      TaskSlice.Less [storeTask, otherTask] 0 1
        = some (decide (storeTask.Created.nanos < otherTask.Created.nanos)) :=
  ⟨rfl, rfl, (TaskSlice_Less_order [storeTask, otherTask]).1 0 1 storeTask otherTask rfl rfl⟩

/-- C25: `UpdateFromSwarming` is atomic on failure.  Whenever a call returns an
error, for a nil report as for any other, the boolean is false and the task
is as it was before the call. -/
theorem UpdateFromSwarming_atomic_on_failure (h : Helpers) (t t' : Task)
    (s : Option SwarmingRpcsTaskResult) (m : Bool) (e : UpdateError)
    (herr : UpdateFromSwarming h t s = .returned t' m (some e)) :
    m = false ∧ t' = t := by
  cases s with
  | none =>
    simp only [UpdateFromSwarming, Outcome.returned.injEq] at herr
    exact ⟨herr.2.1.symm, herr.1.symm⟩
  | some s =>
    rcases UpdateFromSwarming_cases h t s with ⟨t1, m1, hok⟩ | ⟨e1, he1⟩
    · rw [hok] at herr
      simp at herr
    · rw [he1] at herr
      simp only [Outcome.returned.injEq] at herr
      exact ⟨herr.2.1.symm, herr.1.symm⟩

/-- The witness of C25: a nil report. -/
theorem UpdateFromSwarming_atomic_on_failure_witness :
    UpdateFromSwarming exampleHelpers completedTask none
        = .returned completedTask false (some .missingTaskResult) ∧
      (false = false ∧ completedTask = completedTask) :=
  ⟨rfl, UpdateFromSwarming_atomic_on_failure exampleHelpers completedTask completedTask none
    false .missingTaskResult rfl⟩

/-- C27: the encoder keeps its two queues in step.  After every sequence of
calls of `Process` and `Next` on the zero value no call has panicked, and the
pending tasks and the pending byte slices are equally many. -/
theorem TaskEncoder_queues_in_step (gobEncode : Task → Except String Bytes)
    (cs : List EncoderCall) :
    ∃ e rs, TaskEncoder.calls gobEncode {} cs = some (e, rs) ∧
      e.tasks.length = e.result.length := by
  have key : ∀ (cs : List EncoderCall) (e : TaskEncoder),
      e.tasks.length = e.result.length →
      ∃ e' rs, TaskEncoder.calls gobEncode e cs = some (e', rs) ∧
        e'.tasks.length = e'.result.length := by
    intro cs
    induction cs with
    | nil =>
      intro e he
      exact ⟨e, [], rfl, he⟩
    | cons c cs ih =>
      intro e he
      rw [TaskEncoder.calls_cons]
      cases c with
      | process t =>
        have hstep : (e.Process gobEncode t).1.tasks.length
            = (e.Process gobEncode t).1.result.length := by
          unfold TaskEncoder.Process
          split
          · exact he
          · split
            · rfl
            · simp [he]
        obtain ⟨e', rs, h1, h2⟩ := ih _ hstep
        refine ⟨e', .processed (e.Process gobEncode t).2 :: rs, ?_, h2⟩
        simp only [TaskEncoder.call, h1]
      | next =>
        obtain ⟨err, tasks, result⟩ := e
        cases err with
        | some x =>
          obtain ⟨e', rs, h1, h2⟩ := ih ⟨some x, tasks, result⟩ he
          refine ⟨e', .next ⟨none, none, some x⟩ :: rs, ?_, h2⟩
          simp only [TaskEncoder.call, TaskEncoder.Next, Option.map_some', h1]
        | none =>
          cases tasks with
          | nil =>
            obtain ⟨e', rs, h1, h2⟩ := ih ⟨none, [], result⟩ he
            refine ⟨e', .next ⟨none, none, none⟩ :: rs, ?_, h2⟩
            simp only [TaskEncoder.call, TaskEncoder.Next, Option.map_some', h1]
          | cons t ts =>
            cases result with
            | nil => simp at he
            | cons b bs =>
              have he' : ts.length = bs.length := by simpa using he
              obtain ⟨e', rs, h1, h2⟩ := ih ⟨none, ts, bs⟩ he'
              refine ⟨e', .next ⟨some t, some b, none⟩ :: rs, ?_, h2⟩
              simp only [TaskEncoder.call, TaskEncoder.Next, Option.map_some', h1]
  exact key cs {} rfl

theorem finishedStep_abandoned_ignored (h : Helpers) (s : SwarmingRpcsTaskResult)
    (a : String) (status : TaskStatus) (finished : Time)
    (hne : status ≠ TASK_STATUS_MISHAP) :
    finishedStep h { s with AbandonedTs := a } status finished
      = finishedStep h s status finished := by
  simp [finishedStep, hne]

/-- C26: on a successful call whose resulting status is `MISHAP`, with the
report's `CompletedTs` empty and its `AbandonedTs` not, `Finished` is the
parsed `AbandonedTs`; for every other resulting status `AbandonedTs` is not
read: the call does the same whatever `AbandonedTs` holds, parseable or not,
`swarming.TagValues` being taken not to depend on that field. -/
theorem UpdateFromSwarming_abandoned (h : Helpers) (t t' : Task)
    (s : SwarmingRpcsTaskResult) (m : Bool)
    (hok : UpdateFromSwarming h t (some s) = .returned t' m none) :
    (t'.Status = TASK_STATUS_MISHAP → s.CompletedTs = "" → s.AbandonedTs ≠ "" →
        h.ParseTimestamp s.AbandonedTs = .ok t'.Finished) ∧
      (t'.Status ≠ TASK_STATUS_MISHAP → ∀ a : String,
        h.TagValues { s with AbandonedTs := a } = h.TagValues s →
        UpdateFromSwarming h t (some { s with AbandonedTs := a })
          = .returned t' m none) := by
  obtain ⟨tags, hT, hM, hm⟩ := (UpdateFromSwarming_ok_iff h t t' s m).1 hok
  obtain ⟨id, name, repo, retryOf, revision, created, swarmingTaskId, status, started,
    finished, h1, h2, h3, h4, h5, h6, h7, h8, h9, h10, rfl⟩ :=
    (mergeFromSwarming_ok_iff h tags t t' s).1 hM
  constructor
  · intro hst hc ha
    have hst' : status = TASK_STATUS_MISHAP := hst
    exact (finishedStep_ok h10).2.1 hc hst' ha
  · intro hst a hTa
    have hst' : status ≠ TASK_STATUS_MISHAP := hst
    refine (UpdateFromSwarming_ok_iff h t _ { s with AbandonedTs := a } m).2
      ⟨tags, hTa.trans hT, ?_, hm⟩
    refine (mergeFromSwarming_ok_iff h tags t _ { s with AbandonedTs := a }).2
      ⟨id, name, repo, retryOf, revision, created, swarmingTaskId, status, started,
        finished, h1, h2, h3, h4, h5, h6, h7, h8, h9, ?_, rfl⟩
    rw [finishedStep_abandoned_ignored h s a status t.Finished hst']
    exact h10

/-- The witness of C26: a task that expired takes `Finished` from
`AbandonedTs`; for a completed task `AbandonedTs` may hold anything. -/
theorem UpdateFromSwarming_abandoned_witness :
    (UpdateFromSwarming exampleHelpers {} (some expiredReport)
        = .returned expiredTask true none ∧
      expiredTask.Status = TASK_STATUS_MISHAP ∧ expiredReport.CompletedTs = "" ∧
      expiredReport.AbandonedTs ≠ "" ∧
      exampleHelpers.ParseTimestamp expiredReport.AbandonedTs = .ok expiredTask.Finished) ∧
    (UpdateFromSwarming exampleHelpers {} (some completedReport)
        = .returned completedTask true none ∧
      completedTask.Status ≠ TASK_STATUS_MISHAP ∧
      exampleHelpers.TagValues { completedReport with AbandonedTs := "not a time" }
        = exampleHelpers.TagValues completedReport ∧
      UpdateFromSwarming exampleHelpers {}
          (some { completedReport with AbandonedTs := "not a time" })
        = .returned completedTask true none) :=
  ⟨⟨by decide, by decide, by decide, by decide,
      (UpdateFromSwarming_abandoned exampleHelpers {} expiredTask expiredReport true
        (by decide)).1 (by decide) (by decide) (by decide)⟩,
    by decide, by decide, by rfl,
    (UpdateFromSwarming_abandoned exampleHelpers {} completedTask completedReport true
      (by decide)).2 (by decide) "not a time" (by rfl)⟩

/-! ### The Skia version and the paths of digests -/

/-- C29: the code at the failing input.  The second listed object is named
`skia_version/` followed by a version that begins with `e`; the function
returns the version without its first character, since `strings.TrimLeft`
takes `skia_version/` for a set of characters. -/
theorem getSkiaVersionFromGCS_cuts_version :
    getSkiaVersionFromGCS "fuzzer"
        (some (listingOf
          ["skia_version/", "skia_version/e3b0c44298fc1c149afbf4c8996fb92427ae41e4"]))
      = .ok "3b0c44298fc1c149afbf4c8996fb92427ae41e4" ∧
    ("3b0c44298fc1c149afbf4c8996fb92427ae41e4" : String)
      ≠ "e3b0c44298fc1c149afbf4c8996fb92427ae41e4" := by
  exact ⟨by rfl, by decide⟩

/-- C28: the code at the failing input.  The digest `a` is given twice, so
one request is sent; after the one response has arrived the count is 1 and
not 2, and `AbsPath` waits for a response that will not come. -/
theorem AbsPath_waits_on_duplicates :
    AbsPath ["a", "a"] [⟨"a", some "/images/a.png"⟩] = (["a"], none) ∧
      ([⟨"a", some "/images/a.png"⟩] : List WorkerResp).map WorkerResp.id
        = (AbsPath ["a", "a"] [⟨"a", some "/images/a.png"⟩]).1 := by
  decide

/-- Where the version does not begin with one of the characters of
`skia_version/`, `getSkiaVersionFromGCS` returns it whole. -/
theorem getSkiaVersionFromGCS_version (bucket first : String) (rest : List String)
    (v : String) (hv : ∀ c, v.data.head? = some c → c ∉ "skia_version/".data) :
    getSkiaVersionFromGCS bucket
        (some (listingOf (first :: ("skia_version/" ++ v) :: rest))) = .ok v := by
  have hdrop : List.dropWhile (fun c => "skia_version/".data.contains c) v.data = v.data := by
    cases hd : v.data with
    | nil => rfl
    | cons c cs =>
      have hc : c ∉ "skia_version/".data := hv c (by simp [hd])
      rw [List.dropWhile_cons_of_neg]
      simpa using hc
  have htrim : stringsTrimLeft ("skia_version/" ++ v) "skia_version/" = v := by
    unfold stringsTrimLeft
    rw [String.data_append]
    have : List.dropWhile (fun c => "skia_version/".data.contains c)
        ("skia_version/".data ++ v.data) =
        List.dropWhile (fun c => "skia_version/".data.contains c) v.data := by
      rfl
    rw [this, hdrop]
  simp [getSkiaVersionFromGCS, listingOf, htrim]

theorem absPathRequests_foldl (l seen sent : List String) (hseen : ∀ x ∈ l, x ∉ seen)
    (hl : l.Nodup) :
    (l.foldl
      (fun (st : List String × List String) digest =>
        if st.1.contains digest then st else (digest :: st.1, st.2 ++ [digest]))
      (seen, sent)).2 = sent ++ l := by
  induction l generalizing seen sent with
  | nil => simp
  | cons x xs ih =>
    rw [List.nodup_cons] at hl
    have hx : x ∉ seen := hseen x (List.mem_cons_self _ _)
    have hc : seen.contains x = false := by simpa using hx
    simp only [List.foldl_cons, hc, Bool.false_eq_true, if_false]
    rw [ih]
    · simp
    · intro y hy
      simp only [List.mem_cons, not_or]
      refine ⟨?_, hseen y (List.mem_cons_of_mem _ hy)⟩
      rintro rfl
      exact hl.1 hy
    · exact hl.2

/-- The receiving loop returns once every response has arrived, when the
responses are for distinct digests and none of them is counted yet. -/
theorem absPathReceive_returns (n : Nat) (resps : List WorkerResp) (m : StringMap)
    (e : Nat) (hne : resps ≠ []) (hnd : (resps.map WorkerResp.id).Nodup)
    (hm : ∀ r ∈ resps, r.id ∉ m) (hn : m.entries.length + e + resps.length = n) :
    ∃ m', absPathReceive n m e resps = some m' := by
  induction resps generalizing m e with
  | nil => exact absurd rfl hne
  | cons r rs ih =>
    rw [List.map_cons, List.nodup_cons] at hnd
    have hr : r.id ∉ m := hm r (List.mem_cons_self _ _)
    rw [absPathReceive]
    cases hval : r.val with
    | some val =>
      simp only []
      have hlen : (m.insert r.id val).entries.length = m.entries.length + 1 := by
        rw [AList.insert_entries_of_neg hr]
        rfl
      split
      · exact ⟨_, rfl⟩
      · rename_i hcount
        apply ih
        · intro hnil
          apply hcount
          rw [hlen]
          rw [hnil] at hn
          simp only [List.length_cons, List.length_nil] at hn
          omega
        · exact hnd.2
        · intro r' hr'
          rw [AList.mem_insert]
          rintro (heq | hmem)
          · exact hnd.1 (heq ▸ List.mem_map_of_mem _ hr')
          · exact hm r' (List.mem_cons_of_mem _ hr') hmem
        · rw [hlen]
          simp only [List.length_cons] at hn
          omega
    | none =>
      simp only []
      split
      · exact ⟨_, rfl⟩
      · rename_i hcount
        apply ih
        · intro hnil
          apply hcount
          rw [hnil] at hn
          simp only [List.length_cons, List.length_nil] at hn
          omega
        · exact hnd.2
        · intro r' hr'
          exact hm r' (List.mem_cons_of_mem _ hr')
        · simp only [List.length_cons] at hn
          omega

/-- Where no digest is given twice, `AbsPath` sends one request for each
digest and returns once one response for each request has arrived. -/
theorem AbsPath_returns_of_nodup (digests : List String) (hne : digests ≠ [])
    (hnd : digests.Nodup) (responses : List WorkerResp)
    (hresp : (responses.map WorkerResp.id).Perm (AbsPath digests responses).1) :
    (AbsPath digests responses).1 = digests ∧
      ∃ m, (AbsPath digests responses).2 = some m := by
  have hlen : ¬ digests.length = 0 := by
    intro h
    exact hne (List.length_eq_zero.1 h)
  have hreq : absPathRequests digests = digests := by
    unfold absPathRequests
    rw [absPathRequests_foldl digests [] [] (fun _ _ => by simp) hnd]
    simp
  simp only [AbsPath, hlen, if_false, hreq] at hresp ⊢
  refine ⟨trivial, ?_⟩
  apply absPathReceive_returns
  · intro hnil
    rw [hnil] at hresp
    exact hne (List.Perm.nil_eq hresp).symm
  · exact hresp.nodup_iff.2 hnd
  · intro r _
    exact AList.not_mem_empty _
  · have := hresp.length_eq
    simp only [List.length_map] at this
    simp [this]

/-! ### The update of the store from a report -/

/-- C22: `UpdateDBFromSwarmingTask` skips the write for a report that changes
nothing.  When the task named by the tag `sk_id` is in the store and
`UpdateFromSwarming` on it returns `(false, nil)`, the function returns nil,
the one round of the helper ends in the callback with no call of `PutTasks`,
and the store is as it was.  An error of `UpdateFromSwarming`, and every
error of the helper other than `errNotModified`, is returned as it is. -/
theorem UpdateDBFromSwarmingTask_skips_noop (h : Helpers)
    (getTagValue : Option SwarmingRpcsTaskResult → String → Except String String)
    (n : Nat) (db : TaskDb) (s : SwarmingRpcsTaskResult) (id : String) (task : Task)
    (hn : 0 < n) (hid : getTagValue (some s) SWARMING_TAG_ID = .ok id)
    (hget : db.GetTaskById id = some task) :
    (∀ t', UpdateFromSwarming h task (some s) = .returned t' false none →
      UpdateDBFromSwarmingTask h getTagValue n db (some s) = (db, none) ∧
      (updateDBRun h n db (some s) id).attempts = [.callbackError .notModified] ∧
      (updateDBRun h n db (some s) id).calls = 1) ∧
    (∀ t' m e, UpdateFromSwarming h task (some s) = .returned t' m (some e) →
      UpdateDBFromSwarmingTask h getTagValue n db (some s) = (db, some (.update e))) ∧
    (∀ err, (updateDBRun h n db (some s) id).result = .error err → err ≠ .notModified →
      UpdateDBFromSwarmingTask h getTagValue n db (some s)
        = ((updateDBRun h n db (some s) id).db, some err)) := by
  obtain ⟨k, rfl⟩ := Nat.exists_eq_succ_of_ne_zero (Nat.pos_iff_ne_zero.1 hn)
  have hrun : ∀ e, (updateFromSwarmingCallback h (some s) () db task).2 = .error e →
      updateDBRun h (k + 1) db (some s) id = ⟨(), db, 1, [.callbackError e], .error e⟩ := by
    intro e he
    have hcb : (updateTaskCallback id (updateFromSwarmingCallback h (some s)) () db).2
        = .error e := by
      simp only [updateTaskCallback, hget, he, Except.map]
    have hst : (updateTaskCallback id (updateFromSwarmingCallback h (some s)) () db).1
        = ((), db) := by
      simp only [updateTaskCallback, hget, updateFromSwarmingCallback]
      split <;> try split
      all_goals rfl
    unfold updateDBRun UpdateTaskWithRetries
    rw [UpdateWithRetries]
    simp only [hcb, hst]
  refine ⟨?_, ?_, ?_⟩
  · intro t' hufs
    have he : (updateFromSwarmingCallback h (some s) () db task).2 = .error .notModified := by
      simp [updateFromSwarmingCallback, hufs]
    have hr := hrun _ he
    refine ⟨?_, by rw [hr], by rw [hr]⟩
    simp [UpdateDBFromSwarmingTask, hid, hr]
  · intro t' m e hufs
    have he : (updateFromSwarmingCallback h (some s) () db task).2 = .error (.update e) := by
      simp [updateFromSwarmingCallback, hufs]
    have hr := hrun _ he
    simp [UpdateDBFromSwarmingTask, hid, hr]
  · intro err herr hne
    simp [UpdateDBFromSwarmingTask, hid, herr, hne]

/-- The witness of C22: the store holds `completedTask` and the report of its
completion arrives again. -/
theorem UpdateDBFromSwarmingTask_skips_noop_witness :
    0 < 5 ∧ exampleGetTagValue (some completedReport) SWARMING_TAG_ID = .ok "task1" ∧
    completedDb.GetTaskById "task1" = some { completedTask with DbModified := storeTime 1 } ∧
    UpdateFromSwarming exampleHelpers { completedTask with DbModified := storeTime 1 }
        (some completedReport)
      = .returned { completedTask with DbModified := storeTime 1 } false none ∧
    (UpdateDBFromSwarmingTask exampleHelpers exampleGetTagValue 5 completedDb
        (some completedReport) = (completedDb, none) ∧
      (updateDBRun exampleHelpers 5 completedDb (some completedReport) "task1").attempts
        = [.callbackError .notModified] ∧
      (updateDBRun exampleHelpers 5 completedDb (some completedReport) "task1").calls = 1) :=
  ⟨by decide, by rfl, by rfl, by decide,
    (UpdateDBFromSwarmingTask_skips_noop exampleHelpers exampleGetTagValue 5 completedDb
      completedReport "task1" { completedTask with DbModified := storeTime 1 }
      (by decide) (by rfl) (by rfl)).1
      { completedTask with DbModified := storeTime 1 } (by decide)⟩

/-! ### The order of the comments that are read -/

theorem putComment_sorted {α κ : Type} [DecidableEq α] [DecidableEq κ] (key : α → κ)
    (timestamp : α → Time) (stored : List α)
    (hs : stored.Pairwise (fun a b => (timestamp a).nanos ≤ (timestamp b).nanos)) (c : α) :
    (putComment key timestamp c stored).1.Pairwise
      (fun a b => (timestamp a).nanos ≤ (timestamp b).nanos) := by
  unfold putComment
  cases hf : stored.find? (fun x => key x = key c) with
  | some old =>
    simp only
    split <;> exact hs
  | none =>
    simp only
    haveI : IsTotal α (fun a b => (timestamp b).Before (timestamp a) = false) :=
      ⟨fun a b => by simp only [Time.Before, decide_eq_false_iff_not]; omega⟩
    haveI : IsTrans α (fun a b => (timestamp b).Before (timestamp a) = false) :=
      ⟨fun a b c => by simp only [Time.Before, decide_eq_false_iff_not]; omega⟩
    have hs' : stored.Sorted (fun a b => (timestamp b).Before (timestamp a) = false) :=
      hs.imp (fun {a b} h => by simp only [Time.Before, decide_eq_false_iff_not]; omega)
    exact (List.Sorted.orderedInsert c stored hs').imp
      (fun {a b} h => by simp only [Time.Before, decide_eq_false_iff_not] at h; omega)

theorem deleteComment_sorted {α κ : Type} [DecidableEq κ] (key : α → κ)
    (timestamp : α → Time) (stored : List α)
    (hs : stored.Pairwise (fun a b => (timestamp a).nanos ≤ (timestamp b).nanos)) (c : α) :
    (deleteComment key c stored).Pairwise
      (fun a b => (timestamp a).nanos ≤ (timestamp b).nanos) :=
  List.Pairwise.filter _ hs

theorem CommentBox.foldl_sorted (cs : List CommentCall) (b : CommentBox)
    (h1 : b.TaskComments.Pairwise (fun x y => x.Timestamp.nanos ≤ y.Timestamp.nanos))
    (h2 : b.TaskSpecComments.Pairwise (fun x y => x.Timestamp.nanos ≤ y.Timestamp.nanos))
    (h3 : b.CommitComments.Pairwise (fun x y => x.Timestamp.nanos ≤ y.Timestamp.nanos)) :
    (cs.foldl (fun b c => (b.call c).1) b).TaskComments.Pairwise
        (fun x y => x.Timestamp.nanos ≤ y.Timestamp.nanos) ∧
      (cs.foldl (fun b c => (b.call c).1) b).TaskSpecComments.Pairwise
        (fun x y => x.Timestamp.nanos ≤ y.Timestamp.nanos) ∧
      (cs.foldl (fun b c => (b.call c).1) b).CommitComments.Pairwise
        (fun x y => x.Timestamp.nanos ≤ y.Timestamp.nanos) := by
  induction cs generalizing b with
  | nil => exact ⟨h1, h2, h3⟩
  | cons c cs ih =>
    rw [List.foldl_cons]
    cases c with
    | putTaskComment c =>
      exact ih _ (putComment_sorted TaskComment.key TaskComment.Timestamp _ h1 c) h2 h3
    | putTaskSpecComment c =>
      exact ih _ h1 (putComment_sorted TaskSpecComment.key TaskSpecComment.Timestamp _ h2 c) h3
    | putCommitComment c =>
      exact ih _ h1 h2 (putComment_sorted CommitComment.key CommitComment.Timestamp _ h3 c)
    | deleteTaskComment c =>
      exact ih _ (deleteComment_sorted TaskComment.key TaskComment.Timestamp _ h1 c) h2 h3
    | deleteTaskSpecComment c =>
      exact ih _ h1
        (deleteComment_sorted TaskSpecComment.key TaskSpecComment.Timestamp _ h2 c) h3
    | deleteCommitComment c =>
      exact ih _ h1 h2
        (deleteComment_sorted CommitComment.key CommitComment.Timestamp _ h3 c)

theorem CommentBox.after_sorted (cs : List CommentCall) :
    (CommentBox.after cs).TaskComments.Pairwise
        (fun x y => x.Timestamp.nanos ≤ y.Timestamp.nanos) ∧
      (CommentBox.after cs).TaskSpecComments.Pairwise
        (fun x y => x.Timestamp.nanos ≤ y.Timestamp.nanos) ∧
      (CommentBox.after cs).CommitComments.Pairwise
        (fun x y => x.Timestamp.nanos ≤ y.Timestamp.nanos) :=
  CommentBox.foldl_sorted cs {} List.Pairwise.nil List.Pairwise.nil List.Pairwise.nil

/-- Every group of `groupComments` is the part of the stored list with the
field of the group, so it keeps a pairwise relation of the stored list and
is not empty. -/
theorem groupComments_group {α : Type} (field : α → String) (stored : List α)
    (g : String × List α) (hg : g ∈ groupComments field stored) :
    g.2 = stored.filter (fun x => field x = g.1) ∧ g.2 ≠ [] := by
  unfold groupComments at hg
  rw [List.mem_map] at hg
  obtain ⟨k, hk, rfl⟩ := hg
  refine ⟨rfl, ?_⟩
  rw [List.mem_dedup, List.mem_map] at hk
  obtain ⟨x, hx, rfl⟩ := hk
  intro hnil
  have : x ∈ stored.filter (fun y => field y = field x) := by
    rw [List.mem_filter]; exact ⟨hx, by simp⟩
  simp only at hnil
  rw [hnil] at this
  exact List.not_mem_nil _ this

/-- C21: every list of comments that `GetCommentsForRepos` returns is sorted
by `Timestamp` ascending, on the store reached by any sequence of Puts and
Deletes.  Each list of a view is not empty, holds the stored comments of its
group only (the `Repo` of the view, the `Name` and the `Commit` of its
entries), and the time of a comment is not after the time of a later one. -/
theorem GetCommentsForRepos_sorted (cs : List CommentCall) (repos : List String)
    (cutoff : Time) :
    ∀ rc ∈ (CommentBox.after cs).GetCommentsForRepos repos cutoff,
      (∀ byName ∈ rc.TaskComments, ∀ byCommit ∈ byName.2,
        byCommit.2 ≠ [] ∧
        (∀ c ∈ byCommit.2, c ∈ (CommentBox.after cs).TaskComments ∧ c.Repo = rc.Repo ∧
          c.Name = byName.1 ∧ c.Commit = byCommit.1) ∧
        byCommit.2.Pairwise (fun x y => x.Timestamp.nanos ≤ y.Timestamp.nanos)) ∧
      (∀ byName ∈ rc.TaskSpecComments,
        byName.2 ≠ [] ∧
        (∀ c ∈ byName.2, c ∈ (CommentBox.after cs).TaskSpecComments ∧ c.Repo = rc.Repo ∧
          c.Name = byName.1) ∧
        byName.2.Pairwise (fun x y => x.Timestamp.nanos ≤ y.Timestamp.nanos)) ∧
      (∀ byCommit ∈ rc.CommitComments,
        byCommit.2 ≠ [] ∧
        (∀ c ∈ byCommit.2, c ∈ (CommentBox.after cs).CommitComments ∧ c.Repo = rc.Repo ∧
          c.Commit = byCommit.1) ∧
        byCommit.2.Pairwise (fun x y => x.Timestamp.nanos ≤ y.Timestamp.nanos)) := by
  intro rc hrc
  obtain ⟨h1, h2, h3⟩ := CommentBox.after_sorted cs
  unfold CommentBox.GetCommentsForRepos at hrc
  rw [List.mem_map] at hrc
  obtain ⟨repo, -, rfl⟩ := hrc
  refine ⟨?_, ?_, ?_⟩
  · intro byName hn byCommit hc
    simp only [CommentBox.commentsForRepo, List.mem_map] at hn
    obtain ⟨g, hg, rfl⟩ := hn
    obtain ⟨hg2, -⟩ := groupComments_group _ _ g hg
    obtain ⟨hc2, hne⟩ := groupComments_group _ _ byCommit hc
    refine ⟨hne, ?_, ?_⟩
    · intro c hcmem
      rw [hc2, List.mem_filter] at hcmem
      obtain ⟨hcg, hcommit⟩ := hcmem
      rw [hg2, List.mem_filter, List.mem_filter] at hcg
      obtain ⟨⟨hst, hrepo⟩, hname⟩ := hcg
      exact ⟨hst, by simpa using hrepo, by simpa using hname, by simpa using hcommit⟩
    · rw [hc2, hg2]
      exact List.Pairwise.filter _ (List.Pairwise.filter _ (List.Pairwise.filter _ h1))
  · intro byName hn
    simp only [CommentBox.commentsForRepo] at hn
    obtain ⟨hg2, hne⟩ := groupComments_group _ _ byName hn
    refine ⟨hne, ?_, ?_⟩
    · intro c hcmem
      rw [hg2, List.mem_filter, List.mem_filter] at hcmem
      obtain ⟨⟨hst, hrepo⟩, hname⟩ := hcmem
      exact ⟨hst, by simpa using hrepo, by simpa using hname⟩
    · rw [hg2]
      exact List.Pairwise.filter _ (List.Pairwise.filter _ h2)
  · intro byCommit hn
    simp only [CommentBox.commentsForRepo] at hn
    obtain ⟨hg2, hne⟩ := groupComments_group _ _ byCommit hn
    refine ⟨hne, ?_, ?_⟩
    · intro c hcmem
      rw [hg2, List.mem_filter, List.mem_filter] at hcmem
      obtain ⟨⟨hst, hrepo⟩, hcommit⟩ := hcmem
      exact ⟨hst, by simpa using hrepo, by simpa using hcommit⟩
    · rw [hg2]
      exact List.Pairwise.filter _ (List.Pairwise.filter _ h3)

/-- The comments `tc1`, `tc2`, `tc3` and `tc4` of `TestCommentDB`, put in this
order, are read back as `tc1, tc3, tc2` for the commit `c1` and `tc4` for the
commit `c2`, and after a Delete of `tc3` as `tc1, tc2`. -/
theorem GetCommentsForRepos_example :
    (CommentBox.after [.putTaskComment taskComment1, .putTaskComment taskComment2,
        .putTaskComment taskComment3, .putTaskComment taskComment4]).GetCommentsForRepos
        ["r0", "r1"] (unixTime 0)
      = [⟨"r0", [], [], []⟩,
         ⟨"r1", [("n1", [("c2", [taskComment4]),
            ("c1", [taskComment1, taskComment3, taskComment2])])], [], []⟩] ∧
    (CommentBox.after [.putTaskComment taskComment1, .putTaskComment taskComment2,
        .putTaskComment taskComment3, .putTaskComment taskComment4,
        .deleteTaskComment taskComment3]).GetCommentsForRepos ["r1"] (unixTime 0)
      = [⟨"r1", [("n1", [("c2", [taskComment4]),
            ("c1", [taskComment1, taskComment2])])], [], []⟩] := by
  decide

/-- The witness of C21: the comments `tc1`, `tc2`, `tc3` and `tc4` of
`TestCommentDB` are put in this order and `tc1, tc3, tc2` is read for the
commit `c1`. -/
theorem GetCommentsForRepos_sorted_witness :
    commentView ∈ (CommentBox.after commentCalls).GetCommentsForRepos ["r0", "r1"]
      (unixTime 0) ∧
    ("n1", [("c2", [taskComment4]), ("c1", [taskComment1, taskComment3, taskComment2])])
      ∈ commentView.TaskComments ∧
    [taskComment1, taskComment3, taskComment2].Pairwise
      (fun x y => x.Timestamp.nanos ≤ y.Timestamp.nanos) :=
  ⟨by decide, by decide,
    ((GetCommentsForRepos_sorted commentCalls ["r0", "r1"] (unixTime 0) commentView
      (by decide)).1
      ("n1", [("c2", [taskComment4]), ("c1", [taskComment1, taskComment3, taskComment2])])
      (by decide) ("c1", [taskComment1, taskComment3, taskComment2]) (by decide)).2.2⟩

/-! ### The traces of a digest -/

theorem buildTraces_example :
    buildTraces exampleIsMissing exampleClassification "test" "d0" exampleTraces ⟨3, 2⟩
      exampleTally = some exampleResult := by
  rfl

theorem digestIndexFrom_spec (d : String) (l : List DigestStatus) (i : Nat) :
    digestIndexFrom d i l = -1 ∨
      ∃ k, k < l.length ∧ digestIndexFrom d i l = ((i + k : Nat) : Int) ∧
        ∃ di, l.get? k = some di ∧ di.Digest = d := by
  induction l generalizing i with
  | nil => left; rfl
  | cons di rest ih =>
    rw [digestIndexFrom]
    by_cases hd : di.Digest = d
    · right
      refine ⟨0, by simp, by simp [hd], di, rfl, hd⟩
    · rw [if_neg hd]
      rcases ih (i + 1) with h | ⟨k, hk, hidx, dj, hget, hdj⟩
      · left; exact h
      · right
        refine ⟨k + 1, by simp; omega, ?_, dj, by simpa using hget, hdj⟩
        rw [hidx]
        congr 1
        omega

theorem pointStatus_spec (classification : String → String → String)
    (test digest v : String) (digests : List DigestStatus)
    (hlen : digests.length ≤ 9)
    (hhead : ∃ di, digests.head? = some di ∧ di.Digest = digest) :
    ((pointStatus classification test digest v digests).1.length ≤ 9 ∧
      ∃ di, (pointStatus classification test digest v digests).1.head? = some di ∧
        di.Digest = digest) ∧
    0 ≤ (pointStatus classification test digest v digests).2 ∧
    (pointStatus classification test digest v digests).2 ≤ 8 ∧
    ((pointStatus classification test digest v digests).2 = 0 ↔ v = digest) := by
  obtain ⟨d0, hd0, hd0eq⟩ := hhead
  unfold pointStatus
  by_cases hv : v = digest
  · rw [if_neg (by simpa using hv)]
    exact ⟨⟨hlen, d0, hd0, hd0eq⟩, le_refl _, by simp, by simp [hv]⟩
  · rw [if_pos hv]
    have hpos : 0 < digests.length := by
      cases digests with
      | nil => simp at hd0
      | cons a l => simp
    rcases digestIndexFrom_spec v digests 0 with h | ⟨k, hk, hidx, dj, hget, hdj⟩
    · have h' : digestIndex v digests = -1 := h
      rw [if_neg (by simp [h'])]
      by_cases hl : digests.length < 9
      · rw [if_pos hl]
        refine ⟨⟨by simp; omega, d0, ?_, hd0eq⟩, ?_, ?_, ?_⟩
        · cases digests with
          | nil => simp at hd0
          | cons a l => simpa using hd0
        · simp
        · simp; omega
        · simp only [List.length_append, List.length_singleton, Nat.cast_add, Nat.cast_one,
            add_sub_cancel_right]
          constructor
          · intro h0; omega
          · intro h0; exact absurd h0 hv
      · rw [if_neg hl]
        refine ⟨⟨hlen, d0, hd0, hd0eq⟩, by simp, le_refl _, ?_⟩
        constructor
        · intro h0; simp at h0
        · intro h0; exact absurd h0 hv
    · have h' : digestIndex v digests = ((0 + k : Nat) : Int) := hidx
      have hk0 : k ≠ 0 := by
        intro hk0
        subst hk0
        cases digests with
        | nil => simp at hd0
        | cons a l =>
          simp at hd0 hget
          subst hd0 hget
          exact hv (hdj.symm.trans hd0eq)
      have hne : digestIndex v digests ≠ -1 := by rw [h']; omega
      rw [if_pos hne, h']
      refine ⟨⟨hlen, d0, hd0, hd0eq⟩, by omega, by simp; omega, ?_⟩
      constructor
      · intro h0; simp at h0; exact absurd h0 hk0
      · intro h0; exact absurd h0 hv

theorem tracePoints_spec (isMissing : GoldenTrace → Nat → Bool)
    (classification : String → String → String) (test digest : String)
    (trace : GoldenTrace) (y : Int) (is : List Nat) (digests : List DigestStatus)
    (data : List Point) (r : List DigestStatus × List Point)
    (hlen : digests.length ≤ 9)
    (hhead : ∃ di, digests.head? = some di ∧ di.Digest = digest)
    (hdata : ∀ p ∈ data, 0 ≤ p.S ∧ p.S ≤ 8 ∧
      ∃ v, trace.Values.get? p.X.toNat = some v ∧ (p.S = 0 ↔ v = digest))
    (hr : tracePoints isMissing classification test digest trace y is digests data = some r) :
    (r.1.length ≤ 9 ∧ ∃ di, r.1.head? = some di ∧ di.Digest = digest) ∧
    ∀ p ∈ r.2, 0 ≤ p.S ∧ p.S ≤ 8 ∧
      ∃ v, trace.Values.get? p.X.toNat = some v ∧ (p.S = 0 ↔ v = digest) := by
  induction is generalizing digests data with
  | nil =>
    rw [tracePoints] at hr
    cases hr
    exact ⟨⟨hlen, hhead⟩, hdata⟩
  | cons i is ih =>
    rw [tracePoints] at hr
    by_cases hm : isMissing trace i = true
    · rw [if_pos hm] at hr
      exact ih digests data hlen hhead hdata hr
    · rw [if_neg hm] at hr
      cases hv : trace.Values.get? i with
      | none => simp only [hv] at hr; cases hr
      | some v =>
        simp only [hv] at hr
        obtain ⟨⟨hl, hh⟩, h0, h8, hiff⟩ :=
          pointStatus_spec classification test digest v digests hlen hhead
        refine ih _ _ hl hh ?_ hr
        intro p hp
        rw [List.mem_append, List.mem_singleton] at hp
        rcases hp with hp | rfl
        · exact hdata p hp
        · exact ⟨h0, h8, v, by simpa using hv, hiff⟩

theorem buildTracesLoop_spec (isMissing : GoldenTrace → Nat → Bool)
    (classification : String → String → String) (test digest : String) (last : Int)
    (traces : AList (fun _ : String => GoldenTrace))
    (traceTally : AList (fun _ : String => AList (fun _ : String => Int)))
    (ids : List String) (digests : List DigestStatus) (out : List Trace) (y : Int)
    (r : List DigestStatus × List Trace)
    (hlen : digests.length ≤ 9)
    (hhead : ids ≠ [] → ∃ di, digests.head? = some di ∧ di.Digest = digest)
    (hout : ∀ tr ∈ out, ∃ trace, traces.lookup tr.ID = some trace ∧
      ∀ p ∈ tr.Data, 0 ≤ p.S ∧ p.S ≤ 8 ∧
        ∃ v, trace.Values.get? p.X.toNat = some v ∧ (p.S = 0 ↔ v = digest))
    (hr : buildTracesLoop isMissing classification test digest last traces traceTally ids
      digests out y = some r) :
    r.1.length ≤ 9 ∧
    ∀ tr ∈ r.2, ∃ trace, traces.lookup tr.ID = some trace ∧
      ∀ p ∈ tr.Data, 0 ≤ p.S ∧ p.S ≤ 8 ∧
        ∃ v, trace.Values.get? p.X.toNat = some v ∧ (p.S = 0 ↔ v = digest) := by
  induction ids generalizing digests out y with
  | nil =>
    rw [buildTracesLoop] at hr
    cases hr
    exact ⟨hlen, hout⟩
  | cons id ids ih =>
    have hh := hhead (List.cons_ne_nil _ _)
    rw [buildTracesLoop] at hr
    by_cases ht : tallyHasDigest traceTally digest id = true
    · rw [if_pos ht] at hr
      cases hl : traces.lookup id with
      | none => simp only [hl] at hr; cases hr
      | some trace =>
        simp only [hl] at hr
        cases htf : traceFor isMissing classification test digest last id trace digests y with
        | none => simp only [htf] at hr; cases hr
        | some q =>
          simp only [htf] at hr
          unfold traceFor at htf
          rw [Option.map_eq_some'] at htf
          obtain ⟨q0, hq0, rfl⟩ := htf
          obtain ⟨⟨hl9, hhd⟩, hpts⟩ := tracePoints_spec isMissing classification test digest
            trace y (commitIndices last) digests [] q0 hlen hh
            (fun p hp => absurd hp (List.not_mem_nil p)) hq0
          refine ih _ _ _ hl9 (fun _ => hhd) ?_ hr
          intro tr htr
          rw [List.mem_append, List.mem_singleton] at htr
          rcases htr with htr | rfl
          · exact hout tr htr
          · refine ⟨trace, hl, ?_⟩
            intro p hp
            exact hpts p ((List.perm_insertionSort _ _).subset hp)
    · rw [if_neg ht] at hr
      exact ih digests out y hlen (fun _ => hh) hout hr

theorem tracePoints_returns (isMissing : GoldenTrace → Nat → Bool)
    (classification : String → String → String) (test digest : String)
    (trace : GoldenTrace) (y : Int) (is : List Nat) (digests : List DigestStatus)
    (data : List Point) (his : ∀ i ∈ is, i < trace.Values.length) :
    ∃ r, tracePoints isMissing classification test digest trace y is digests data
      = some r := by
  induction is generalizing digests data with
  | nil => exact ⟨_, by rw [tracePoints]⟩
  | cons i is ih =>
    have hi : i < trace.Values.length := his i (List.mem_cons_self _ _)
    have his' : ∀ j ∈ is, j < trace.Values.length :=
      fun j hj => his j (List.mem_cons_of_mem _ hj)
    rw [tracePoints]
    by_cases hm : isMissing trace i = true
    · rw [if_pos hm]
      exact ih digests data his'
    · rw [if_neg hm]
      obtain ⟨v, hv⟩ : ∃ v, trace.Values.get? i = some v :=
        ⟨trace.Values.get ⟨i, hi⟩, List.get?_eq_get hi⟩
      simp only [hv]
      exact ih _ _ his'

theorem buildTracesLoop_returns (isMissing : GoldenTrace → Nat → Bool)
    (classification : String → String → String) (test digest : String) (last : Int)
    (traces : AList (fun _ : String => GoldenTrace))
    (traceTally : AList (fun _ : String => AList (fun _ : String => Int)))
    (ids : List String) (digests : List DigestStatus) (out : List Trace) (y : Int)
    (hids : ∀ id ∈ ids, ∃ trace, traces.lookup id = some trace)
    (hvals : ∀ id trace, traces.lookup id = some trace →
      (last + 1).toNat ≤ trace.Values.length) :
    ∃ r, buildTracesLoop isMissing classification test digest last traces traceTally ids
      digests out y = some r := by
  induction ids generalizing digests out y with
  | nil => exact ⟨_, by rw [buildTracesLoop]⟩
  | cons id ids ih =>
    have hids' : ∀ j ∈ ids, ∃ trace, traces.lookup j = some trace :=
      fun j hj => hids j (List.mem_cons_of_mem _ hj)
    obtain ⟨trace, hl⟩ := hids id (List.mem_cons_self _ _)
    rw [buildTracesLoop]
    by_cases ht : tallyHasDigest traceTally digest id = true
    · rw [if_pos ht]
      simp only [hl]
      obtain ⟨q, hq⟩ := tracePoints_returns isMissing classification test digest trace y
        (commitIndices last) digests [] (by
          intro i hi
          have := hvals id trace hl
          simp only [commitIndices, List.mem_reverse, List.mem_range] at hi
          omega)
      simp only [traceFor, hq, Option.map_some']
      exact ih _ _ _ hids'
    · rw [if_neg ht]
      exact ih _ _ _ hids'

/-- The function `buildTraces` returns a result when every trace holds a value
for every commit index up to `tile.LastCommitIndex()`. -/
theorem buildTraces_returns (isMissing : GoldenTrace → Nat → Bool)
    (classification : String → String → String) (test digest : String)
    (traces : AList (fun _ : String => GoldenTrace)) (tile : Tile)
    (traceTally : AList (fun _ : String => AList (fun _ : String => Int)))
    (hvals : ∀ id trace, traces.lookup id = some trace →
      (tile.LastCommitIndex + 1).toNat ≤ trace.Values.length) :
    ∃ ret, buildTraces isMissing classification test digest traces tile traceTally
      = some ret := by
  obtain ⟨r, hr⟩ := buildTracesLoop_returns isMissing classification test digest
    tile.LastCommitIndex traces traceTally (traceNames traces)
    (firstDigests classification test digest (traceNames traces)) [] 0 (by
      intro id hid
      have hk : id ∈ traces.keys := (List.perm_insertionSort _ _).subset hid
      rw [← AList.mem_keys, ← AList.lookup_isSome] at hk
      exact Option.isSome_iff_exists.1 hk) hvals
  exact ⟨_, by rw [buildTraces, hr]; rfl⟩

/-- C30: in a result of `buildTraces` the list `Digests` holds at most 9
entries, and every `Point` of every `Trace` has a status `S` from 0 to 8 that
is 0 exactly when the value of the trace at the commit `X` is the searched
digest, for every map of traces, tile and tallies. -/
theorem buildTraces_status_range (isMissing : GoldenTrace → Nat → Bool)
    (classification : String → String → String) (test digest : String)
    (traces : AList (fun _ : String => GoldenTrace)) (tile : Tile)
    (traceTally : AList (fun _ : String => AList (fun _ : String => Int)))
    (ret : Traces)
    (hret : buildTraces isMissing classification test digest traces tile traceTally
      = some ret) :
    ret.Digests.length ≤ 9 ∧
    ∀ tr ∈ ret.Traces, ∃ trace, traces.lookup tr.ID = some trace ∧
      ∀ p ∈ tr.Data, 0 ≤ p.S ∧ p.S ≤ 8 ∧
        ∃ v, trace.Values.get? p.X.toNat = some v ∧ (p.S = 0 ↔ v = digest) := by
  unfold buildTraces at hret
  rw [Option.map_eq_some'] at hret
  obtain ⟨r, hr, rfl⟩ := hret
  refine buildTracesLoop_spec isMissing classification test digest tile.LastCommitIndex
    traces traceTally (traceNames traces) _ [] 0 r ?_ ?_
    (fun tr htr => absurd htr (List.not_mem_nil tr)) hr
  · unfold firstDigests
    split <;> simp
  · intro hne
    unfold firstDigests
    have hpos : (traceNames traces).length > 0 := List.length_pos.2 hne
    rw [if_pos hpos]
    exact ⟨_, rfl, rfl⟩

/-- The witness of C30: two traces of three commits, one with a missing
value, searched for the digest `d0`. -/
theorem buildTraces_status_range_witness :
    buildTraces exampleIsMissing exampleClassification "test" "d0" exampleTraces ⟨3, 2⟩
      exampleTally = some exampleResult ∧
    (exampleResult.Digests.length ≤ 9 ∧
      ∀ tr ∈ exampleResult.Traces, ∃ trace, exampleTraces.lookup tr.ID = some trace ∧
        ∀ p ∈ tr.Data, 0 ≤ p.S ∧ p.S ≤ 8 ∧
          ∃ v, trace.Values.get? p.X.toNat = some v ∧ (p.S = 0 ↔ v = "d0")) :=
  ⟨by rfl,
    buildTraces_status_range exampleIsMissing exampleClassification "test" "d0"
      exampleTraces ⟨3, 2⟩ exampleTally exampleResult (by rfl)⟩

end Db
